import Mathlib

/-!
# TinyML step counter

A shallow embedding of the statistical feature extractor
(`statisticalfeatures.cpp`) and of the window assembler / predictor
(`stepcounter.cpp`) of the TinyML step counter, together with theorems about
them.

Conventions of the embedding.

* Machine integers are mathematical integers; every conversion to a fixed
  width that the C++ code performs is written out with `toInt16`, `toInt32`,
  `toInt64`, `toUInt8`, `toUInt16` or `toUInt32` (reduction modulo a power of
  two).
* An operation whose behaviour the language leaves undefined (an integer
  division by zero, an array access past the end) yields `none`.
* A `for` loop is `forLoop`; its body is a function of the loop counter and of
  the variables the loop updates.
* The threads `bufferPiping` and `predictSteps` meet only when a full buffer is
  handed over: `forwardData` gives `bufferReadySemaphore` and waits for
  `bufferProcessedSemaphore`. The embedding runs the iteration of
  `predictSteps` at that point of `forwardData`.
-/

/-! ## Fixed-width integers -/

/-- Conversion to `int16_t`: reduction modulo `2^16` into `[-32768, 32767]`. -/
def toInt16 (v : Int) : Int := (v + 32768) % 65536 - 32768

/-- Conversion to `int32_t` (the type `int` of the target): reduction modulo
`2^32` into `[-2147483648, 2147483647]`. -/
def toInt32 (v : Int) : Int := (v + 2147483648) % 4294967296 - 2147483648

/-- Conversion to `int64_t`: reduction modulo `2^64`. -/
def toInt64 (v : Int) : Int :=
  (v + 9223372036854775808) % 18446744073709551616 - 9223372036854775808

/-- Conversion to `uint8_t`: reduction modulo `2^8`. -/
def toUInt8 (n : Nat) : Nat := n % 256

/-- Conversion to `uint16_t`: reduction modulo `2^16`. -/
def toUInt16 (n : Nat) : Nat := n % 65536

/-- Conversion to `uint32_t`: reduction modulo `2^32` into `[0, 2^32)`. -/
def toUInt32 (v : Int) : Nat := (v % 4294967296).toNat

/-- The values an `int16_t` can hold. -/
def isInt16 (v : Int) : Prop := -32768 ≤ v ∧ v ≤ 32767

instance (v : Int) : Decidable (isInt16 v) := by unfold isInt16; infer_instance

/-! ## config.h -/

/-- Sample rate of accelerometer in Hz. -/
def ACCELEROMETER_SAMPLE_RATE_HZ : Nat := 100

/-- Size of buffer for ML algorithm in milliseconds. -/
def DATA_BUFFER_SIZE_MS : Nat := 1000

/-- Size of buffer for ML algorithm in samples. -/
def DATA_BUFFER_SIZE : Nat := (DATA_BUFFER_SIZE_MS * ACCELEROMETER_SAMPLE_RATE_HZ) / 1000

/-- Axis of accelerometer. -/
inductive AXIS_T where
  | AXIS_X
  | AXIS_Y
  | AXIS_Z
  deriving DecidableEq

/-- Structure for storing acceleration samples: `timestamp` is a `uint32_t`,
`x`, `y`, `z` are the three `int16_t` entries of the array `acceleration`, and
`step` is the step flag. -/
structure acceleration_sample_t where
  timestamp : Nat
  x : Int
  y : Int
  z : Int
  step : Bool
  deriving DecidableEq

/-- Entry `acceleration[axis]` of a sample. -/
def acceleration_sample_t.acceleration (s : acceleration_sample_t) : AXIS_T → Int
  | AXIS_T.AXIS_X => s.x
  | AXIS_T.AXIS_Y => s.y
  | AXIS_T.AXIS_Z => s.z

/-- A sample whose three acceleration entries are `int16_t` values. -/
def acceleration_sample_t.wf (s : acceleration_sample_t) : Prop :=
  isInt16 s.x ∧ isInt16 s.y ∧ isInt16 s.z

instance (s : acceleration_sample_t) : Decidable s.wf := by
  unfold acceleration_sample_t.wf; infer_instance

/-- The sample `{ 0 }`. -/
def zeroSample : acceleration_sample_t := ⟨0, 0, 0, 0, false⟩

/-! ## Loops and array stores -/

/-- The loop `for (i = start; i < size; i++) body`, given as
`forLoop body (size - start) start init`: `n` iterations remain, `i` is the
counter and `s` the variables updated by the body. The counter is never
above `size`, an 8-bit value, so it does not wrap. -/
def forLoop {σ : Type} (body : Nat → σ → Option σ) : Nat → Nat → σ → Option σ
  | 0, _, s => some s
  | n + 1, i, s => (body i s).bind (forLoop body n (i + 1))

/-- The store `features[i] = v`; a store past the end of the array is
undefined. -/
def store (features : List Int) (i : Nat) (v : Int) : Option (List Int) :=
  if i < features.length then some (features.set i v) else none

/-! ## statisticalfeatures.cpp -/

/-- Calculates the mean of the given samples for the specified axis. -/
def statisticalfeatures_mean (samples : List acceleration_sample_t) (size : Nat)
    (axis : AXIS_T) : Option Int := do
  let sum ← forLoop (fun i (sum : Int) => do
    let s ← samples[i]?
    pure (toInt32 (sum + s.acceleration axis))) (size - 0) 0 0
  if size = 0 then none else pure (toInt16 (Int.tdiv sum size))

/-- Calculates the maximum value of the given samples for the specified axis. -/
def statisticalfeatures_max (samples : List acceleration_sample_t) (size : Nat)
    (axis : AXIS_T) : Option Int := do
  let first ← samples[0]?
  forLoop (fun i (maxVal : Int) => do
    let s ← samples[i]?
    pure (if s.acceleration axis > maxVal then s.acceleration axis else maxVal))
    (size - 1) 1 (first.acceleration axis)

/-- Calculates the minimum value of the given samples for the specified axis. -/
def statisticalfeatures_min (samples : List acceleration_sample_t) (size : Nat)
    (axis : AXIS_T) : Option Int := do
  let first ← samples[0]?
  forLoop (fun i (minVal : Int) => do
    let s ← samples[i]?
    pure (if s.acceleration axis < minVal then s.acceleration axis else minVal))
    (size - 1) 1 (first.acceleration axis)

/-- The function `statisticalfeatures_std`: the sum of the squared
differences to `mean`, divided by `size - 1`. The difference is computed in
`int`, the product and the sum in `int64_t`; the divisor `size - 1` is an
`int`. -/
def statisticalfeatures_std (samples : List acceleration_sample_t) (size : Nat)
    (axis : AXIS_T) (mean : Int) : Option Int := do
  let sum ← forLoop (fun i (sum : Int) => do
    let s ← samples[i]?
    pure (toInt64 (sum + toInt64 (toInt64 (toInt32 (s.acceleration axis - mean))
      * toInt32 (s.acceleration axis - mean))))) (size - 0) 0 0
  if (size : Int) - 1 = 0 then none
  else pure (toInt16 (toInt64 (Int.tdiv sum ((size : Int) - 1))))

/-- Calculates the mean absolute difference of the given samples for the
specified axis. -/
def statisticalfeatures_mean_abs_diff (samples : List acceleration_sample_t) (size : Nat)
    (axis : AXIS_T) (mean : Int) : Option Int := do
  let sum ← forLoop (fun i (sum : Int) => do
    let s ← samples[i]?
    let diff := toInt32 (if s.acceleration axis > mean
      then toInt32 (s.acceleration axis - mean)
      else toInt32 (mean - s.acceleration axis))
    pure (toInt32 (sum + diff))) (size - 0) 0 0
  if size = 0 then none else pure (toInt16 (Int.tdiv sum size))

/-- Calculates the maximum - minimum difference of the given samples for the
specified axis. -/
def statisticalfeatures_max_min_diff (samples : List acceleration_sample_t) (size : Nat)
    (axis : AXIS_T) : Option Int := do
  let maxVal ← statisticalfeatures_max samples size axis
  let minVal ← statisticalfeatures_min samples size axis
  pure (toInt16 (toInt32 (maxVal - minVal)))

/-- Calculates statistical features. `size` is a `uint16_t`; every helper
takes it as a `uint8_t`. The result is the returned status together with the
array `features` after the six stores. -/
def statisticalfeatures_getFeatures (samples : List acceleration_sample_t) (size : Nat)
    (features : List Int) : Option (Nat × List Int) := do
  let some mean_z_val := statisticalfeatures_mean samples (toUInt8 size) AXIS_T.AXIS_Z | none
  let some f0 := statisticalfeatures_std samples (toUInt8 size) AXIS_T.AXIS_Z mean_z_val | none
  let some features := store features 0 f0 | none
  let some f1 := statisticalfeatures_mean_abs_diff samples (toUInt8 size) AXIS_T.AXIS_Z mean_z_val
    | none
  let some features := store features 1 f1 | none
  let some f2 := statisticalfeatures_min samples (toUInt8 size) AXIS_T.AXIS_Y | none
  let some features := store features 2 f2 | none
  let some f3 := statisticalfeatures_max_min_diff samples (toUInt8 size) AXIS_T.AXIS_X | none
  let some features := store features 3 f3 | none
  let some f4 := statisticalfeatures_max_min_diff samples (toUInt8 size) AXIS_T.AXIS_Y | none
  let some features := store features 4 f4 | none
  let some f5 := statisticalfeatures_max_min_diff samples (toUInt8 size) AXIS_T.AXIS_Z | none
  let some features := store features 5 f5 | none
  pure (0, features)

/-! ## Mathematical counterparts used in the statements -/

/-- The values of one axis over a window. -/
def axisValues (samples : List acceleration_sample_t) (axis : AXIS_T) : List Int :=
  samples.map (fun s => s.acceleration axis)

/-- The integer mean: the sum divided by the number of values, truncated
toward zero. -/
def integerMean (vs : List Int) : Int := Int.tdiv vs.sum vs.length

/-- The sum of the squared differences to `m`. -/
def sumSquaredDiff (vs : List Int) (m : Int) : Int := (vs.map (fun v => (v - m) ^ 2)).sum

/-- The sum of the absolute differences to `m`. -/
def sumAbsDiff (vs : List Int) (m : Int) : Int := (vs.map (fun v => |v - m|)).sum

/-- The greatest value of a list: a member that bounds every member. -/
def isMaxOf (M : Int) (vs : List Int) : Prop := M ∈ vs ∧ ∀ v ∈ vs, v ≤ M

/-- The least value of a list: a member below every member. -/
def isMinOf (m : Int) (vs : List Int) : Prop := m ∈ vs ∧ ∀ v ∈ vs, m ≤ v

instance (M : Int) (vs : List Int) : Decidable (isMaxOf M vs) := by
  unfold isMaxOf; infer_instance

instance (m : Int) (vs : List Int) : Decidable (isMinOf m vs) := by
  unfold isMinOf; infer_instance

/-! ## stepcounter.h, stepcounter.cpp -/

/-- Number of features computed by `statisticalfeatures_getFeatures`. -/
def STATISTICALFEATURES_NUM_FEATURES : Nat := 6

/-- The states of the stepcounter state machine. -/
inductive stepcounter_state_t where
  | STEPCOUNTER_STATE_IDLE
  | STEPCOUNTER_STATE_BEGIN
  | STEPCOUNTER_STATE_RUNNING
  | STEPCOUNTER_STATE_FINISH
  deriving DecidableEq

/-- One call of `countSteps`, as observed from outside: the buffer it was
given, the feature vector it handed to the predictor, and the number of steps
it returned. -/
structure countSteps_call where
  window : List acceleration_sample_t
  features : List Int
  steps : Int
  deriving DecidableEq

/-- The members of class `stepcounter` that carry data: `stepCount`
(`uint32_t`), the content of the queue `dataQueue` points to (oldest sample
first), `buffer`, `bufferWriteIndex` (`uint16_t`), `state` and
`firstBufferFilled`. The last three fields are not members of the class; they
record what the object did: how often `bufferReadySemaphore` and
`bufferProcessedSemaphore` were given, and the calls of `countSteps` in the
order they were made. -/
structure stepcounter where
  stepCount : Nat
  dataQueue : List acceleration_sample_t
  buffer : List acceleration_sample_t
  bufferWriteIndex : Nat
  state : stepcounter_state_t
  firstBufferFilled : Bool
  bufferReadyGiven : Nat
  bufferProcessedGiven : Nat
  countStepsCalls : List countSteps_call
  deriving DecidableEq

/-- The platform call `os_queue_take` on a queue that no producer is writing
to: status 0 with the oldest sample when the queue holds one, a non-zero
status when the timeout expires on an empty queue (the sample is then left as
it was initialised, `{ 0 }`). -/
def os_queue_take (queue : List acceleration_sample_t) :
    Int × acceleration_sample_t × List acceleration_sample_t :=
  match queue with
  | [] => (1, zeroSample, [])
  | sample :: rest => (0, sample, rest)

/-- The store `buffer[i] = sample`; a store past the end of the array is
undefined. -/
def storeSample (buffer : List acceleration_sample_t) (i : Nat)
    (sample : acceleration_sample_t) : Option (List acceleration_sample_t) :=
  if i < buffer.length then some (buffer.set i sample) else none

/-- Use ML algorithm to detect how many steps a buffer of size
`DATA_BUFFER_SIZE` contains. The predictor `step_counter_model_predict` is
not part of the repository and is a parameter; its result is converted to
`int`. The result is the returned number of steps together with the feature
vector that was handed to the predictor. -/
def countSteps (step_counter_model_predict : List Int → Nat → Int)
    (buffer : List acceleration_sample_t) : Option (Int × List Int) := do
  let features := List.replicate STATISTICALFEATURES_NUM_FEATURES (0 : Int)
  let (_, features) ←
    statisticalfeatures_getFeatures buffer (toUInt16 DATA_BUFFER_SIZE) features
  let steps := toInt32 (step_counter_model_predict features STATISTICALFEATURES_NUM_FEATURES)
  pure (steps, features)

/-- One iteration of the loop of `predictSteps`, from the moment
`bufferReadySemaphore` has been taken: the first buffer after a Begin is
ignored, every other buffer is counted (`stepCount += countSteps(buffer)`, an
addition of an `int` to a `uint32_t`); then `bufferProcessedSemaphore` is
given. -/
def predictSteps (step_counter_model_predict : List Int → Nat → Int)
    (self : stepcounter) : Option stepcounter := do
  let self ←
    if self.firstBufferFilled then do
      let (steps, features) ← countSteps step_counter_model_predict self.buffer
      pure { self with
        stepCount := toUInt32 ((self.stepCount : Int) + steps)
        countStepsCalls := self.countStepsCalls ++ [⟨self.buffer, features, steps⟩] }
    else
      pure { self with firstBufferFilled := true }
  pure { self with bufferProcessedGiven := self.bufferProcessedGiven + 1 }

/-- Forward data from queue to double buffer. When the write index wraps to
zero, `bufferReadySemaphore` is given and the call blocks until
`bufferProcessedSemaphore` is given back: the iteration of `predictSteps`
that this wakes runs to its end before the call continues. The result is the
returned status and the object afterwards. -/
def stepcounter.forwardData (step_counter_model_predict : List Int → Nat → Int)
    (self : stepcounter) : Option (Int × stepcounter) := do
  let (status, sample, rest) := os_queue_take self.dataQueue
  let self := { self with dataQueue := rest }
  if status = 0 then
    let buffer ← storeSample self.buffer self.bufferWriteIndex sample
    let self := { self with buffer := buffer }
    let self := { self with
      bufferWriteIndex := toUInt16 ((self.bufferWriteIndex + 1) % DATA_BUFFER_SIZE) }
    if self.bufferWriteIndex = 0 then
      let self := { self with bufferReadyGiven := self.bufferReadyGiven + 1 }
      let self ← predictSteps step_counter_model_predict self
      pure (status, self)
    else
      pure (status, self)
  else
    pure (status, self)

/-- The loop `while ( self->forwardData() == 0 ) { }` of the Finish state;
`fuel` bounds the number of calls. -/
def finishLoop (step_counter_model_predict : List Int → Nat → Int) :
    Nat → stepcounter → Option stepcounter
  | 0, _ => none
  | fuel + 1, self => do
    let (status, self) ← self.forwardData step_counter_model_predict
    if status = 0 then finishLoop step_counter_model_predict fuel self else pure self

/-- One iteration of the loop of `bufferPiping`. In the Finish state the
queue is forwarded until it is empty, which takes one call of `forwardData`
more than the queue holds samples. In the Idle state the thread sleeps on
`stateUpdateSemaphore`. -/
def bufferPiping (step_counter_model_predict : List Int → Nat → Int)
    (self : stepcounter) : Option stepcounter :=
  match self.state with
  | stepcounter_state_t.STEPCOUNTER_STATE_BEGIN =>
    pure { self with
      firstBufferFilled := false
      state := stepcounter_state_t.STEPCOUNTER_STATE_RUNNING }
  | stepcounter_state_t.STEPCOUNTER_STATE_RUNNING => do
    let (_, self) ← self.forwardData step_counter_model_predict
    pure self
  | stepcounter_state_t.STEPCOUNTER_STATE_FINISH => do
    let self ← finishLoop step_counter_model_predict (self.dataQueue.length + 1) self
    pure { self with state := stepcounter_state_t.STEPCOUNTER_STATE_IDLE }
  | stepcounter_state_t.STEPCOUNTER_STATE_IDLE => pure self

/-- The constructor: the state is Idle and the buffer is zeroes; the object
has static storage, so its other members start as zero. -/
def stepcounter.new (dataQueue : List acceleration_sample_t) : stepcounter :=
  { stepCount := 0
    dataQueue := dataQueue
    buffer := List.replicate DATA_BUFFER_SIZE zeroSample
    bufferWriteIndex := 0
    state := stepcounter_state_t.STEPCOUNTER_STATE_IDLE
    firstBufferFilled := false
    bufferReadyGiven := 0
    bufferProcessedGiven := 0
    countStepsCalls := [] }

/-- Starts predicting step count asynchronously. -/
def stepcounter.start (self : stepcounter) : Int × stepcounter :=
  (0, { self with state := stepcounter_state_t.STEPCOUNTER_STATE_BEGIN })

/-- Stops predicting step count. -/
def stepcounter.stop (self : stepcounter) : Int × stepcounter :=
  (0, { self with state := stepcounter_state_t.STEPCOUNTER_STATE_FINISH })

/-- The sample source puts one sample at the tail of the queue. -/
def stepcounter.enqueue (self : stepcounter) (sample : acceleration_sample_t) : stepcounter :=
  { self with dataQueue := self.dataQueue ++ [sample] }

/-- Calls `forwardData` `k` times, each of which has to pop a sample
(status 0). -/
def forwardDataN (step_counter_model_predict : List Int → Nat → Int) :
    Nat → stepcounter → Option stepcounter
  | 0, self => some self
  | k + 1, self => do
    let (status, self) ← self.forwardData step_counter_model_predict
    if status = 0 then forwardDataN step_counter_model_predict k self else none

/-! ## Concrete inputs -/

/-- A window of three samples. -/
def exampleWindow : List acceleration_sample_t :=
  [⟨0, 1, 2, 3, false⟩, ⟨10, 4, -5, 6, false⟩, ⟨20, 7, 8, 10, false⟩]

/-- A window of one sample. -/
def singleSampleWindow : List acceleration_sample_t := [⟨0, 3, -4, 5, false⟩]

/-- A window of two samples whose z values are the extreme 16-bit values. -/
def extremeWindow : List acceleration_sample_t :=
  [⟨0, 0, 0, -32768, false⟩, ⟨10, 0, 0, 32767, false⟩]

/-- An array of six features, all zero, as `countSteps` declares it. -/
def zeroFeatures : List Int := List.replicate STATISTICALFEATURES_NUM_FEATURES 0

/-- A window of `n` samples that are all `{ 0 }`. -/
def zeroWindow (n : Nat) : List acceleration_sample_t := List.replicate n zeroSample

/-! ## Runs of the step counter -/

/-- The data invariant of a `stepcounter` object: `stepCount` is a
`uint32_t`, `buffer` has `DATA_BUFFER_SIZE` entries and `bufferWriteIndex` is
an index into it. -/
def stepcounter.inv (self : stepcounter) : Prop :=
  self.stepCount < 4294967296 ∧ self.buffer.length = DATA_BUFFER_SIZE
    ∧ self.bufferWriteIndex < DATA_BUFFER_SIZE

instance (self : stepcounter) : Decidable self.inv := by
  unfold stepcounter.inv; infer_instance

/-- What can happen to a `stepcounter` object between two moments: the sample
source puts a sample into the queue, the thread `bufferPiping` runs one
iteration of its loop (during which the thread `predictSteps` runs an
iteration whenever a buffer is handed over), or another thread calls `start`
or `stop`. -/
inductive stepcounter_event where
  | enqueue (sample : acceleration_sample_t)
  | pipe
  | start
  | stop
  deriving DecidableEq

/-- The effect of one event. -/
def runEvent (step_counter_model_predict : List Int → Nat → Int)
    (e : stepcounter_event) (self : stepcounter) : Option stepcounter :=
  match e with
  | stepcounter_event.enqueue sample => some (self.enqueue sample)
  | stepcounter_event.pipe => bufferPiping step_counter_model_predict self
  | stepcounter_event.start => some self.start.2
  | stepcounter_event.stop => some self.stop.2

/-- The effect of a sequence of events, first to last. -/
def runEvents (step_counter_model_predict : List Int → Nat → Int) :
    List stepcounter_event → stepcounter → Option stepcounter
  | [], self => some self
  | e :: es, self =>
    (runEvent step_counter_model_predict e self).bind
      (runEvents step_counter_model_predict es)

/-- A sample whose acceleration is `(0, 0, 0)`. -/
def acceleration_sample_t.isZero (s : acceleration_sample_t) : Prop :=
  s.x = 0 ∧ s.y = 0 ∧ s.z = 0

instance (s : acceleration_sample_t) : Decidable s.isZero := by
  unfold acceleration_sample_t.isZero; infer_instance

/-- The steps returned by a sequence of calls of `countSteps`, added up. -/
def totalSteps (calls : List countSteps_call) : Int := (calls.map (fun c => c.steps)).sum

/-- A call of `countSteps` whose record is what the code computes on its
window: the window is a full buffer, the features are those of the window, and
the steps are the predictor's output for these features, as an `int`. -/
def countSteps_call.genuine (step_counter_model_predict : List Int → Nat → Int)
    (c : countSteps_call) : Prop :=
  c.window.length = DATA_BUFFER_SIZE
    ∧ statisticalfeatures_getFeatures c.window DATA_BUFFER_SIZE zeroFeatures
        = some (0, c.features)
    ∧ c.steps = toInt32 (step_counter_model_predict c.features STATISTICALFEATURES_NUM_FEATURES)

/-- How an object `s` relates to the object `s0` it was when the Begin step
was about to run, as long as no other Begin step has run: the calls of
`countSteps` made since are `calls`; none was made before the first buffer was
handed over, and one for each buffer handed over after the first;
`stepCount` has grown by the steps these calls returned. -/
def sinceBegin (step_counter_model_predict : List Int → Nat → Int)
    (s0 s : stepcounter) (calls : List countSteps_call) : Prop :=
  s.state ≠ stepcounter_state_t.STEPCOUNTER_STATE_BEGIN
    ∧ s.countStepsCalls = s0.countStepsCalls ++ calls
    ∧ (∀ c ∈ calls, c.genuine step_counter_model_predict)
    ∧ s.stepCount = toUInt32 ((s0.stepCount : Int) + totalSteps calls)
    ∧ s.bufferReadyGiven
        = s0.bufferReadyGiven + (if s.firstBufferFilled then calls.length + 1 else 0)
    ∧ (s.firstBufferFilled = false → calls = [])

/-- How an object `s` relates to an earlier object `s0` of the same run: the
calls of `countSteps` made in between are `calls`, and `stepCount` is the
earlier one plus the steps these calls returned, as a `uint32_t`. -/
def countedSince (step_counter_model_predict : List Int → Nat → Int)
    (s0 s : stepcounter) (calls : List countSteps_call) : Prop :=
  s.countStepsCalls = s0.countStepsCalls ++ calls
    ∧ (∀ c ∈ calls, c.genuine step_counter_model_predict)
    ∧ s.stepCount = toUInt32 ((s0.stepCount : Int) + totalSteps calls)

/-- A predictor that returns `n` for every feature vector. -/
def constantPredictor (n : Int) : List Int → Nat → Int := fun _ _ => n

/-- The object after construction over a queue of 250 samples. -/
def exampleCounter : stepcounter := stepcounter.new (zeroWindow 250)

/-- The object after construction over a queue of three samples and a call of
`start`. -/
def startedCounter : stepcounter := (stepcounter.new exampleWindow).start.2

/-- The object after construction over a queue of 300 samples `{ 0 }` and a
call of `start`. -/
def startedZeroCounter : stepcounter :=
  (stepcounter.new (zeroWindow 100 ++ (zeroWindow 100 ++ (zeroWindow 100 ++ [])))).start.2

/-- An object that has counted 5 steps and is past its first buffer. -/
def countingCounter : stepcounter :=
  { stepcounter.new [] with stepCount := 5, firstBufferFilled := true }

/-- An object whose `stepCount` is the greatest `uint32_t` and that is past
its first buffer. -/
def saturatedCounter : stepcounter :=
  { stepcounter.new [] with stepCount := 4294967295, firstBufferFilled := true }

/-! ## Platform calls: semaphores and the queue -/

/-- Maximum count of the semaphores (config.h). -/
def SEMAPHORE_MAX_COUNT : Nat := 10

/-- The platform call `os_semaphore_give` on a counting semaphore created with
`os_semaphore_create( .., SEMAPHORE_MAX_COUNT, 0 )`, given by its count:
status 0 and one more, or a non-zero status when the count is at its
maximum. -/
def os_semaphore_give (count : Nat) : Int × Nat :=
  if count < SEMAPHORE_MAX_COUNT then (0, count + 1) else (1, count)

/-- The platform call `os_semaphore_take( .., CONCURRENT_WAIT_FOREVER, .. )`:
the caller goes on with one less once the count is positive, and waits
(`none`) while it is zero. -/
def os_semaphore_take (count : Nat) : Option Nat :=
  if 0 < count then some (count - 1) else none

/-- The platform call `os_queue_put` on the queue created with
`os_queue_create( .., DATA_BUFFER_SIZE, .. )` that no consumer is reading
from: status 0 with the item at the tail when there is room, a non-zero status
and the queue as it was when the timeout expires on a full queue. -/
def os_queue_put (queue : List acceleration_sample_t) (item : acceleration_sample_t) :
    Int × List acceleration_sample_t :=
  if queue.length < DATA_BUFFER_SIZE then (0, queue ++ [item]) else (1, queue)

/-! ## accelerometer.h, accelerometer.cpp -/

/-- Accelerometer state machine state. -/
inductive accelerometer_state_t where
  | ACCELEROMETER_STATE_IDLE
  | ACCELEROMETER_STATE_RUNNING
  deriving DecidableEq

/-- The members of class `accelerometer` that carry data: `state`,
`detectStep` and the count of `stateUpdateSemaphore`. -/
structure accelerometer where
  state : accelerometer_state_t
  detectStep : Bool
  stateUpdateSemaphore : Nat
  deriving DecidableEq

/-- What the thread `getMeasurement` works on: the object, its local variable
`sample` (declared before the loop), the flag `stepDetected` set by the step
interrupt, whether that interrupt is attached, the content of the queue
(oldest sample first), and whether `System.reset()` has been called. -/
structure measurement_thread where
  self : accelerometer
  sample : acceleration_sample_t
  stepDetected : Bool
  interruptAttached : Bool
  dataQueue : List acceleration_sample_t
  resetCalled : Bool
  deriving DecidableEq

/-- Step interrupt handler. -/
def stepDetectedInterrupt (t : measurement_thread) : measurement_thread :=
  { t with stepDetected := true, interruptAttached := false }

/-- One iteration of the loop of `getMeasurement`. `millis` is what
`millis()` returns and `x`, `y`, `z` what `readAcceleration` stores. In the
Idle state the thread sleeps on `stateUpdateSemaphore`. -/
def getMeasurement (millis : Nat) (x y z : Int) (t : measurement_thread) :
    measurement_thread :=
  match t.self.state with
  | accelerometer_state_t.ACCELEROMETER_STATE_RUNNING =>
    let t :=
      if t.self.detectStep then
        let t := { t with sample := { t.sample with step := t.stepDetected } }
        if t.stepDetected then { t with stepDetected := false, interruptAttached := true }
        else t
      else t
    let t := { t with sample := { t.sample with timestamp := millis } }
    let t := { t with sample := { t.sample with x := x, y := y, z := z } }
    let (status, queue) := os_queue_put t.dataQueue t.sample
    let t := { t with dataQueue := queue }
    if status ≠ 0 then { t with resetCalled := true } else t
  | accelerometer_state_t.ACCELEROMETER_STATE_IDLE =>
    match os_semaphore_take t.self.stateUpdateSemaphore with
    | some count => { t with self := { t.self with stateUpdateSemaphore := count } }
    | none => t

/-- The constructor of `accelerometer`; the object has static storage, so
`detectStep` starts as false. -/
def accelerometer.new : accelerometer :=
  { state := accelerometer_state_t.ACCELEROMETER_STATE_IDLE
    detectStep := false
    stateUpdateSemaphore := 0 }

/-- Starts reading accelerometer data asynchronously to the queue. -/
def accelerometer.start (self : accelerometer) : Int × accelerometer :=
  (0, { self with
    state := accelerometer_state_t.ACCELEROMETER_STATE_RUNNING
    stateUpdateSemaphore := (os_semaphore_give self.stateUpdateSemaphore).2 })

/-- Stops data reading. -/
def accelerometer.stop (self : accelerometer) : Int × accelerometer :=
  (0, { self with state := accelerometer_state_t.ACCELEROMETER_STATE_IDLE })

/-! ## TinyML-step-counter.cpp -/

/-- State of system for state machine. -/
inductive MEASURING_STATE_T where
  | MEASURING_STATE_IDLE
  | MEASURING_STATE_BEGIN
  | MEASURING_STATE_RUNNING
  | MEASURING_STATE_FINISH
  deriving DecidableEq

/-- The variables of the main file, built with `PREDICTION_ENABLED` and
`PARTICLE_CONNECTION` true and `DATA_COLLECTION_ENABLED` false:
`measuringState`, the count of `stateUpdateSemaphore`, the level of `LED_PIN`,
and the objects `accel` and `stepCounter` (the queue is held by
`stepCounter`). The last three fields record what the program did: the step
counts it logged, the step counts it published, and whether `System.reset()`
has been called. -/
structure main_state where
  measuringState : MEASURING_STATE_T
  stateUpdateSemaphore : Nat
  ledPin : Bool
  accel : accelerometer
  stepCounter : stepcounter
  logged : List Nat
  published : List Nat
  resetCalled : Bool
  deriving DecidableEq

/-- The state when `setup` has returned: the LED is off, the state is Idle and
the step counter has been constructed over the queue. -/
def main_state.afterSetup (dataQueue : List acceleration_sample_t) : main_state :=
  { measuringState := MEASURING_STATE_T.MEASURING_STATE_IDLE
    stateUpdateSemaphore := 0
    ledPin := false
    accel := accelerometer.new
    stepCounter := stepcounter.new dataQueue
    logged := []
    published := []
    resetCalled := false }

/-- The function `loop`, which runs on repeat after setup. In the Idle and
Running states it sleeps on `stateUpdateSemaphore`. -/
def loop (m : main_state) : main_state :=
  match m.measuringState with
  | MEASURING_STATE_T.MEASURING_STATE_BEGIN =>
    let m := { m with ledPin := true }
    let m := { m with measuringState := MEASURING_STATE_T.MEASURING_STATE_RUNNING }
    let (status, accel) := m.accel.start
    let m := { m with accel := accel }
    let m := if status ≠ 0 then { m with resetCalled := true } else m
    let (status, stepCounter) := m.stepCounter.start
    let m := { m with stepCounter := stepCounter }
    if status ≠ 0 then { m with resetCalled := true } else m
  | MEASURING_STATE_T.MEASURING_STATE_FINISH =>
    let (status, accel) := m.accel.stop
    let m := { m with accel := accel }
    let m := if status ≠ 0 then { m with resetCalled := true } else m
    let (status, stepCounter) := m.stepCounter.stop
    let m := { m with stepCounter := stepCounter }
    let m := if status ≠ 0 then { m with resetCalled := true } else m
    let m := { m with logged := m.logged ++ [m.stepCounter.stepCount] }
    let m := { m with published := m.published ++ [m.stepCounter.stepCount] }
    let m := { m with ledPin := false }
    { m with measuringState := MEASURING_STATE_T.MEASURING_STATE_IDLE }
  | _ =>
    match os_semaphore_take m.stateUpdateSemaphore with
    | some count => { m with stateUpdateSemaphore := count }
    | none => m

/-- The handler of the button click. -/
def buttonHandler (m : main_state) : main_state :=
  match m.measuringState with
  | MEASURING_STATE_T.MEASURING_STATE_IDLE =>
    let m := { m with measuringState := MEASURING_STATE_T.MEASURING_STATE_BEGIN }
    { m with stateUpdateSemaphore := (os_semaphore_give m.stateUpdateSemaphore).2 }
  | MEASURING_STATE_T.MEASURING_STATE_RUNNING =>
    let m := { m with measuringState := MEASURING_STATE_T.MEASURING_STATE_FINISH }
    { m with stateUpdateSemaphore := (os_semaphore_give m.stateUpdateSemaphore).2 }
  | _ => m

/-- A step of the main program: a button click (trigger) or one call of
`loop` (scheduler). -/
inductive main_event where
  | trigger
  | scheduler
  deriving DecidableEq

/-- The effect of one step of the main program. -/
def mainStep (e : main_event) (m : main_state) : main_state :=
  match e with
  | main_event.trigger => buttonHandler m
  | main_event.scheduler => loop m

/-- The effect of a sequence of steps, first to last. -/
def mainRun : List main_event → main_state → main_state
  | [], m => m
  | e :: es, m => mainRun es (mainStep e m)

/-- The successor of a state in the cycle Idle, Begin, Running, Finish,
Idle. -/
def MEASURING_STATE_T.next : MEASURING_STATE_T → MEASURING_STATE_T
  | MEASURING_STATE_T.MEASURING_STATE_IDLE => MEASURING_STATE_T.MEASURING_STATE_BEGIN
  | MEASURING_STATE_T.MEASURING_STATE_BEGIN => MEASURING_STATE_T.MEASURING_STATE_RUNNING
  | MEASURING_STATE_T.MEASURING_STATE_RUNNING => MEASURING_STATE_T.MEASURING_STATE_FINISH
  | MEASURING_STATE_T.MEASURING_STATE_FINISH => MEASURING_STATE_T.MEASURING_STATE_IDLE

/-- The state after `setup` and one button click. -/
def clickedOnce : main_state := mainRun [main_event.trigger] (main_state.afterSetup [])

/-- An object in the Running state that is past its first buffer, whose write
index is at the last buffer position and whose queue holds one sample. -/
def almostFullCounter : stepcounter :=
  { stepcounter.new [zeroSample] with
    bufferWriteIndex := 99
    firstBufferFilled := true
    state := stepcounter_state_t.STEPCOUNTER_STATE_RUNNING }

/-- The main program in its Finish state, with `almostFullCounter` as its step
counter. -/
def finishingMain : main_state :=
  { main_state.afterSetup [] with
    measuringState := MEASURING_STATE_T.MEASURING_STATE_FINISH
    ledPin := true
    stepCounter := almostFullCounter }

/-! ## datarouter.h, datarouter.cpp -/

/-- Datarouter state machine states. -/
inductive datarouter_state_t where
  | DATAROUTER_STATE_IDLE
  | DATAROUTER_STATE_BEGIN
  | DATAROUTER_STATE_RUNNING
  | DATAROUTER_STATE_FINISH
  deriving DecidableEq

/-- The members of class `datarouter` that carry data: `state`, the content
of the queue `dataQueue` points to (oldest sample first), the count of
`stateUpdateSemaphore`, and whether `client` is connected. The last field is
not a member of the class; it records the data handed to `client.write`, in
the order of the calls. -/
structure datarouter where
  state : datarouter_state_t
  dataQueue : List acceleration_sample_t
  stateUpdateSemaphore : Nat
  connected : Bool
  writeCalls : List String
  deriving DecidableEq

/-- The record `String::format( "%lu,%d,%d,%d,%d\n", .. )` of a sample. -/
def formatSample (sample : acceleration_sample_t) : String :=
  toString sample.timestamp ++ "," ++ toString sample.x ++ "," ++ toString sample.y ++ ","
    ++ toString sample.z ++ "," ++ toString (if sample.step then 1 else 0) ++ "\n"

/-- Forward data from queue to TCP server. `write` is what `client.write`
returns for the data it is given, as an `int`. The result is the returned
status and the object afterwards. -/
def datarouter.forwardData (write : String → Int) (self : datarouter) : Int × datarouter :=
  let (status, sample, rest) := os_queue_take self.dataQueue
  let self := { self with dataQueue := rest }
  if status = 0 then
    let data := formatSample sample
    let status := write data
    (status, { self with writeCalls := self.writeCalls ++ [data] })
  else
    (status, self)

/-- The loop `while ( self->forwardData() == 0 ) { }` of the Finish state of
the data router; `fuel` bounds the number of calls. -/
def datarouter.finishLoop (write : String → Int) : Nat → datarouter → Option datarouter
  | 0, _ => none
  | fuel + 1, self =>
    let (status, self) := self.forwardData write
    if status = 0 then datarouter.finishLoop write fuel self else some self

/-- One iteration of the loop of `dataRouterFunc`. `connect` is what
`client.connect` returns and `write` what `client.write` returns. In the
Finish state the loop makes at most one call of `forwardData` more than the
queue holds samples. In the Idle state the thread sleeps on
`stateUpdateSemaphore`. -/
def dataRouterFunc (connect : Bool) (write : String → Int) (self : datarouter) :
    Option datarouter :=
  match self.state with
  | datarouter_state_t.DATAROUTER_STATE_BEGIN =>
    if connect then
      some { self with connected := true, state := datarouter_state_t.DATAROUTER_STATE_RUNNING }
    else
      some { self with state := datarouter_state_t.DATAROUTER_STATE_IDLE }
  | datarouter_state_t.DATAROUTER_STATE_RUNNING =>
    some (self.forwardData write).2
  | datarouter_state_t.DATAROUTER_STATE_FINISH =>
    match datarouter.finishLoop write (self.dataQueue.length + 1) self with
    | some self =>
      some { self with connected := false, state := datarouter_state_t.DATAROUTER_STATE_IDLE }
    | none => none
  | datarouter_state_t.DATAROUTER_STATE_IDLE =>
    match os_semaphore_take self.stateUpdateSemaphore with
    | some count => some { self with stateUpdateSemaphore := count }
    | none => some self

/-- The constructor of `datarouter`. -/
def datarouter.new (dataQueue : List acceleration_sample_t) : datarouter :=
  { state := datarouter_state_t.DATAROUTER_STATE_IDLE
    dataQueue := dataQueue
    stateUpdateSemaphore := 0
    connected := false
    writeCalls := [] }

/-- Connects to TCP server and starts sending data. -/
def datarouter.start (self : datarouter) : Int × datarouter :=
  (0, { self with
    state := datarouter_state_t.DATAROUTER_STATE_BEGIN
    stateUpdateSemaphore := (os_semaphore_give self.stateUpdateSemaphore).2 })

/-- Finishes sending data in the queue and disconnects from TCP server. -/
def datarouter.stop (self : datarouter) : Int × datarouter :=
  (0, { self with state := datarouter_state_t.DATAROUTER_STATE_FINISH })

/-- A sink whose write succeeds and returns the number of bytes written. -/
def writeAll : String → Int := fun data => (data.length : Int)

/-- A data router that is connected and in its Finish state, over a queue of
three samples. -/
def finishingRouter : datarouter :=
  { datarouter.new exampleWindow with
    state := datarouter_state_t.DATAROUTER_STATE_FINISH
    connected := true }

/-- A data router after a call of `start`, over a queue of three samples. -/
def startedRouter : datarouter := (datarouter.new exampleWindow).start.2

/-- The sample source in its Running state with an empty queue. -/
def runningSource : measurement_thread :=
  { self := { accelerometer.new with state := accelerometer_state_t.ACCELEROMETER_STATE_RUNNING }
    sample := zeroSample
    stepDetected := false
    interruptAttached := false
    dataQueue := []
    resetCalled := false }

/-- The sample source in its Running state with a full queue. -/
def blockedSource : measurement_thread :=
  { runningSource with dataQueue := zeroWindow 100 }


/-! ## Observed runs of the step counter -/

/-- What an observer of the step counter notes when `countSteps` is invoked:
the write index, the buffer handed to `countSteps`, the samples popped from
the queue so far (oldest first), and how many of them were popped after the
most recent Begin step (after construction, if there was none). -/
structure countSteps_observation where
  writeIndex : Nat
  window : List acceleration_sample_t
  popped : List acceleration_sample_t
  sinceBegin : Nat
  deriving DecidableEq

/-- A `stepcounter` object together with the notes of an observer: the
samples popped so far, the number of samples popped after the most recent
Begin step, and the observations made at the invocations of `countSteps`. -/
structure observed_stepcounter where
  self : stepcounter
  popped : List acceleration_sample_t
  sinceBegin : Nat
  observations : List countSteps_observation
  deriving DecidableEq

/-- The observer at construction of the object. -/
def observed_stepcounter.initial (dataQueue : List acceleration_sample_t) :
    observed_stepcounter :=
  { self := stepcounter.new dataQueue
    popped := []
    sinceBegin := 0
    observations := [] }

/-- The last `n` entries of a list. -/
def lastSamples (n : Nat) (l : List acceleration_sample_t) : List acceleration_sample_t :=
  l.drop (l.length - n)

/-- One call of `forwardData` under observation. The sample popped is the
oldest of the queue; `countSteps` has been invoked during the call when the
object's record of calls has grown, and the buffer it was given is the window
of the last record. The write index is not changed between the invocation and
the return. -/
def observedForwardData (step_counter_model_predict : List Int → Nat → Int)
    (o : observed_stepcounter) : Option (Int × observed_stepcounter) :=
  match o.self.forwardData step_counter_model_predict with
  | none => none
  | some (status, self) =>
    let popped := if status = 0 then o.popped ++ o.self.dataQueue.take 1 else o.popped
    let sinceBegin := if status = 0 then o.sinceBegin + 1 else o.sinceBegin
    let observations :=
      match self.countStepsCalls.getLast? with
      | some call =>
        if o.self.countStepsCalls.length < self.countStepsCalls.length then
          o.observations ++ [⟨self.bufferWriteIndex, call.window, popped, sinceBegin⟩]
        else o.observations
      | none => o.observations
    some (status, ⟨self, popped, sinceBegin, observations⟩)

/-- The steps of a sequential run of the step counter: a call of `start` or
`stop`, the sample source putting a sample into the queue, the Begin step of
the drain loop, one call of `forwardData` by the drain loop (in its Running
state or in the loop of its Finish state), and the exit from the loop of the
Finish state. -/
inductive stepcounter_action where
  | start
  | stop
  | enqueue (sample : acceleration_sample_t)
  | beginStep
  | pop
  | finishExit
  deriving DecidableEq

/-- The effect of one step under observation. A step of the drain loop that
its state does not allow leaves everything as it is. -/
def observedAction (step_counter_model_predict : List Int → Nat → Int)
    (a : stepcounter_action) (o : observed_stepcounter) : Option observed_stepcounter :=
  match a with
  | stepcounter_action.start => some { o with self := o.self.start.2 }
  | stepcounter_action.stop => some { o with self := o.self.stop.2 }
  | stepcounter_action.enqueue sample => some { o with self := o.self.enqueue sample }
  | stepcounter_action.beginStep =>
    if o.self.state = stepcounter_state_t.STEPCOUNTER_STATE_BEGIN then
      match bufferPiping step_counter_model_predict o.self with
      | some self => some { o with self := self, sinceBegin := 0 }
      | none => none
    else some o
  | stepcounter_action.pop =>
    if o.self.state = stepcounter_state_t.STEPCOUNTER_STATE_RUNNING
        ∨ o.self.state = stepcounter_state_t.STEPCOUNTER_STATE_FINISH then
      match observedForwardData step_counter_model_predict o with
      | some (_, o) => some o
      | none => none
    else some o
  | stepcounter_action.finishExit =>
    if o.self.state = stepcounter_state_t.STEPCOUNTER_STATE_FINISH ∧ o.self.dataQueue = [] then
      match bufferPiping step_counter_model_predict o.self with
      | some self => some { o with self := self }
      | none => none
    else some o

/-- The effect of a sequence of steps under observation, first to last. -/
def observedRun (step_counter_model_predict : List Int → Nat → Int) :
    List stepcounter_action → observed_stepcounter → Option observed_stepcounter
  | [], o => some o
  | a :: as, o =>
    (observedAction step_counter_model_predict a o).bind
      (observedRun step_counter_model_predict as)

/-- The steps that make up one iteration of the loop of `bufferPiping` on the
object `self`. -/
def actionsOfPipe (self : stepcounter) : List stepcounter_action :=
  match self.state with
  | stepcounter_state_t.STEPCOUNTER_STATE_BEGIN => [stepcounter_action.beginStep]
  | stepcounter_state_t.STEPCOUNTER_STATE_RUNNING => [stepcounter_action.pop]
  | stepcounter_state_t.STEPCOUNTER_STATE_FINISH =>
    List.replicate (self.dataQueue.length + 1) stepcounter_action.pop
      ++ [stepcounter_action.finishExit]
  | stepcounter_state_t.STEPCOUNTER_STATE_IDLE => []

/-- The steps that make up an event on the object `self`. -/
def actionsOfEvent (e : stepcounter_event) (self : stepcounter) : List stepcounter_action :=
  match e with
  | stepcounter_event.enqueue sample => [stepcounter_action.enqueue sample]
  | stepcounter_event.pipe => actionsOfPipe self
  | stepcounter_event.start => [stepcounter_action.start]
  | stepcounter_event.stop => [stepcounter_action.stop]

/-- The steps that make up a sequence of events that starts at the object
`self`. -/
def actionsOfEvents (step_counter_model_predict : List Int → Nat → Int) :
    List stepcounter_event → stepcounter → List stepcounter_action
  | [], _ => []
  | e :: es, self =>
    actionsOfEvent e self ++
      match runEvent step_counter_model_predict e self with
      | some next => actionsOfEvents step_counter_model_predict es next
      | none => []

/-- What holds at an invocation of `countSteps` that only sees full, fresh
windows: the write index is 0, and the buffer holds the 100 most recently
popped samples in pop order, all of them popped after the most recent Begin
step. -/
def countSteps_observation.fullFresh (obs : countSteps_observation) : Prop :=
  obs.writeIndex = 0 ∧ obs.window.length = DATA_BUFFER_SIZE
    ∧ obs.window = lastSamples DATA_BUFFER_SIZE obs.popped
    ∧ DATA_BUFFER_SIZE ≤ obs.sinceBegin ∧ obs.sinceBegin ≤ obs.popped.length

/-- The invariant of an observed run from construction: the write index is
the number of popped samples modulo 100, each of the last 100 popped samples
is in the buffer at the position it was written to, the first buffer after a
Begin has only been handed over when the samples popped since the Begin reach
back to the start of the current buffer, and every call of `countSteps` has
been observed and has seen a full, fresh window. -/
def observed_stepcounter.inv (o : observed_stepcounter) : Prop :=
  o.self.inv
    ∧ o.self.bufferWriteIndex = o.popped.length % 100
    ∧ (∀ i, i < o.popped.length → o.popped.length ≤ i + 100 →
        o.self.buffer[i % 100]? = o.popped[i]?)
    ∧ o.sinceBegin ≤ o.popped.length
    ∧ (o.self.firstBufferFilled = true → o.popped.length % 100 ≤ o.sinceBegin)
    ∧ o.observations.map (fun obs => obs.window)
        = o.self.countStepsCalls.map (fun c => c.window)
    ∧ ∀ obs ∈ o.observations, obs.fullFresh

/-! ## The threads of the step counter, interleaved -/

/-- The place at which the thread `bufferPiping` stands, between two of its
accesses to shared data: at the `switch`, before either assignment of the
Begin case, inside `forwardData` (before `os_queue_take`, before the store
into `buffer`, before the increment of `bufferWriteIndex`, before
`os_semaphore_give( bufferReadySemaphore )`, in
`os_semaphore_take( bufferProcessedSemaphore )`, at its `return`), before the
assignment of the Finish case, or in the `os_semaphore_take` of the Idle case.
`inFinish` tells that `forwardData` was called by the loop of the Finish
case. -/
inductive drain_pc where
  | atSwitch
  | beginFlag
  | beginState
  | queueTake (inFinish : Bool)
  | bufferStore (inFinish : Bool) (sample : acceleration_sample_t)
  | indexAdvance (inFinish : Bool)
  | readyGive (inFinish : Bool)
  | processedTake (inFinish : Bool)
  | returned (inFinish : Bool) (status : Int)
  | finishState
  | idleTake
  deriving DecidableEq

/-- The place at which the thread `predictSteps` stands: in
`os_semaphore_take( bufferReadySemaphore )`, before the test of
`firstBufferFilled`, inside `countSteps( self->buffer )`, before the
assignment `firstBufferFilled = true`, or before
`os_semaphore_give( bufferProcessedSemaphore )`. -/
inductive predictor_pc where
  | readyTake
  | flagRead
  | counting
  | flagSet
  | processedGive
  deriving DecidableEq

/-- The step counter with its two threads: the object, the counts of its
three semaphores, and the place at which each thread stands. -/
structure stepcounter_threads where
  self : stepcounter
  stateUpdateSemaphore : Nat
  bufferReadySemaphore : Nat
  bufferProcessedSemaphore : Nat
  drain : drain_pc
  predictor : predictor_pc
  deriving DecidableEq

/-- The state after the constructor and `init`: the semaphores are created
with count 0 and both threads are at the top of their loops. -/
def stepcounter_threads.initial (dataQueue : List acceleration_sample_t) :
    stepcounter_threads :=
  { self := stepcounter.new dataQueue
    stateUpdateSemaphore := 0
    bufferReadySemaphore := 0
    bufferProcessedSemaphore := 0
    drain := drain_pc.atSwitch
    predictor := predictor_pc.readyTake }

/-- The thread `bufferPiping` (with `forwardData` inlined) runs up to its
next access to shared data. A thread that waits on a semaphore stays where it
is. The result is `none` when the step is undefined (a store past the end of
`buffer`). -/
def bufferPipingStep (t : stepcounter_threads) : Option stepcounter_threads :=
  match t.drain with
  | drain_pc.atSwitch =>
    match t.self.state with
    | stepcounter_state_t.STEPCOUNTER_STATE_BEGIN => some { t with drain := drain_pc.beginFlag }
    | stepcounter_state_t.STEPCOUNTER_STATE_RUNNING =>
      some { t with drain := drain_pc.queueTake false }
    | stepcounter_state_t.STEPCOUNTER_STATE_FINISH =>
      some { t with drain := drain_pc.queueTake true }
    | stepcounter_state_t.STEPCOUNTER_STATE_IDLE => some { t with drain := drain_pc.idleTake }
  | drain_pc.beginFlag =>
    some { t with
      self := { t.self with firstBufferFilled := false }
      drain := drain_pc.beginState }
  | drain_pc.beginState =>
    some { t with
      self := { t.self with state := stepcounter_state_t.STEPCOUNTER_STATE_RUNNING }
      drain := drain_pc.atSwitch }
  | drain_pc.queueTake inFinish =>
    let (status, sample, rest) := os_queue_take t.self.dataQueue
    if status = 0 then
      some { t with
        self := { t.self with dataQueue := rest }
        drain := drain_pc.bufferStore inFinish sample }
    else
      some { t with
        self := { t.self with dataQueue := rest }
        drain := drain_pc.returned inFinish status }
  | drain_pc.bufferStore inFinish sample =>
    match storeSample t.self.buffer t.self.bufferWriteIndex sample with
    | none => none
    | some buffer =>
      some { t with
        self := { t.self with buffer := buffer }
        drain := drain_pc.indexAdvance inFinish }
  | drain_pc.indexAdvance inFinish =>
    let self := { t.self with
      bufferWriteIndex := toUInt16 ((t.self.bufferWriteIndex + 1) % DATA_BUFFER_SIZE) }
    if self.bufferWriteIndex = 0 then
      some { t with self := self, drain := drain_pc.readyGive inFinish }
    else
      some { t with self := self, drain := drain_pc.returned inFinish 0 }
  | drain_pc.readyGive inFinish =>
    let (status, count) := os_semaphore_give t.bufferReadySemaphore
    some { t with
      self := { t.self with
        bufferReadyGiven := if status = 0 then t.self.bufferReadyGiven + 1
          else t.self.bufferReadyGiven }
      bufferReadySemaphore := count
      drain := drain_pc.processedTake inFinish }
  | drain_pc.processedTake inFinish =>
    match os_semaphore_take t.bufferProcessedSemaphore with
    | none => some t
    | some count =>
      some { t with bufferProcessedSemaphore := count, drain := drain_pc.returned inFinish 0 }
  | drain_pc.returned inFinish status =>
    if inFinish then
      if status = 0 then some { t with drain := drain_pc.queueTake true }
      else some { t with drain := drain_pc.finishState }
    else
      some { t with drain := drain_pc.atSwitch }
  | drain_pc.finishState =>
    some { t with
      self := { t.self with state := stepcounter_state_t.STEPCOUNTER_STATE_IDLE }
      drain := drain_pc.atSwitch }
  | drain_pc.idleTake =>
    match os_semaphore_take t.stateUpdateSemaphore with
    | none => some t
    | some count => some { t with stateUpdateSemaphore := count, drain := drain_pc.atSwitch }

/-- The thread `predictSteps` runs up to its next access to shared data. A
thread that waits on a semaphore stays where it is. The step out of
`countSteps` is the one that has read `buffer`; the result is `none` when
`countSteps` is undefined. -/
def predictStepsStep (step_counter_model_predict : List Int → Nat → Int)
    (t : stepcounter_threads) : Option stepcounter_threads :=
  match t.predictor with
  | predictor_pc.readyTake =>
    match os_semaphore_take t.bufferReadySemaphore with
    | none => some t
    | some count =>
      some { t with bufferReadySemaphore := count, predictor := predictor_pc.flagRead }
  | predictor_pc.flagRead =>
    if t.self.firstBufferFilled then some { t with predictor := predictor_pc.counting }
    else some { t with predictor := predictor_pc.flagSet }
  | predictor_pc.counting =>
    match countSteps step_counter_model_predict t.self.buffer with
    | none => none
    | some (steps, features) =>
      some { t with
        self := { t.self with
          stepCount := toUInt32 ((t.self.stepCount : Int) + steps)
          countStepsCalls := t.self.countStepsCalls ++ [⟨t.self.buffer, features, steps⟩] }
        predictor := predictor_pc.processedGive }
  | predictor_pc.flagSet =>
    some { t with
      self := { t.self with firstBufferFilled := true }
      predictor := predictor_pc.processedGive }
  | predictor_pc.processedGive =>
    let (status, count) := os_semaphore_give t.bufferProcessedSemaphore
    some { t with
      self := { t.self with
        bufferProcessedGiven := if status = 0 then t.self.bufferProcessedGiven + 1
          else t.self.bufferProcessedGiven }
      bufferProcessedSemaphore := count
      predictor := predictor_pc.readyTake }

/-- What the scheduler can let happen next: the thread `bufferPiping` or the
thread `predictSteps` runs one step, the caller of `start` does its
assignment `state = STEPCOUNTER_STATE_BEGIN` or its
`os_semaphore_give( stateUpdateSemaphore )`, another thread calls `stop`, or
the sample source puts a sample into the queue. -/
inductive thread_action where
  | drain
  | predictor
  | startState
  | startGive
  | stop
  | put (sample : acceleration_sample_t)
  deriving DecidableEq

/-- One step of the interleaving. -/
def threadsStep (step_counter_model_predict : List Int → Nat → Int)
    (a : thread_action) (t : stepcounter_threads) : Option stepcounter_threads :=
  match a with
  | thread_action.drain => bufferPipingStep t
  | thread_action.predictor => predictStepsStep step_counter_model_predict t
  | thread_action.startState => some { t with self := t.self.start.2 }
  | thread_action.startGive =>
    some { t with stateUpdateSemaphore := (os_semaphore_give t.stateUpdateSemaphore).2 }
  | thread_action.stop => some { t with self := t.self.stop.2 }
  | thread_action.put sample =>
    some { t with
      self := { t.self with dataQueue := (os_queue_put t.self.dataQueue sample).2 } }

/-- An interleaving: the steps of a schedule, one after the other. -/
def threadsRun (step_counter_model_predict : List Int → Nat → Int) :
    List thread_action → stepcounter_threads → Option stepcounter_threads
  | [], t => some t
  | a :: sched, t =>
    match threadsStep step_counter_model_predict a t with
    | none => none
    | some t => threadsRun step_counter_model_predict sched t

/-- Tells that the thread `predictSteps` has taken `bufferReadySemaphore` and
has not yet given `bufferProcessedSemaphore`. -/
def predictor_pc.working : predictor_pc → Nat
  | predictor_pc.readyTake => 0
  | _ => 1

/-- Tells that the thread `bufferPiping` has given `bufferReadySemaphore` and
has not yet taken `bufferProcessedSemaphore`. -/
def drain_pc.waiting : drain_pc → Nat
  | drain_pc.processedTake _ => 1
  | _ => 0

/-- The invariant of the handshake: the object is well formed; the one token
of the handshake is in `bufferReadySemaphore`, with the thread `predictSteps`
or in `bufferProcessedSemaphore` exactly while the thread `bufferPiping` is in
its `os_semaphore_take( bufferProcessedSemaphore )`, and nowhere otherwise;
the gives of `bufferReadySemaphore` are ahead of those of
`bufferProcessedSemaphore` exactly while the token is on its way to or with
the thread `predictSteps`. -/
def stepcounter_threads.inv (t : stepcounter_threads) : Prop :=
  t.self.inv
    ∧ t.bufferReadySemaphore + t.predictor.working + t.bufferProcessedSemaphore
        = t.drain.waiting
    ∧ t.self.bufferReadyGiven
        = t.self.bufferProcessedGiven + t.bufferReadySemaphore + t.predictor.working

instance (t : stepcounter_threads) : Decidable t.inv := by
  unfold stepcounter_threads.inv; infer_instance

/-! ## The accumulators of the statistics helpers -/

/-- The variable `sum` of `statisticalfeatures_mean` after the first `k`
iterations of its loop. -/
def statisticalfeatures_mean_sum (samples : List acceleration_sample_t) (k : Nat)
    (axis : AXIS_T) : Option Int :=
  forLoop (fun i (sum : Int) => do
    let s ← samples[i]?
    pure (toInt32 (sum + s.acceleration axis))) k 0 0

/-- The variable `sum` of `statisticalfeatures_std` after the first `k`
iterations of its loop. -/
def statisticalfeatures_std_sum (samples : List acceleration_sample_t) (k : Nat)
    (axis : AXIS_T) (mean : Int) : Option Int :=
  forLoop (fun i (sum : Int) => do
    let s ← samples[i]?
    pure (toInt64 (sum + toInt64 (toInt64 (toInt32 (s.acceleration axis - mean))
      * toInt32 (s.acceleration axis - mean))))) k 0 0

/-- The variable `sum` of `statisticalfeatures_mean_abs_diff` after the first
`k` iterations of its loop. -/
def statisticalfeatures_mean_abs_diff_sum (samples : List acceleration_sample_t) (k : Nat)
    (axis : AXIS_T) (mean : Int) : Option Int :=
  forLoop (fun i (sum : Int) => do
    let s ← samples[i]?
    let diff := toInt32 (if s.acceleration axis > mean
      then toInt32 (s.acceleration axis - mean)
      else toInt32 (mean - s.acceleration axis))
    pure (toInt32 (sum + diff))) k 0 0

/-- The integer square root as the claim on `statisticalfeatures_std` words
it: `r ≥ 0` and `r * r ≤ V < (r + 1) * (r + 1)`. -/
def isIntegerSqrt (r V : Int) : Prop := 0 ≤ r ∧ r * r ≤ V ∧ V < (r + 1) * (r + 1)

instance (r V : Int) : Decidable (isIntegerSqrt r V) := by
  unfold isIntegerSqrt; infer_instance

/-- The sample variance as the claim on `statisticalfeatures_std` words it:
the sum of the squared differences to `m`, divided by `N - 1`. -/
def sampleVariance (vs : List Int) (m : Int) : Int :=
  sumSquaredDiff vs m / ((vs.length : Int) - 1)

/-- A window of 100 samples whose z values alternate between 0 and 1000. -/
def alternatingWindow : List acceleration_sample_t :=
  (List.range 100).map (fun i => ⟨10 * i, 0, 0, if i % 2 = 0 then 0 else 1000, false⟩)

/-- An object at the start of a second session: the previous session counted
one step and left the write index at 37; `start` has been called and the queue
holds 68 samples. -/
def secondSessionCounter : stepcounter :=
  { stepcounter.new (zeroWindow 63 ++ zeroWindow 5) with
    stepCount := 1
    bufferWriteIndex := 37
    firstBufferFilled := true
    state := stepcounter_state_t.STEPCOUNTER_STATE_BEGIN }

/-- The events of a first session that drains 237 samples. -/
def firstSession : List stepcounter_event :=
  [stepcounter_event.start, stepcounter_event.pipe, stepcounter_event.stop,
    stepcounter_event.pipe]

/-- The events of a second session: 163 samples are put into the queue, then
the session drains them. -/
def secondSession : List stepcounter_event :=
  List.replicate 163 (stepcounter_event.enqueue zeroSample)
    ++ [stepcounter_event.start, stepcounter_event.pipe, stepcounter_event.stop,
      stepcounter_event.pipe]

/-! ## Arithmetic of the conversions -/

theorem toInt16_eq_self {v : Int} (h : isInt16 v) : toInt16 v = v := by
  unfold isInt16 at h; unfold toInt16; omega

theorem toInt32_eq_self {v : Int} (h1 : -2147483648 ≤ v) (h2 : v ≤ 2147483647) :
    toInt32 v = v := by
  unfold toInt32; omega

theorem toInt64_eq_self {v : Int} (h1 : -9223372036854775808 ≤ v)
    (h2 : v ≤ 9223372036854775807) : toInt64 v = v := by
  unfold toInt64; omega

theorem isInt16_toInt16 (v : Int) : isInt16 (toInt16 v) := by
  unfold isInt16 toInt16; omega

/-! ## Loops over the sample array -/

/-- A loop whose body reads `samples[i]` and updates its variables with `f`
is a left fold over the samples it visits. -/
theorem forLoop_samples {σ : Type} (samples : List acceleration_sample_t)
    (f : σ → acceleration_sample_t → σ) :
    ∀ (n i : Nat) (acc : σ), i + n ≤ samples.length →
      forLoop (fun i acc => (samples[i]?).bind (fun s => some (f acc s))) n i acc
        = some (((samples.drop i).take n).foldl f acc) := by
  intro n
  induction n with
  | zero => intro i acc _; simp [forLoop]
  | succ n ih =>
    intro i acc h
    have hi : i < samples.length := by omega
    rw [forLoop, List.getElem?_eq_getElem hi]
    simp only [Option.bind_some, Option.some_bind]
    rw [ih (i + 1) _ (by omega), List.drop_eq_getElem_cons hi, List.take_succ_cons,
      List.foldl_cons]

/-- A fold that adds bounded terms with a conversion after each addition
never leaves the range on which the conversion is the identity. -/
theorem foldl_conv_exact (conv : Int → Int) (lo hi : Int)
    (hconv : ∀ v, lo ≤ v → v ≤ hi → conv v = v) (t : acceleration_sample_t → Int)
    (a b : Int) (ha : a ≤ 0) (hb : 0 ≤ b) :
    ∀ (l : List acceleration_sample_t) (acc : Int),
      (∀ s ∈ l, a ≤ t s ∧ t s ≤ b) →
      lo ≤ acc + a * l.length → acc + b * l.length ≤ hi →
      l.foldl (fun sum s => conv (sum + t s)) acc = acc + (l.map t).sum := by
  intro l
  induction l with
  | nil => intro acc _ _ _; simp
  | cons s l ih =>
    intro acc hl h1 h2
    have hs := hl s (List.mem_cons_self _ _)
    have hlen : ((s :: l).length : Int) = (l.length : Int) + 1 := by simp
    rw [hlen] at h1 h2
    have hla : a * (l.length : Int) ≤ 0 := Int.mul_nonpos_of_nonpos_of_nonneg ha (by omega)
    have hlb : 0 ≤ b * (l.length : Int) := Int.mul_nonneg hb (by omega)
    have e : conv (acc + t s) = acc + t s := by
      apply hconv <;> nlinarith
    simp only [List.foldl_cons, List.map_cons, List.sum_cons, e]
    rw [ih (acc + t s) (fun x hx => hl x (List.mem_cons_of_mem _ hx)) (by nlinarith) (by nlinarith)]
    ring

/-! ## The helpers as list functions -/

theorem wf_axis {s : acceleration_sample_t} (h : s.wf) (axis : AXIS_T) :
    isInt16 (s.acceleration axis) := by
  cases axis
  · exact h.1
  · exact h.2.1
  · exact h.2.2

theorem mean_loop (samples : List acceleration_sample_t) (axis : AXIS_T) (n : Nat)
    (hn : n ≤ samples.length) :
    statisticalfeatures_mean samples n axis
      = if n = 0 then none else some (toInt16 (Int.tdiv
          ((samples.take n).foldl (fun sum s => toInt32 (sum + s.acceleration axis)) 0) n)) := by
  have h := forLoop_samples samples (fun (sum : Int) s => toInt32 (sum + s.acceleration axis))
    n 0 0 (by omega)
  simp only [List.drop_zero] at h
  unfold statisticalfeatures_mean
  simp only [Option.bind_eq_bind, Option.pure_def, Nat.sub_zero]
  rw [h]
  simp

theorem sum_bounds (t : acceleration_sample_t → Int) (a b : Int) :
    ∀ (l : List acceleration_sample_t), (∀ s ∈ l, a ≤ t s ∧ t s ≤ b) →
      a * l.length ≤ (l.map t).sum ∧ (l.map t).sum ≤ b * l.length := by
  intro l
  induction l with
  | nil => intro _; simp
  | cons s l ih =>
    intro hl
    have hs := hl s (List.mem_cons_self _ _)
    have := ih (fun x hx => hl x (List.mem_cons_of_mem _ hx))
    simp only [List.map_cons, List.sum_cons, List.length_cons, Nat.cast_add, Nat.cast_one]
    constructor <;> nlinarith

/-- Truncating division of a sum of `n` values of `[a, b]` by `n` stays in
`[a, b]` (for `a ≤ 0 ≤ b`). -/
theorem tdiv_bounds {S n a b : Int} (hn : 0 < n) (ha : a ≤ 0) (hb : 0 ≤ b)
    (h1 : a * n ≤ S) (h2 : S ≤ b * n) : a ≤ Int.tdiv S n ∧ Int.tdiv S n ≤ b := by
  rcases le_or_lt 0 S with hS | hS
  · rw [Int.tdiv_eq_ediv hS (le_of_lt hn)]
    constructor
    · have : 0 ≤ S / n := Int.ediv_nonneg hS (le_of_lt hn)
      omega
    · have : S / n < b + 1 := (Int.ediv_lt_iff_lt_mul hn).2 (by nlinarith)
      omega
  · have e : Int.tdiv S n = -((-S) / n) := by
      have := Int.neg_tdiv (-S) n
      rw [neg_neg] at this
      rw [this, Int.tdiv_eq_ediv (by omega) (le_of_lt hn)]
    rw [e]
    have h0 : 0 ≤ (-S) / n := Int.ediv_nonneg (by omega) (le_of_lt hn)
    have h3 : (-S) / n < -a + 1 := (Int.ediv_lt_iff_lt_mul hn).2 (by nlinarith)
    constructor <;> omega

theorem mean_exact (samples : List acceleration_sample_t) (axis : AXIS_T) (n : Nat)
    (hn : n ≤ samples.length) (h0 : 0 < n) (h255 : n ≤ 255)
    (hwf : ∀ s ∈ samples.take n, s.wf) :
    statisticalfeatures_mean samples n axis
        = some (integerMean (axisValues (samples.take n) axis))
      ∧ isInt16 (integerMean (axisValues (samples.take n) axis)) := by
  have hlen : (samples.take n).length = n := by simp [hn]
  have hb : ∀ s ∈ samples.take n,
      (-32768 : Int) ≤ s.acceleration axis ∧ s.acceleration axis ≤ 32767 :=
    fun s hs => wf_axis (hwf s hs) axis
  have hfold := foldl_conv_exact toInt32 (-2147483648) 2147483647
    (fun v h1 h2 => toInt32_eq_self h1 h2) (fun s => s.acceleration axis) (-32768) 32767
    (by norm_num) (by norm_num) (samples.take n) 0 hb
    (by rw [hlen]; omega) (by rw [hlen]; omega)
  have hsum := sum_bounds (fun s => s.acceleration axis) (-32768) 32767 (samples.take n) hb
  rw [hlen] at hsum
  have hm := tdiv_bounds (S := ((samples.take n).map (fun s => s.acceleration axis)).sum)
    (n := (n : Int)) (a := -32768) (b := 32767) (by omega) (by norm_num) (by norm_num)
    hsum.1 hsum.2
  have hmean : integerMean (axisValues (samples.take n) axis)
      = Int.tdiv ((samples.take n).map (fun s => s.acceleration axis)).sum n := by
    simp [integerMean, axisValues, hn]
  rw [hmean]
  refine ⟨?_, hm⟩
  rw [mean_loop samples axis n hn, if_neg (by omega), hfold, zero_add, toInt16_eq_self hm]

theorem std_loop (samples : List acceleration_sample_t) (axis : AXIS_T) (mean : Int) (n : Nat)
    (hn : n ≤ samples.length) :
    statisticalfeatures_std samples n axis mean
      = if (n : Int) - 1 = 0 then none else some (toInt16 (toInt64 (Int.tdiv
          ((samples.take n).foldl (fun sum s => toInt64 (sum + toInt64
            (toInt64 (toInt32 (s.acceleration axis - mean))
              * toInt32 (s.acceleration axis - mean)))) 0) ((n : Int) - 1)))) := by
  have h := forLoop_samples samples (fun (sum : Int) s => toInt64 (sum + toInt64
    (toInt64 (toInt32 (s.acceleration axis - mean)) * toInt32 (s.acceleration axis - mean))))
    n 0 0 (by omega)
  simp only [List.drop_zero] at h
  unfold statisticalfeatures_std
  simp only [Option.bind_eq_bind, Option.pure_def, Nat.sub_zero]
  rw [h]
  simp

theorem mean_abs_diff_loop (samples : List acceleration_sample_t) (axis : AXIS_T) (mean : Int)
    (n : Nat) (hn : n ≤ samples.length) :
    statisticalfeatures_mean_abs_diff samples n axis mean
      = if n = 0 then none else some (toInt16 (Int.tdiv
          ((samples.take n).foldl (fun sum s => toInt32 (sum + toInt32
            (if s.acceleration axis > mean then toInt32 (s.acceleration axis - mean)
              else toInt32 (mean - s.acceleration axis)))) 0) n)) := by
  have h := forLoop_samples samples (fun (sum : Int) s => toInt32 (sum + toInt32
    (if s.acceleration axis > mean then toInt32 (s.acceleration axis - mean)
      else toInt32 (mean - s.acceleration axis)))) n 0 0 (by omega)
  simp only [List.drop_zero] at h
  unfold statisticalfeatures_mean_abs_diff
  simp only [Option.bind_eq_bind, Option.pure_def, Nat.sub_zero]
  rw [h]
  simp

/-- The squared difference as the code computes it is exact on 16-bit
operands. -/
theorem sq_term_exact {v m : Int} (hv : isInt16 v) (hm : isInt16 m) :
    toInt64 (toInt64 (toInt32 (v - m)) * toInt32 (v - m)) = (v - m) ^ 2
      ∧ 0 ≤ (v - m) ^ 2 ∧ (v - m) ^ 2 ≤ 4294836225 := by
  unfold isInt16 at hv hm
  have e1 : toInt32 (v - m) = v - m := toInt32_eq_self (by omega) (by omega)
  have e2 : toInt64 (v - m) = v - m := toInt64_eq_self (by omega) (by omega)
  have h1 : 0 ≤ (v - m) ^ 2 := by positivity
  have h2 : (v - m) ^ 2 ≤ 4294836225 := by nlinarith
  rw [e1, e2, ← pow_two, toInt64_eq_self (by omega) (by omega)]
  exact ⟨rfl, h1, h2⟩

/-- The absolute difference as the code computes it is exact on 16-bit
operands. -/
theorem abs_term_exact {v m : Int} (hv : isInt16 v) (hm : isInt16 m) :
    toInt32 (if v > m then toInt32 (v - m) else toInt32 (m - v)) = |v - m|
      ∧ 0 ≤ |v - m| ∧ |v - m| ≤ 65535 := by
  unfold isInt16 at hv hm
  have e1 : toInt32 (v - m) = v - m := toInt32_eq_self (by omega) (by omega)
  have e2 : toInt32 (m - v) = m - v := toInt32_eq_self (by omega) (by omega)
  rw [e1, e2]
  split
  · rename_i h
    have : |v - m| = v - m := abs_of_nonneg (by omega)
    rw [this, e1]
    omega
  · rename_i h
    have : |v - m| = m - v := by rw [abs_sub_comm]; exact abs_of_nonneg (by omega)
    rw [this, e2]
    omega

theorem foldl_congr_mem {σ : Type} (f g : σ → acceleration_sample_t → σ) :
    ∀ (l : List acceleration_sample_t) (acc : σ), (∀ s ∈ l, ∀ a, f a s = g a s) →
      l.foldl f acc = l.foldl g acc := by
  intro l
  induction l with
  | nil => intro _ _; rfl
  | cons s l ih =>
    intro acc h
    simp only [List.foldl_cons]
    rw [h s (List.mem_cons_self _ _), ih _ (fun x hx => h x (List.mem_cons_of_mem _ hx))]

theorem std_exact (samples : List acceleration_sample_t) (axis : AXIS_T) (mean : Int) (n : Nat)
    (hn : n ≤ samples.length) (h2 : 2 ≤ n) (h255 : n ≤ 255)
    (hwf : ∀ s ∈ samples.take n, s.wf) (hm : isInt16 mean) :
    statisticalfeatures_std samples n axis mean
      = some (toInt16 (sumSquaredDiff (axisValues (samples.take n) axis) mean
          / ((n : Int) - 1))) := by
  have hlen : (samples.take n).length = n := by simp [hn]
  have hterm : ∀ s ∈ samples.take n, ∀ a : Int,
      toInt64 (a + toInt64 (toInt64 (toInt32 (s.acceleration axis - mean))
        * toInt32 (s.acceleration axis - mean)))
      = toInt64 (a + (s.acceleration axis - mean) ^ 2) := by
    intro s hs a
    rw [(sq_term_exact (wf_axis (hwf s hs) axis) hm).1]
  have hb : ∀ s ∈ samples.take n,
      (0 : Int) ≤ (s.acceleration axis - mean) ^ 2
        ∧ (s.acceleration axis - mean) ^ 2 ≤ 4294836225 :=
    fun s hs => (sq_term_exact (wf_axis (hwf s hs) axis) hm).2
  have hfold := foldl_conv_exact toInt64 (-9223372036854775808) 9223372036854775807
    (fun v h1 h2 => toInt64_eq_self h1 h2) (fun s => (s.acceleration axis - mean) ^ 2)
    0 4294836225 (by norm_num) (by norm_num) (samples.take n) 0 hb
    (by rw [hlen]; omega) (by rw [hlen]; omega)
  have hsum := sum_bounds (fun s => (s.acceleration axis - mean) ^ 2) 0 4294836225
    (samples.take n) hb
  rw [hlen] at hsum
  have hS : sumSquaredDiff (axisValues (samples.take n) axis) mean
      = ((samples.take n).map (fun s => (s.acceleration axis - mean) ^ 2)).sum := by
    simp [sumSquaredDiff, axisValues, List.map_map, Function.comp_def]
  rw [hS, std_loop samples axis mean n hn, if_neg (by omega),
    foldl_congr_mem _ _ _ _ hterm, hfold, zero_add]
  have hS0 : 0 ≤ ((samples.take n).map (fun s => (s.acceleration axis - mean) ^ 2)).sum := by
    omega
  rw [Int.tdiv_eq_ediv hS0 (by omega)]
  have hq0 := Int.ediv_nonneg hS0 (show (0 : Int) ≤ (n : Int) - 1 by omega)
  have hq1 := Int.ediv_le_self ((n : Int) - 1) hS0
  rw [toInt64_eq_self (by omega) (by omega)]

theorem mean_abs_diff_exact (samples : List acceleration_sample_t) (axis : AXIS_T) (mean : Int)
    (n : Nat) (hn : n ≤ samples.length) (h1 : 1 ≤ n) (h255 : n ≤ 255)
    (hwf : ∀ s ∈ samples.take n, s.wf) (hm : isInt16 mean) :
    statisticalfeatures_mean_abs_diff samples n axis mean
      = some (toInt16 (sumAbsDiff (axisValues (samples.take n) axis) mean / (n : Int))) := by
  have hlen : (samples.take n).length = n := by simp [hn]
  have hterm : ∀ s ∈ samples.take n, ∀ a : Int,
      toInt32 (a + toInt32 (if s.acceleration axis > mean
        then toInt32 (s.acceleration axis - mean) else toInt32 (mean - s.acceleration axis)))
      = toInt32 (a + |s.acceleration axis - mean|) := by
    intro s hs a
    rw [(abs_term_exact (wf_axis (hwf s hs) axis) hm).1]
  have hb : ∀ s ∈ samples.take n,
      (0 : Int) ≤ |s.acceleration axis - mean| ∧ |s.acceleration axis - mean| ≤ 65535 :=
    fun s hs => (abs_term_exact (wf_axis (hwf s hs) axis) hm).2
  have hfold := foldl_conv_exact toInt32 (-2147483648) 2147483647
    (fun v h1 h2 => toInt32_eq_self h1 h2) (fun s => |s.acceleration axis - mean|)
    0 65535 (by norm_num) (by norm_num) (samples.take n) 0 hb
    (by rw [hlen]; omega) (by rw [hlen]; omega)
  have hsum := sum_bounds (fun s => |s.acceleration axis - mean|) 0 65535 (samples.take n) hb
  have hS : sumAbsDiff (axisValues (samples.take n) axis) mean
      = ((samples.take n).map (fun s => |s.acceleration axis - mean|)).sum := by
    simp [sumAbsDiff, axisValues, List.map_map, Function.comp_def]
  rw [hS, mean_abs_diff_loop samples axis mean n hn, if_neg (by omega),
    foldl_congr_mem _ _ _ _ hterm, hfold, zero_add]
  have hS0 : 0 ≤ ((samples.take n).map (fun s => |s.acceleration axis - mean|)).sum := by
    omega
  rw [Int.tdiv_eq_ediv hS0 (by omega)]

theorem foldl_max_spec (t : acceleration_sample_t → Int) :
    ∀ (l : List acceleration_sample_t) (acc : Int),
      isMaxOf (l.foldl (fun m s => if t s > m then t s else m) acc) (acc :: l.map t) := by
  intro l
  induction l with
  | nil => intro acc; simp [isMaxOf]
  | cons s l ih =>
    intro acc
    simp only [List.foldl_cons, List.map_cons]
    have hx : acc ≤ (if t s > acc then t s else acc) ∧ t s ≤ (if t s > acc then t s else acc)
        ∧ ((if t s > acc then t s else acc) = t s ∨ (if t s > acc then t s else acc) = acc) := by
      split <;> omega
    obtain ⟨hmem, hle⟩ := ih (if t s > acc then t s else acc)
    generalize (if t s > acc then t s else acc) = x at hx hmem hle
    constructor
    · rcases List.mem_cons.1 hmem with h1 | h1
      · rw [h1]
        rcases hx.2.2 with h2 | h2
        · rw [h2]; exact List.mem_cons_of_mem _ (List.mem_cons_self _ _)
        · rw [h2]; exact List.mem_cons_self _ _
      · exact List.mem_cons_of_mem _ (List.mem_cons_of_mem _ h1)
    · intro v hv
      have h0 := hle _ (List.mem_cons_self _ _)
      rcases List.mem_cons.1 hv with h1 | h1
      · omega
      · rcases List.mem_cons.1 h1 with h2 | h2
        · omega
        · exact hle v (List.mem_cons_of_mem _ h2)

theorem foldl_min_spec (t : acceleration_sample_t → Int) :
    ∀ (l : List acceleration_sample_t) (acc : Int),
      isMinOf (l.foldl (fun m s => if t s < m then t s else m) acc) (acc :: l.map t) := by
  intro l
  induction l with
  | nil => intro acc; simp [isMinOf]
  | cons s l ih =>
    intro acc
    simp only [List.foldl_cons, List.map_cons]
    have hx : (if t s < acc then t s else acc) ≤ acc ∧ (if t s < acc then t s else acc) ≤ t s
        ∧ ((if t s < acc then t s else acc) = t s ∨ (if t s < acc then t s else acc) = acc) := by
      split <;> omega
    obtain ⟨hmem, hle⟩ := ih (if t s < acc then t s else acc)
    generalize (if t s < acc then t s else acc) = x at hx hmem hle
    constructor
    · rcases List.mem_cons.1 hmem with h1 | h1
      · rw [h1]
        rcases hx.2.2 with h2 | h2
        · rw [h2]; exact List.mem_cons_of_mem _ (List.mem_cons_self _ _)
        · rw [h2]; exact List.mem_cons_self _ _
      · exact List.mem_cons_of_mem _ (List.mem_cons_of_mem _ h1)
    · intro v hv
      have h0 := hle _ (List.mem_cons_self _ _)
      rcases List.mem_cons.1 hv with h1 | h1
      · omega
      · rcases List.mem_cons.1 h1 with h2 | h2
        · omega
        · exact hle v (List.mem_cons_of_mem _ h2)

/-- The window read by a helper called with `n ≥ 1`: the first sample and the
`n - 1` samples the loop visits. -/
theorem take_eq_first_rest (samples : List acceleration_sample_t) (n : Nat)
    (h1 : 1 ≤ n) (hn : n ≤ samples.length) :
    ∃ first, samples[0]? = some first
      ∧ samples.take n = first :: (samples.drop 1).take (n - 1) := by
  cases samples with
  | nil => simp at hn; omega
  | cons a l =>
    refine ⟨a, by simp, ?_⟩
    obtain ⟨k, rfl⟩ : ∃ k, n = k + 1 := ⟨n - 1, by omega⟩
    simp

theorem max_exact (samples : List acceleration_sample_t) (axis : AXIS_T) (n : Nat)
    (h1 : 1 ≤ n) (hn : n ≤ samples.length) :
    ∃ M, statisticalfeatures_max samples n axis = some M
      ∧ isMaxOf M (axisValues (samples.take n) axis) := by
  obtain ⟨first, hf, ht⟩ := take_eq_first_rest samples n h1 hn
  have h := forLoop_samples samples
    (fun (m : Int) s => if s.acceleration axis > m then s.acceleration axis else m)
    (n - 1) 1 (first.acceleration axis) (by omega)
  refine ⟨((samples.drop 1).take (n - 1)).foldl
    (fun (m : Int) s => if s.acceleration axis > m then s.acceleration axis else m)
    (first.acceleration axis), ?_, ?_⟩
  · unfold statisticalfeatures_max
    simp only [Option.bind_eq_bind, Option.pure_def, hf, Option.some_bind]
    exact h
  · rw [ht]
    exact foldl_max_spec (fun s => s.acceleration axis) _ _

theorem min_exact (samples : List acceleration_sample_t) (axis : AXIS_T) (n : Nat)
    (h1 : 1 ≤ n) (hn : n ≤ samples.length) :
    ∃ m, statisticalfeatures_min samples n axis = some m
      ∧ isMinOf m (axisValues (samples.take n) axis) := by
  obtain ⟨first, hf, ht⟩ := take_eq_first_rest samples n h1 hn
  have h := forLoop_samples samples
    (fun (m : Int) s => if s.acceleration axis < m then s.acceleration axis else m)
    (n - 1) 1 (first.acceleration axis) (by omega)
  refine ⟨((samples.drop 1).take (n - 1)).foldl
    (fun (m : Int) s => if s.acceleration axis < m then s.acceleration axis else m)
    (first.acceleration axis), ?_, ?_⟩
  · unfold statisticalfeatures_min
    simp only [Option.bind_eq_bind, Option.pure_def, hf, Option.some_bind]
    exact h
  · rw [ht]
    exact foldl_min_spec (fun s => s.acceleration axis) _ _

theorem max_min_diff_exact (samples : List acceleration_sample_t) (axis : AXIS_T) (n : Nat)
    (h1 : 1 ≤ n) (hn : n ≤ samples.length) :
    ∃ M m, isMaxOf M (axisValues (samples.take n) axis)
      ∧ isMinOf m (axisValues (samples.take n) axis)
      ∧ statisticalfeatures_max_min_diff samples n axis = some (toInt16 (toInt32 (M - m))) := by
  obtain ⟨M, hM, hMs⟩ := max_exact samples axis n h1 hn
  obtain ⟨m, hm, hms⟩ := min_exact samples axis n h1 hn
  refine ⟨M, m, hMs, hms, ?_⟩
  unfold statisticalfeatures_max_min_diff
  simp [hM, hm]

/-! ## statisticalfeatures_getFeatures -/

/-- On a window of at least two (8-bit) samples every helper returns, and
the six results are stored in order at `features[0..5]`. -/
theorem getFeatures_some (samples : List acceleration_sample_t) (size : Nat)
    (features : List Int) (hn : toUInt8 size ≤ samples.length) (h2 : 2 ≤ toUInt8 size)
    (h6 : 6 ≤ features.length) :
    ∃ mean_z f0 f1 f2 f3 f4 f5,
      statisticalfeatures_mean samples (toUInt8 size) AXIS_T.AXIS_Z = some mean_z
      ∧ statisticalfeatures_std samples (toUInt8 size) AXIS_T.AXIS_Z mean_z = some f0
      ∧ statisticalfeatures_mean_abs_diff samples (toUInt8 size) AXIS_T.AXIS_Z mean_z = some f1
      ∧ statisticalfeatures_min samples (toUInt8 size) AXIS_T.AXIS_Y = some f2
      ∧ statisticalfeatures_max_min_diff samples (toUInt8 size) AXIS_T.AXIS_X = some f3
      ∧ statisticalfeatures_max_min_diff samples (toUInt8 size) AXIS_T.AXIS_Y = some f4
      ∧ statisticalfeatures_max_min_diff samples (toUInt8 size) AXIS_T.AXIS_Z = some f5
      ∧ statisticalfeatures_getFeatures samples size features
          = some (0, f0 :: f1 :: f2 :: f3 :: f4 :: f5 :: features.drop 6) := by
  generalize hk : toUInt8 size = n at hn h2
  obtain ⟨mean_z, hmean⟩ : ∃ m, statisticalfeatures_mean samples n AXIS_T.AXIS_Z = some m :=
    ⟨_, by rw [mean_loop samples AXIS_T.AXIS_Z n hn, if_neg (by omega)]⟩
  obtain ⟨f0, hf0⟩ : ∃ f, statisticalfeatures_std samples n AXIS_T.AXIS_Z mean_z = some f :=
    ⟨_, by rw [std_loop samples AXIS_T.AXIS_Z mean_z n hn, if_neg (by omega)]⟩
  obtain ⟨f1, hf1⟩ :
      ∃ f, statisticalfeatures_mean_abs_diff samples n AXIS_T.AXIS_Z mean_z = some f :=
    ⟨_, by rw [mean_abs_diff_loop samples AXIS_T.AXIS_Z mean_z n hn, if_neg (by omega)]⟩
  obtain ⟨f2, hf2, -⟩ := min_exact samples AXIS_T.AXIS_Y n (by omega) hn
  obtain ⟨Mx, mx, -, -, hf3⟩ := max_min_diff_exact samples AXIS_T.AXIS_X n (by omega) hn
  obtain ⟨My, my, -, -, hf4⟩ := max_min_diff_exact samples AXIS_T.AXIS_Y n (by omega) hn
  obtain ⟨Mz, mz, -, -, hf5⟩ := max_min_diff_exact samples AXIS_T.AXIS_Z n (by omega) hn
  refine ⟨mean_z, f0, f1, f2, _, _, _, hmean, hf0, hf1, hf2, hf3, hf4, hf5, ?_⟩
  match features, h6 with
  | a :: b :: c :: d :: e :: f :: rest, _ =>
    unfold statisticalfeatures_getFeatures
    rw [hk]
    simp [hmean, hf0, hf1, hf2, hf3, hf4, hf5, store]

/-- Claim C1. For every window of `N` samples with `2 ≤ N ≤ 255` and every
array `features` of at least six entries, `statisticalfeatures_getFeatures`
returns status 0 and stores exactly six values, in this order: the result of
the standard deviation helper on z, the result of the mean absolute difference
helper on z (both called with the result of the mean helper on z, which is the
integer mean of z when the samples are 16-bit), the minimum helper on y, and
the max-min helper on x, on y and on z; the entries of `features` after the
sixth are unchanged. -/
theorem C1_getFeatures_six_in_order (samples : List acceleration_sample_t)
    (features : List Int) (hN2 : 2 ≤ samples.length) (hN255 : samples.length ≤ 255)
    (h6 : 6 ≤ features.length) :
    ∃ mean_z f0 f1 f2 f3 f4 f5,
      statisticalfeatures_mean samples samples.length AXIS_T.AXIS_Z = some mean_z
      ∧ ((∀ s ∈ samples, s.wf) → mean_z = integerMean (axisValues samples AXIS_T.AXIS_Z))
      ∧ statisticalfeatures_std samples samples.length AXIS_T.AXIS_Z mean_z = some f0
      ∧ statisticalfeatures_mean_abs_diff samples samples.length AXIS_T.AXIS_Z mean_z = some f1
      ∧ statisticalfeatures_min samples samples.length AXIS_T.AXIS_Y = some f2
      ∧ statisticalfeatures_max_min_diff samples samples.length AXIS_T.AXIS_X = some f3
      ∧ statisticalfeatures_max_min_diff samples samples.length AXIS_T.AXIS_Y = some f4
      ∧ statisticalfeatures_max_min_diff samples samples.length AXIS_T.AXIS_Z = some f5
      ∧ statisticalfeatures_getFeatures samples samples.length features
          = some (0, f0 :: f1 :: f2 :: f3 :: f4 :: f5 :: features.drop 6) := by
  have hk : toUInt8 samples.length = samples.length := by unfold toUInt8; omega
  obtain ⟨mean_z, f0, f1, f2, f3, f4, f5, h⟩ :=
    getFeatures_some samples samples.length features (by omega) (by omega) h6
  rw [hk] at h
  refine ⟨mean_z, f0, f1, f2, f3, f4, f5, h.1, ?_, h.2⟩
  intro hwf
  have hm := (mean_exact samples AXIS_T.AXIS_Z samples.length (le_refl _) (by omega) hN255
    (by rw [List.take_length]; exact hwf)).1
  rw [List.take_length, h.1] at hm
  exact Option.some.inj hm

/-- Claim C1 at a window of three samples. -/
theorem C1_getFeatures_six_in_order_witness :
    (2 ≤ exampleWindow.length ∧ exampleWindow.length ≤ 255 ∧ 6 ≤ zeroFeatures.length)
      ∧ ∃ feats, statisticalfeatures_getFeatures exampleWindow exampleWindow.length zeroFeatures
          = some (0, feats) := by
  refine ⟨by decide, ?_⟩
  obtain ⟨_, f0, f1, f2, f3, f4, f5, h⟩ :=
    C1_getFeatures_six_in_order exampleWindow zeroFeatures (by decide) (by decide) (by decide)
  exact ⟨_, h.2.2.2.2.2.2.2.2⟩

/-- A window whose 8-bit size is 1 makes the standard deviation helper divide
by `size - 1 = 0`, so no feature is produced. -/
theorem getFeatures_size_one (samples : List acceleration_sample_t) (size : Nat)
    (features : List Int) (h1 : toUInt8 size = 1) (hn : 1 ≤ samples.length) :
    statisticalfeatures_getFeatures samples size features = none := by
  have hmean := mean_loop samples AXIS_T.AXIS_Z 1 hn
  rw [if_neg (by omega)] at hmean
  have hstd := fun mean => std_loop samples AXIS_T.AXIS_Z mean 1 hn
  unfold statisticalfeatures_getFeatures
  rw [h1]
  simp [hmean, hstd]

/-- A window whose 8-bit size is 0 makes the mean helper divide by zero. -/
theorem getFeatures_size_zero (samples : List acceleration_sample_t) (size : Nat)
    (features : List Int) (h0 : toUInt8 size = 0) :
    statisticalfeatures_getFeatures samples size features = none := by
  have hmean := mean_loop samples AXIS_T.AXIS_Z 0 (by omega)
  rw [if_pos rfl] at hmean
  unfold statisticalfeatures_getFeatures
  rw [h0]
  simp [hmean]

/-- The features of a window of 16-bit samples whose 8-bit size `n` is at
least 2, in terms of the first `n` samples. -/
theorem getFeatures_exact (samples : List acceleration_sample_t) (size : Nat)
    (features : List Int) (hn : toUInt8 size ≤ samples.length) (h2 : 2 ≤ toUInt8 size)
    (hwf : ∀ s ∈ samples.take (toUInt8 size), s.wf) (h6 : 6 ≤ features.length) :
    ∃ f2 f3 f4 f5,
      statisticalfeatures_min samples (toUInt8 size) AXIS_T.AXIS_Y = some f2
      ∧ statisticalfeatures_max_min_diff samples (toUInt8 size) AXIS_T.AXIS_X = some f3
      ∧ statisticalfeatures_max_min_diff samples (toUInt8 size) AXIS_T.AXIS_Y = some f4
      ∧ statisticalfeatures_max_min_diff samples (toUInt8 size) AXIS_T.AXIS_Z = some f5
      ∧ statisticalfeatures_getFeatures samples size features
        = some (0,
            toInt16 (sumSquaredDiff (axisValues (samples.take (toUInt8 size)) AXIS_T.AXIS_Z)
                (integerMean (axisValues (samples.take (toUInt8 size)) AXIS_T.AXIS_Z))
              / (((toUInt8 size : Nat) : Int) - 1))
            :: toInt16 (sumAbsDiff (axisValues (samples.take (toUInt8 size)) AXIS_T.AXIS_Z)
                (integerMean (axisValues (samples.take (toUInt8 size)) AXIS_T.AXIS_Z))
              / ((toUInt8 size : Nat) : Int))
            :: f2 :: f3 :: f4 :: f5 :: features.drop 6) := by
  have h255 : toUInt8 size ≤ 255 := by unfold toUInt8; omega
  obtain ⟨mean_z, f0, f1, f2, f3, f4, f5, hmean, hf0, hf1, hf2, hf3, hf4, hf5, hg⟩ :=
    getFeatures_some samples size features hn h2 h6
  obtain ⟨hm, hm16⟩ := mean_exact samples AXIS_T.AXIS_Z (toUInt8 size) hn (by omega) h255 hwf
  rw [hmean] at hm
  have hmz := Option.some.inj hm
  rw [hmz] at hf0 hf1
  rw [std_exact samples AXIS_T.AXIS_Z _ (toUInt8 size) hn h2 h255 hwf hm16] at hf0
  rw [mean_abs_diff_exact samples AXIS_T.AXIS_Z _ (toUInt8 size) hn (by omega) h255 hwf hm16]
    at hf1
  refine ⟨f2, f3, f4, f5, hf2, hf3, hf4, hf5, ?_⟩
  rw [hg, Option.some.inj hf0, Option.some.inj hf1]

/-- The statement `getFeatures_exact` for a window that is passed whole:
`size` is the number of samples and is at most 255. -/
theorem getFeatures_window (samples : List acceleration_sample_t) (features : List Int)
    (hN2 : 2 ≤ samples.length) (hN255 : samples.length ≤ 255)
    (hwf : ∀ s ∈ samples, s.wf) (h6 : 6 ≤ features.length) :
    ∃ f2 f3 f4 f5,
      statisticalfeatures_min samples samples.length AXIS_T.AXIS_Y = some f2
      ∧ statisticalfeatures_max_min_diff samples samples.length AXIS_T.AXIS_X = some f3
      ∧ statisticalfeatures_max_min_diff samples samples.length AXIS_T.AXIS_Y = some f4
      ∧ statisticalfeatures_max_min_diff samples samples.length AXIS_T.AXIS_Z = some f5
      ∧ statisticalfeatures_getFeatures samples samples.length features
        = some (0,
            toInt16 (sumSquaredDiff (axisValues samples AXIS_T.AXIS_Z)
                (integerMean (axisValues samples AXIS_T.AXIS_Z)) / ((samples.length : Int) - 1))
            :: toInt16 (sumAbsDiff (axisValues samples AXIS_T.AXIS_Z)
                (integerMean (axisValues samples AXIS_T.AXIS_Z)) / (samples.length : Int))
            :: f2 :: f3 :: f4 :: f5 :: features.drop 6) := by
  have hk : toUInt8 samples.length = samples.length := by unfold toUInt8; omega
  have h := getFeatures_exact samples samples.length features (by omega) (by omega)
    (by rw [hk, List.take_length]; exact hwf) h6
  rw [hk, List.take_length] at h
  exact h

/-- Claim C2. For every window of `N` 16-bit samples with `2 ≤ N ≤ 255`, with
`m` the integer mean of z (the sum of z divided by `N`, truncated toward
zero), `statisticalfeatures_getFeatures` returns and `features[0]` is the
integer quotient `(sum of (z_i - m)^2) / (N - 1)` reduced to a signed 16-bit
value. -/
theorem C2_features0_squared_deviation (samples : List acceleration_sample_t)
    (features : List Int) (hN2 : 2 ≤ samples.length) (hN255 : samples.length ≤ 255)
    (hwf : ∀ s ∈ samples, s.wf) (h6 : 6 ≤ features.length) :
    ∃ feats, statisticalfeatures_getFeatures samples samples.length features = some (0, feats)
      ∧ feats[0]? = some (toInt16 (sumSquaredDiff (axisValues samples AXIS_T.AXIS_Z)
          (integerMean (axisValues samples AXIS_T.AXIS_Z)) / ((samples.length : Int) - 1))) := by
  obtain ⟨f2, f3, f4, f5, -, -, -, -, h⟩ :=
    getFeatures_window samples features hN2 hN255 hwf h6
  exact ⟨_, h, rfl⟩

/-- Claim C2 at a window of three samples. -/
theorem C2_features0_squared_deviation_witness :
    (2 ≤ exampleWindow.length ∧ exampleWindow.length ≤ 255 ∧ (∀ s ∈ exampleWindow, s.wf)
        ∧ 6 ≤ zeroFeatures.length)
      ∧ ∃ feats, statisticalfeatures_getFeatures exampleWindow exampleWindow.length zeroFeatures
          = some (0, feats)
        ∧ feats[0]? = some (toInt16 (sumSquaredDiff (axisValues exampleWindow AXIS_T.AXIS_Z)
            (integerMean (axisValues exampleWindow AXIS_T.AXIS_Z))
              / ((exampleWindow.length : Int) - 1))) :=
  ⟨by decide, C2_features0_squared_deviation exampleWindow zeroFeatures (by decide) (by decide)
    (by decide) (by decide)⟩

/-- Claim C3 as stated fails at `N = 1`. On a window of one sample the
standard deviation helper divides by `N - 1 = 0` before `features[1]` is
stored: `statisticalfeatures_getFeatures` produces no features at all. -/
theorem C3_counterexample_single_sample :
    (1 ≤ singleSampleWindow.length ∧ singleSampleWindow.length ≤ 255
        ∧ (∀ s ∈ singleSampleWindow, s.wf) ∧ 6 ≤ zeroFeatures.length)
      ∧ statisticalfeatures_getFeatures singleSampleWindow singleSampleWindow.length zeroFeatures
          = none
      ∧ ¬ ∃ feats, statisticalfeatures_getFeatures singleSampleWindow
            singleSampleWindow.length zeroFeatures = some (0, feats)
          ∧ feats[1]? = some (toInt16 (sumAbsDiff (axisValues singleSampleWindow AXIS_T.AXIS_Z)
              (integerMean (axisValues singleSampleWindow AXIS_T.AXIS_Z))
                / (singleSampleWindow.length : Int))) := by
  have h : statisticalfeatures_getFeatures singleSampleWindow singleSampleWindow.length
      zeroFeatures = none := by decide
  refine ⟨by decide, h, ?_⟩
  rintro ⟨feats, hf, -⟩
  rw [h] at hf
  exact Option.noConfusion hf

/-- Claim C3, amended. For every window of `N` 16-bit samples with
`1 ≤ N ≤ 255`, with `m` the integer mean of z (truncated toward zero), the
mean helper returns `m` and the mean absolute difference helper called with
`m` returns the integer quotient `(sum of |z_i - m|) / N` reduced to a signed
16-bit value; for `2 ≤ N ≤ 255` `statisticalfeatures_getFeatures` returns and
`features[1]` is that value, and for `N = 1` it produces no features. -/
theorem C3_features1_mean_abs_diff (samples : List acceleration_sample_t)
    (features : List Int) (hN1 : 1 ≤ samples.length) (hN255 : samples.length ≤ 255)
    (hwf : ∀ s ∈ samples, s.wf) (h6 : 6 ≤ features.length) :
    statisticalfeatures_mean samples samples.length AXIS_T.AXIS_Z
        = some (integerMean (axisValues samples AXIS_T.AXIS_Z))
      ∧ statisticalfeatures_mean_abs_diff samples samples.length AXIS_T.AXIS_Z
          (integerMean (axisValues samples AXIS_T.AXIS_Z))
        = some (toInt16 (sumAbsDiff (axisValues samples AXIS_T.AXIS_Z)
            (integerMean (axisValues samples AXIS_T.AXIS_Z)) / (samples.length : Int)))
      ∧ (2 ≤ samples.length →
          ∃ feats, statisticalfeatures_getFeatures samples samples.length features
              = some (0, feats)
            ∧ feats[1]? = some (toInt16 (sumAbsDiff (axisValues samples AXIS_T.AXIS_Z)
                (integerMean (axisValues samples AXIS_T.AXIS_Z)) / (samples.length : Int))))
      ∧ (samples.length = 1 →
          statisticalfeatures_getFeatures samples samples.length features = none) := by
  have hwf2 : ∀ s ∈ samples.take samples.length, s.wf := by
    rw [List.take_length]; exact hwf
  have hm := mean_exact samples AXIS_T.AXIS_Z samples.length (le_refl _) (by omega) hN255 hwf2
  have hmad := mean_abs_diff_exact samples AXIS_T.AXIS_Z
    (integerMean (axisValues samples AXIS_T.AXIS_Z)) samples.length (le_refl _) hN1 hN255 hwf2
  rw [List.take_length] at hm hmad
  refine ⟨hm.1, hmad hm.2, ?_, ?_⟩
  · intro hN2
    obtain ⟨f2, f3, f4, f5, -, -, -, -, h⟩ :=
      getFeatures_window samples features hN2 hN255 hwf h6
    exact ⟨_, h, rfl⟩
  · intro h1
    exact getFeatures_size_one samples samples.length features (by rw [h1]; rfl) hN1

/-- Claim C3, amended, at a window of three samples. -/
theorem C3_features1_mean_abs_diff_witness :
    (1 ≤ exampleWindow.length ∧ exampleWindow.length ≤ 255 ∧ (∀ s ∈ exampleWindow, s.wf)
        ∧ 6 ≤ zeroFeatures.length)
      ∧ ∃ feats, statisticalfeatures_getFeatures exampleWindow exampleWindow.length zeroFeatures
          = some (0, feats)
        ∧ feats[1]? = some (toInt16 (sumAbsDiff (axisValues exampleWindow AXIS_T.AXIS_Z)
            (integerMean (axisValues exampleWindow AXIS_T.AXIS_Z))
              / (exampleWindow.length : Int))) :=
  ⟨by decide, (C3_features1_mean_abs_diff exampleWindow zeroFeatures (by decide) (by decide)
    (by decide) (by decide)).2.2.1 (by decide)⟩

/-- The 16-bit reduction of a difference of two 16-bit values `m ≤ M`. -/
theorem toInt16_diff {M m : Int} (hM : isInt16 M) (hm : isInt16 m) (hle : m ≤ M) :
    toInt32 (M - m) = M - m
      ∧ (toInt16 (M - m) = M - m ↔ M - m ≤ 32767)
      ∧ (32767 < M - m → toInt16 (M - m) < 0) := by
  unfold isInt16 at hM hm
  unfold toInt32 toInt16
  omega

theorem mem_axisValues_isInt16 {samples : List acceleration_sample_t} {axis : AXIS_T} {v : Int}
    (hwf : ∀ s ∈ samples, s.wf) (hv : v ∈ axisValues samples axis) : isInt16 v := by
  unfold axisValues at hv
  obtain ⟨s, hs, rfl⟩ := List.mem_map.1 hv
  exact wf_axis (hwf s hs) axis

/-- The max-min helper on a window of 16-bit samples. -/
theorem max_min_diff_window (samples : List acceleration_sample_t) (axis : AXIS_T)
    (hN1 : 1 ≤ samples.length) (hwf : ∀ s ∈ samples, s.wf) :
    ∃ M m, isMaxOf M (axisValues samples axis) ∧ isMinOf m (axisValues samples axis)
      ∧ statisticalfeatures_max_min_diff samples samples.length axis = some (toInt16 (M - m))
      ∧ (toInt16 (M - m) = M - m ↔ M - m ≤ 32767)
      ∧ (32767 < M - m → toInt16 (M - m) < 0) := by
  obtain ⟨M, m, hM, hm, h⟩ := max_min_diff_exact samples axis samples.length hN1 (le_refl _)
  rw [List.take_length] at hM hm
  have hd := toInt16_diff (mem_axisValues_isInt16 hwf hM.1) (mem_axisValues_isInt16 hwf hm.1)
    (hM.2 m hm.1)
  rw [hd.1] at h
  exact ⟨M, m, hM, hm, h, hd.2.1, hd.2.2⟩

/-- Claim C4 as stated fails at `N = 1`. On a window of one sample
`statisticalfeatures_getFeatures` divides by zero in the standard deviation
helper and stores no max-min feature. -/
theorem C4_counterexample_single_sample :
    (1 ≤ singleSampleWindow.length ∧ singleSampleWindow.length ≤ 255
        ∧ (∀ s ∈ singleSampleWindow, s.wf) ∧ 6 ≤ zeroFeatures.length)
      ∧ statisticalfeatures_max_min_diff singleSampleWindow singleSampleWindow.length
          AXIS_T.AXIS_X = some 0
      ∧ ¬ ∃ feats, statisticalfeatures_getFeatures singleSampleWindow
            singleSampleWindow.length zeroFeatures = some (0, feats)
          ∧ feats[3]? = some 0 := by
  have h : statisticalfeatures_getFeatures singleSampleWindow singleSampleWindow.length
      zeroFeatures = none := by decide
  refine ⟨by decide, by decide, ?_⟩
  rintro ⟨feats, hf, -⟩
  rw [h] at hf
  exact Option.noConfusion hf

/-- Claim C4, amended. For every window of `N` 16-bit samples with
`1 ≤ N ≤ 255` and every axis, the max-min helper returns `M - m` reduced to a
signed 16-bit value, where `M` is the greatest and `m` the least value of the
axis in the window; this equals `M - m` exactly when `M - m ≤ 32767` and is
negative otherwise. For `2 ≤ N ≤ 255` `statisticalfeatures_getFeatures`
returns and `features[3]`, `features[4]`, `features[5]` are the helper's
results for x, y and z; for `N = 1` it produces no features. -/
theorem C4_max_min_diff_features (samples : List acceleration_sample_t)
    (features : List Int) (hN1 : 1 ≤ samples.length) (hN255 : samples.length ≤ 255)
    (hwf : ∀ s ∈ samples, s.wf) (h6 : 6 ≤ features.length) :
    (∀ axis, ∃ M m, isMaxOf M (axisValues samples axis) ∧ isMinOf m (axisValues samples axis)
        ∧ statisticalfeatures_max_min_diff samples samples.length axis = some (toInt16 (M - m))
        ∧ (toInt16 (M - m) = M - m ↔ M - m ≤ 32767)
        ∧ (32767 < M - m → toInt16 (M - m) < 0))
      ∧ (2 ≤ samples.length →
          ∃ feats, statisticalfeatures_getFeatures samples samples.length features
              = some (0, feats)
            ∧ feats[3]? = statisticalfeatures_max_min_diff samples samples.length AXIS_T.AXIS_X
            ∧ feats[4]? = statisticalfeatures_max_min_diff samples samples.length AXIS_T.AXIS_Y
            ∧ feats[5]? = statisticalfeatures_max_min_diff samples samples.length AXIS_T.AXIS_Z)
      ∧ (samples.length = 1 →
          statisticalfeatures_getFeatures samples samples.length features = none) := by
  refine ⟨fun axis => max_min_diff_window samples axis hN1 hwf, ?_, ?_⟩
  · intro hN2
    obtain ⟨f2, f3, f4, f5, -, h3, h4, h5, h⟩ :=
      getFeatures_window samples features hN2 hN255 hwf h6
    exact ⟨_, h, by simp [h3], by simp [h4], by simp [h5]⟩
  · intro h1
    exact getFeatures_size_one samples samples.length features (by rw [h1]; rfl) hN1

/-- Claim C4, amended, at a window of two samples whose z values are
32767 and -32768. -/
theorem C4_max_min_diff_features_witness :
    (1 ≤ extremeWindow.length ∧ extremeWindow.length ≤ 255 ∧ (∀ s ∈ extremeWindow, s.wf)
        ∧ 6 ≤ zeroFeatures.length)
      ∧ ∃ feats, statisticalfeatures_getFeatures extremeWindow extremeWindow.length zeroFeatures
          = some (0, feats)
        ∧ feats[3]? = statisticalfeatures_max_min_diff extremeWindow extremeWindow.length
            AXIS_T.AXIS_X
        ∧ feats[4]? = statisticalfeatures_max_min_diff extremeWindow extremeWindow.length
            AXIS_T.AXIS_Y
        ∧ feats[5]? = statisticalfeatures_max_min_diff extremeWindow extremeWindow.length
            AXIS_T.AXIS_Z :=
  ⟨by decide, (C4_max_min_diff_features extremeWindow zeroFeatures (by decide) (by decide)
    (by decide) (by decide)).2.1 (by decide)⟩

/-- Claim C5 as stated fails at `N = 1`. On a window of one sample the
minimum helper returns the sample's y value, but
`statisticalfeatures_getFeatures` divides by zero before `features[2]` is
stored. -/
theorem C5_counterexample_single_sample :
    (1 ≤ singleSampleWindow.length ∧ singleSampleWindow.length ≤ 255)
      ∧ statisticalfeatures_min singleSampleWindow singleSampleWindow.length AXIS_T.AXIS_Y
          = some (-4)
      ∧ ¬ ∃ feats, statisticalfeatures_getFeatures singleSampleWindow
            singleSampleWindow.length zeroFeatures = some (0, feats)
          ∧ feats[2]? = some (-4) := by
  have h : statisticalfeatures_getFeatures singleSampleWindow singleSampleWindow.length
      zeroFeatures = none := by decide
  refine ⟨by decide, by decide, ?_⟩
  rintro ⟨feats, hf, -⟩
  rw [h] at hf
  exact Option.noConfusion hf

/-- Claim C5, amended. For every window of `N` samples with `1 ≤ N ≤ 255` the
minimum helper on y returns the minimum of the y axis: the y value of some
sample of the window, less than or equal to the y value of every sample of
the window. For `2 ≤ N ≤ 255` `statisticalfeatures_getFeatures` returns and
`features[2]` is that value; for `N = 1` it produces no features. -/
theorem C5_features2_min_y (samples : List acceleration_sample_t)
    (features : List Int) (hN1 : 1 ≤ samples.length) (hN255 : samples.length ≤ 255)
    (h6 : 6 ≤ features.length) :
    ∃ m, statisticalfeatures_min samples samples.length AXIS_T.AXIS_Y = some m
      ∧ (∃ s ∈ samples, m = s.y) ∧ (∀ s ∈ samples, m ≤ s.y)
      ∧ (2 ≤ samples.length →
          ∃ feats, statisticalfeatures_getFeatures samples samples.length features
              = some (0, feats) ∧ feats[2]? = some m)
      ∧ (samples.length = 1 →
          statisticalfeatures_getFeatures samples samples.length features = none) := by
  have hk : toUInt8 samples.length = samples.length := by unfold toUInt8; omega
  obtain ⟨m, hm, hmem, hle⟩ := min_exact samples AXIS_T.AXIS_Y samples.length hN1 (le_refl _)
  rw [List.take_length] at hmem hle
  refine ⟨m, hm, ?_, ?_, ?_, ?_⟩
  · obtain ⟨s, hs, e⟩ := List.mem_map.1 hmem
    exact ⟨s, hs, e.symm⟩
  · intro s hs
    exact hle _ (List.mem_map.2 ⟨s, hs, rfl⟩)
  · intro hN2
    obtain ⟨mean_z, f0, f1, f2, f3, f4, f5, -, -, -, h2, -, -, -, h⟩ :=
      getFeatures_some samples samples.length features (by omega) (by omega) h6
    rw [hk, hm] at h2
    refine ⟨_, h, ?_⟩
    rw [← Option.some.inj h2]
    rfl
  · intro h1
    exact getFeatures_size_one samples samples.length features (by rw [h1]; rfl) hN1

/-- Claim C5, amended, at a window of three samples. -/
theorem C5_features2_min_y_witness :
    (1 ≤ exampleWindow.length ∧ exampleWindow.length ≤ 255 ∧ 6 ≤ zeroFeatures.length)
      ∧ ∃ m, statisticalfeatures_min exampleWindow exampleWindow.length AXIS_T.AXIS_Y = some m
        ∧ (∃ s ∈ exampleWindow, m = s.y) ∧ (∀ s ∈ exampleWindow, m ≤ s.y)
        ∧ (2 ≤ exampleWindow.length →
            ∃ feats, statisticalfeatures_getFeatures exampleWindow exampleWindow.length
                zeroFeatures = some (0, feats) ∧ feats[2]? = some m)
        ∧ (exampleWindow.length = 1 →
            statisticalfeatures_getFeatures exampleWindow exampleWindow.length zeroFeatures
              = none) :=
  ⟨by decide, C5_features2_min_y exampleWindow zeroFeatures (by decide) (by decide)
    (by decide)⟩

/-! ## Windows that are constant on an axis -/

theorem axisValues_const {l : List acceleration_sample_t} {axis : AXIS_T} {c : Int}
    (h : ∀ s ∈ l, s.acceleration axis = c) : axisValues l axis = List.replicate l.length c := by
  unfold axisValues
  rw [List.eq_replicate_iff]
  refine ⟨by simp, ?_⟩
  intro b hb
  obtain ⟨s, hs, rfl⟩ := List.mem_map.1 hb
  exact h s hs

theorem integerMean_replicate (n : Nat) (c : Int) (hn : 0 < n) :
    integerMean (List.replicate n c) = c := by
  unfold integerMean
  rw [List.sum_replicate, List.length_replicate, nsmul_eq_mul]
  exact Int.mul_tdiv_cancel_left c (by omega)

theorem sumSquaredDiff_replicate (n : Nat) (c : Int) :
    sumSquaredDiff (List.replicate n c) c = 0 := by
  unfold sumSquaredDiff
  simp [List.map_replicate, List.sum_replicate]

theorem sumAbsDiff_replicate (n : Nat) (c : Int) :
    sumAbsDiff (List.replicate n c) c = 0 := by
  unfold sumAbsDiff
  simp [List.map_replicate, List.sum_replicate]

theorem max_min_diff_const (samples : List acceleration_sample_t) (axis : AXIS_T) (n : Nat)
    (c : Int) (h1 : 1 ≤ n) (hn : n ≤ samples.length)
    (hc : ∀ s ∈ samples.take n, s.acceleration axis = c) :
    statisticalfeatures_max_min_diff samples n axis = some 0 := by
  obtain ⟨M, m, hM, hm, h⟩ := max_min_diff_exact samples axis n h1 hn
  rw [axisValues_const hc] at hM hm
  have eM : M = c := List.eq_of_mem_replicate hM.1
  have em : m = c := List.eq_of_mem_replicate hm.1
  rw [h, eM, em, sub_self]
  rfl

theorem min_const (samples : List acceleration_sample_t) (axis : AXIS_T) (n : Nat)
    (c : Int) (h1 : 1 ≤ n) (hn : n ≤ samples.length)
    (hc : ∀ s ∈ samples.take n, s.acceleration axis = c) :
    statisticalfeatures_min samples n axis = some c := by
  obtain ⟨m, h, hm⟩ := min_exact samples axis n h1 hn
  rw [axisValues_const hc] at hm
  rw [h, List.eq_of_mem_replicate hm.1]

/-- On a window of 16-bit samples whose 8-bit size `n` is at least 2: if the
first `n` samples have the same z value then `features[0]` and `features[1]`
are 0, and for every axis on which the first `n` samples are identical the
max-min feature of that axis is 0. -/
theorem getFeatures_constant (samples : List acceleration_sample_t) (size : Nat)
    (features : List Int) (hn : toUInt8 size ≤ samples.length) (h2 : 2 ≤ toUInt8 size)
    (hwf : ∀ s ∈ samples.take (toUInt8 size), s.wf) (h6 : 6 ≤ features.length) :
    ∃ feats, statisticalfeatures_getFeatures samples size features = some (0, feats)
      ∧ ((∃ c, ∀ s ∈ samples.take (toUInt8 size), s.z = c) →
          feats[0]? = some 0 ∧ feats[1]? = some 0 ∧ feats[5]? = some 0)
      ∧ ((∃ c, ∀ s ∈ samples.take (toUInt8 size), s.x = c) → feats[3]? = some 0)
      ∧ ((∃ c, ∀ s ∈ samples.take (toUInt8 size), s.y = c) → feats[4]? = some 0) := by
  obtain ⟨f2, f3, f4, f5, -, h3, h4, h5, h⟩ := getFeatures_exact samples size features hn h2 hwf h6
  have hlen : (samples.take (toUInt8 size)).length = toUInt8 size := by simp [hn]
  refine ⟨_, h, ?_, ?_, ?_⟩
  · rintro ⟨c, hc⟩
    have hc2 : ∀ s ∈ samples.take (toUInt8 size), s.acceleration AXIS_T.AXIS_Z = c := hc
    have e5 := max_min_diff_const samples AXIS_T.AXIS_Z _ c (by omega) hn hc2
    rw [h5] at e5
    rw [axisValues_const hc2, hlen, integerMean_replicate _ _ (by omega),
      sumSquaredDiff_replicate, sumAbsDiff_replicate, Option.some.inj e5]
    simp [toInt16]
  · rintro ⟨c, hc⟩
    have e3 := max_min_diff_const samples AXIS_T.AXIS_X _ c (by omega) hn hc
    rw [h3] at e3
    simp [Option.some.inj e3]
  · rintro ⟨c, hc⟩
    have e4 := max_min_diff_const samples AXIS_T.AXIS_Y _ c (by omega) hn hc
    rw [h4] at e4
    simp [Option.some.inj e4]

theorem zeroWindow_length (n : Nat) : (zeroWindow n).length = n := by
  unfold zeroWindow
  exact List.length_replicate _ _

/-- Claim C6 fails on the code at `N = 256`. The window of 256 samples
`{ 0 }` is constant on every axis, and `statisticalfeatures_getFeatures`,
called with `size = 256`, hands the size `(uint8_t)256 = 0` to the mean
helper, which divides by it: no feature is produced, where the claim says that
`features[0]`, `features[1]`, `features[3]`, `features[4]` and `features[5]`
are 0. The same holds for `N = 257`, where the size handed on is 1. -/
theorem C6_window_of_256_samples_divides_by_zero :
    (2 ≤ (zeroWindow 256).length ∧ (zeroWindow 256).length ≤ 65535
        ∧ (∀ s ∈ zeroWindow 256, s = zeroSample) ∧ toUInt8 256 = 0 ∧ toUInt8 257 = 1)
      ∧ statisticalfeatures_mean (zeroWindow 256) (toUInt8 256) AXIS_T.AXIS_Z = none
      ∧ statisticalfeatures_getFeatures (zeroWindow 256) 256 zeroFeatures = none
      ∧ statisticalfeatures_getFeatures (zeroWindow 257) 257 zeroFeatures = none := by
  refine ⟨⟨by rw [zeroWindow_length]; omega, by rw [zeroWindow_length]; omega, ?_, rfl, rfl⟩,
    ?_, ?_, ?_⟩
  · intro s hs
    exact List.eq_of_mem_replicate hs
  · have h := mean_loop (zeroWindow 256) AXIS_T.AXIS_Z 0 (by omega)
    rw [if_pos rfl] at h
    exact h
  · exact getFeatures_size_zero _ _ _ rfl
  · exact getFeatures_size_one _ _ _ rfl (by rw [zeroWindow_length]; omega)

/-! ## One step of the step counter -/

theorem DATA_BUFFER_SIZE_eq : DATA_BUFFER_SIZE = 100 := by decide

/-- On a full buffer `countSteps` returns: the features are those of the
buffer and the steps are the predictor's output for them, as an `int`. -/
theorem countSteps_some (predict : List Int → Nat → Int) (buffer : List acceleration_sample_t)
    (hlen : buffer.length = DATA_BUFFER_SIZE) :
    ∃ features, statisticalfeatures_getFeatures buffer DATA_BUFFER_SIZE zeroFeatures
        = some (0, features)
      ∧ countSteps predict buffer
        = some (toInt32 (predict features STATISTICALFEATURES_NUM_FEATURES), features) := by
  rw [DATA_BUFFER_SIZE_eq] at hlen
  have h8 : toUInt8 100 = 100 := rfl
  obtain ⟨mean_z, f0, f1, f2, f3, f4, f5, -, -, -, -, -, -, -, h⟩ :=
    getFeatures_some buffer 100 zeroFeatures (by rw [h8, hlen]) (by rw [h8]; omega)
      (by decide)
  have h16 : toUInt16 DATA_BUFFER_SIZE = 100 := rfl
  refine ⟨_, by rw [DATA_BUFFER_SIZE_eq]; exact h, ?_⟩
  unfold countSteps
  rw [h16]
  have hz : List.replicate STATISTICALFEATURES_NUM_FEATURES (0 : Int) = zeroFeatures := rfl
  simp only [hz, h, Option.bind_eq_bind, Option.some_bind, Option.pure_def]

/-- The first buffer after a Begin: the iteration of `predictSteps` only sets
`firstBufferFilled` and gives `bufferProcessedSemaphore`. -/
theorem predictSteps_first (predict : List Int → Nat → Int) (self : stepcounter)
    (hf : self.firstBufferFilled = false) :
    predictSteps predict self
      = some { self with
          firstBufferFilled := true
          bufferProcessedGiven := self.bufferProcessedGiven + 1 } := by
  unfold predictSteps
  simp [hf]

/-- Every other buffer: the iteration of `predictSteps` extracts the features
of the buffer, hands them to the predictor and adds its output to
`stepCount`. -/
theorem predictSteps_counted (predict : List Int → Nat → Int) (self : stepcounter)
    (hf : self.firstBufferFilled = true) (hlen : self.buffer.length = DATA_BUFFER_SIZE) :
    ∃ features, statisticalfeatures_getFeatures self.buffer DATA_BUFFER_SIZE zeroFeatures
        = some (0, features)
      ∧ predictSteps predict self
        = some { self with
            stepCount := toUInt32 ((self.stepCount : Int)
              + toInt32 (predict features STATISTICALFEATURES_NUM_FEATURES))
            countStepsCalls := self.countStepsCalls ++ [⟨self.buffer, features,
              toInt32 (predict features STATISTICALFEATURES_NUM_FEATURES)⟩]
            bufferProcessedGiven := self.bufferProcessedGiven + 1 } := by
  obtain ⟨features, hg, hc⟩ := countSteps_some predict self.buffer hlen
  refine ⟨features, hg, ?_⟩
  unfold predictSteps
  simp [hf, hc]

/-- A call of `forwardData` on an empty queue returns a non-zero status and
changes nothing. -/
theorem forwardData_nil (predict : List Int → Nat → Int) (self : stepcounter)
    (hq : self.dataQueue = []) :
    self.forwardData predict = some (1, self) := by
  unfold stepcounter.forwardData
  rw [hq]
  cases self
  simp_all [os_queue_take]

/-- A call of `forwardData` on a queue that holds a sample: the sample is
written at the write index, the index advances modulo `DATA_BUFFER_SIZE`, and
when it wraps to zero the buffer is handed to an iteration of
`predictSteps`. -/
theorem forwardData_cons (predict : List Int → Nat → Int) (self : stepcounter)
    (x : acceleration_sample_t) (q : List acceleration_sample_t)
    (hq : self.dataQueue = x :: q) (hlen : self.buffer.length = DATA_BUFFER_SIZE)
    (hidx : self.bufferWriteIndex < DATA_BUFFER_SIZE) :
    self.forwardData predict
      = if (self.bufferWriteIndex + 1) % 100 = 0 then
          (predictSteps predict { self with
            dataQueue := q
            buffer := self.buffer.set self.bufferWriteIndex x
            bufferWriteIndex := 0
            bufferReadyGiven := self.bufferReadyGiven + 1 }).map (fun s => (0, s))
        else
          some (0, { self with
            dataQueue := q
            buffer := self.buffer.set self.bufferWriteIndex x
            bufferWriteIndex := (self.bufferWriteIndex + 1) % 100 }) := by
  rw [DATA_BUFFER_SIZE_eq] at hlen hidx
  have h16 : toUInt16 ((self.bufferWriteIndex + 1) % DATA_BUFFER_SIZE)
      = (self.bufferWriteIndex + 1) % 100 := by
    rw [DATA_BUFFER_SIZE_eq]; unfold toUInt16; omega
  unfold stepcounter.forwardData
  rw [hq]
  simp only [os_queue_take, storeSample, hlen, hidx, if_true, h16, Option.bind_eq_bind,
    Option.some_bind, Option.pure_def]
  split
  · rename_i h
    simp only [h]
    cases predictSteps predict _ <;> rfl
  · rfl

theorem toUInt32_lt (v : Int) : toUInt32 v < 4294967296 := by
  unfold toUInt32; omega

theorem toUInt32_add_toUInt32 (a b : Int) :
    toUInt32 ((toUInt32 a : Int) + b) = toUInt32 (a + b) := by
  unfold toUInt32; omega

theorem toUInt32_of_lt (n : Nat) (h : n < 4294967296) : toUInt32 (n : Int) = n := by
  unfold toUInt32; omega

/-- What one successful call of `forwardData` does, field by field. Either
the write index does not wrap and nothing but the queue, the buffer and the
index changes; or it wraps, the buffer is handed over, and the buffer is
discarded (first buffer after a Begin) or counted. -/
theorem forwardData_step (predict : List Int → Nat → Int) (self : stepcounter)
    (x : acceleration_sample_t) (q : List acceleration_sample_t)
    (hq : self.dataQueue = x :: q) (hinv : self.inv) :
    ∃ s, self.forwardData predict = some (0, s)
      ∧ s.inv ∧ s.dataQueue = q ∧ s.buffer = self.buffer.set self.bufferWriteIndex x
      ∧ s.bufferWriteIndex = (self.bufferWriteIndex + 1) % 100 ∧ s.state = self.state
      ∧ (((self.bufferWriteIndex + 1) % 100 ≠ 0
            ∧ s.bufferReadyGiven = self.bufferReadyGiven
            ∧ s.bufferProcessedGiven = self.bufferProcessedGiven
            ∧ s.firstBufferFilled = self.firstBufferFilled
            ∧ s.stepCount = self.stepCount ∧ s.countStepsCalls = self.countStepsCalls)
        ∨ ((self.bufferWriteIndex + 1) % 100 = 0
            ∧ s.bufferReadyGiven = self.bufferReadyGiven + 1
            ∧ s.bufferProcessedGiven = self.bufferProcessedGiven + 1
            ∧ self.firstBufferFilled = false ∧ s.firstBufferFilled = true
            ∧ s.stepCount = self.stepCount ∧ s.countStepsCalls = self.countStepsCalls)
        ∨ ((self.bufferWriteIndex + 1) % 100 = 0
            ∧ s.bufferReadyGiven = self.bufferReadyGiven + 1
            ∧ s.bufferProcessedGiven = self.bufferProcessedGiven + 1
            ∧ self.firstBufferFilled = true ∧ s.firstBufferFilled = true
            ∧ ∃ features,
                statisticalfeatures_getFeatures (self.buffer.set self.bufferWriteIndex x)
                  DATA_BUFFER_SIZE zeroFeatures = some (0, features)
              ∧ s.stepCount = toUInt32 ((self.stepCount : Int)
                  + toInt32 (predict features STATISTICALFEATURES_NUM_FEATURES))
              ∧ s.countStepsCalls = self.countStepsCalls
                  ++ [⟨self.buffer.set self.bufferWriteIndex x, features,
                    toInt32 (predict features STATISTICALFEATURES_NUM_FEATURES)⟩])) := by
  obtain ⟨hsc, hlen, hidx⟩ := hinv
  have hfd := forwardData_cons predict self x q hq hlen hidx
  have hlen' : (self.buffer.set self.bufferWriteIndex x).length = DATA_BUFFER_SIZE := by
    rw [List.length_set]; exact hlen
  have h100 : (self.bufferWriteIndex + 1) % 100 < DATA_BUFFER_SIZE := by
    rw [DATA_BUFFER_SIZE_eq]; omega
  by_cases hw : (self.bufferWriteIndex + 1) % 100 = 0
  · rw [if_pos hw] at hfd
    cases hf : self.firstBufferFilled with
    | false =>
      rw [predictSteps_first predict _ (by simpa using hf)] at hfd
      refine ⟨_, hfd, ⟨hsc, hlen', by rw [DATA_BUFFER_SIZE_eq]; simp⟩, rfl, rfl, by simp [hw],
        rfl, Or.inr (Or.inl ⟨hw, rfl, rfl, rfl, rfl, rfl, rfl⟩)⟩
    | true =>
      obtain ⟨features, hg, hp⟩ := predictSteps_counted predict
        { self with
            dataQueue := q
            buffer := self.buffer.set self.bufferWriteIndex x
            bufferWriteIndex := 0
            bufferReadyGiven := self.bufferReadyGiven + 1 } (by simpa using hf) hlen'
      rw [hp] at hfd
      refine ⟨_, hfd, ⟨toUInt32_lt _, hlen', by rw [DATA_BUFFER_SIZE_eq]; simp⟩, rfl, rfl,
        by simp [hw], rfl,
        Or.inr (Or.inr ⟨hw, rfl, rfl, rfl, by simpa using hf, features, hg, rfl, rfl⟩)⟩
  · rw [if_neg hw] at hfd
    exact ⟨_, hfd, ⟨hsc, hlen', h100⟩, rfl, rfl, rfl, rfl,
      Or.inl ⟨hw, rfl, rfl, rfl, rfl, rfl⟩⟩

/-! ## Sequences of pops -/

/-- After `k` pops the write index has advanced by `k` modulo 100 and the
buffer has been handed over once for each time the index wrapped. -/
theorem forwardDataN_counts (predict : List Int → Nat → Int) :
    ∀ (k : Nat) (self : stepcounter), self.inv → k ≤ self.dataQueue.length →
      ∃ s, forwardDataN predict k self = some s ∧ s.inv
        ∧ s.dataQueue = self.dataQueue.drop k
        ∧ s.bufferWriteIndex = (self.bufferWriteIndex + k) % 100
        ∧ s.bufferReadyGiven = self.bufferReadyGiven + (self.bufferWriteIndex + k) / 100 := by
  intro k
  induction k with
  | zero =>
    intro self hinv _
    have h := hinv.2.2
    rw [DATA_BUFFER_SIZE_eq] at h
    exact ⟨self, rfl, hinv, by simp, by omega, by omega⟩
  | succ k ih =>
    intro self hinv hk
    have hidx := hinv.2.2
    rw [DATA_BUFFER_SIZE_eq] at hidx
    obtain ⟨x, q, hq⟩ : ∃ x q, self.dataQueue = x :: q := by
      cases hd : self.dataQueue with
      | nil => rw [hd] at hk; simp at hk
      | cons x q => exact ⟨x, q, rfl⟩
    obtain ⟨s1, h1, hinv1, hq1, -, hi1, -, hcase⟩ := forwardData_step predict self x q hq hinv
    have hr1 : s1.bufferReadyGiven
        = self.bufferReadyGiven + (self.bufferWriteIndex + 1) / 100 := by
      rcases hcase with h | h | h <;> omega
    obtain ⟨s, h2, hinv2, hq2, hi2, hr2⟩ := ih s1 hinv1 (by rw [hq1]; rw [hq] at hk; simpa using hk)
    refine ⟨s, ?_, hinv2, ?_, ?_, ?_⟩
    · rw [forwardDataN, h1]
      simpa using h2
    · rw [hq2, hq1, hq]; rfl
    · rw [hi2, hi1]; omega
    · rw [hr2, hr1, hi1]; omega

/-- Claim C8. With the configured 100 Hz sample rate and 1000 ms window,
`DATA_BUFFER_SIZE` evaluates to 100. Starting from write index 0, for every
`k` and every queue that holds at least `k` samples, `k` calls of
`forwardData` pop `k` samples and leave the write index at `k mod 100`, a
valid buffer index, with the buffer handed over ("window ready" given) exactly
`k / 100` times so far; the `j+1`-th pop gives the signal exactly when `j + 1`
is a multiple of 100. -/
theorem C8_handoff_every_100_pops (predict : List Int → Nat → Int) (self : stepcounter)
    (k : Nat) (hinv : self.inv) (h0 : self.bufferWriteIndex = 0)
    (hk : k ≤ self.dataQueue.length) :
    DATA_BUFFER_SIZE = 100
      ∧ (∃ s, forwardDataN predict k self = some s
          ∧ s.dataQueue = self.dataQueue.drop k
          ∧ s.bufferWriteIndex = k % 100 ∧ s.bufferWriteIndex < DATA_BUFFER_SIZE
          ∧ s.bufferReadyGiven = self.bufferReadyGiven + k / 100)
      ∧ (∀ j, j < k → ∃ a b, forwardDataN predict j self = some a
          ∧ forwardDataN predict (j + 1) self = some b
          ∧ b.bufferReadyGiven
            = a.bufferReadyGiven + (if (j + 1) % 100 = 0 then 1 else 0)) := by
  refine ⟨DATA_BUFFER_SIZE_eq, ?_, ?_⟩
  · obtain ⟨s, h, hinv', hq, hi, hr⟩ := forwardDataN_counts predict k self hinv hk
    rw [h0, Nat.zero_add] at hi hr
    exact ⟨s, h, hq, hi, hinv'.2.2, hr⟩
  · intro j hj
    obtain ⟨a, ha, -, -, -, hra⟩ := forwardDataN_counts predict j self hinv (by omega)
    obtain ⟨b, hb, -, -, -, hrb⟩ := forwardDataN_counts predict (j + 1) self hinv (by omega)
    rw [h0, Nat.zero_add] at hra hrb
    refine ⟨a, b, ha, hb, ?_⟩
    rw [hra, hrb]
    split <;> omega

/-! ## The warm-up discard along a run -/

theorem totalSteps_append (a : List countSteps_call) (c : countSteps_call) :
    totalSteps (a ++ [c]) = totalSteps a + c.steps := by
  unfold totalSteps
  simp

/-- One call of `forwardData` keeps the data invariant and the accounting
`sinceBegin`; it either pops a sample or finds the queue empty and changes
nothing. -/
theorem forwardData_sinceBegin (predict : List Int → Nat → Int) (s0 self : stepcounter)
    (calls : List countSteps_call) (hinv : self.inv) (hR : sinceBegin predict s0 self calls) :
    ∃ status s calls', self.forwardData predict = some (status, s) ∧ s.inv
      ∧ sinceBegin predict s0 s calls' ∧ s.state = self.state
      ∧ ((status = 0 ∧ s.dataQueue.length + 1 = self.dataQueue.length)
        ∨ (status ≠ 0 ∧ s = self ∧ self.dataQueue = [])) := by
  cases hq : self.dataQueue with
  | nil =>
    exact ⟨1, self, calls, forwardData_nil predict self hq, hinv, hR, rfl,
      Or.inr ⟨by decide, rfl, rfl⟩⟩
  | cons x q =>
    obtain ⟨s, hfd, hinv', hq', hbuf, -, hst, hcase⟩ := forwardData_step predict self x q hq hinv
    obtain ⟨hs, hc, hg, hsc, hr, hf⟩ := hR
    have hlenset : (self.buffer.set self.bufferWriteIndex x).length = DATA_BUFFER_SIZE := by
      rw [List.length_set]; exact hinv.2.1
    rcases hcase with ⟨-, h1, -, h2, h3, h4⟩ | ⟨-, h1, -, h2, h2', h3, h4⟩
        | ⟨-, h1, -, h2, h2', features, hgf, h3, h4⟩
    · refine ⟨0, s, calls, hfd, hinv', ⟨by rw [hst]; exact hs, by rw [h4]; exact hc, hg,
        by rw [h3]; exact hsc, by rw [h1, h2]; exact hr, by rw [h2]; exact hf⟩, hst,
        Or.inl ⟨rfl, by rw [hq']; simp⟩⟩
    · have hnil := hf h2
      subst hnil
      rw [h2] at hr
      refine ⟨0, s, [], hfd, hinv', ⟨by rw [hst]; exact hs, by rw [h4]; exact hc, hg,
        by rw [h3]; exact hsc, by rw [h1, h2', hr]; simp, by rw [h2']; simp⟩, hst,
        Or.inl ⟨rfl, by rw [hq']; simp⟩⟩
    · rw [h2] at hr
      refine ⟨0, s, calls ++ [⟨self.buffer.set self.bufferWriteIndex x, features,
        toInt32 (predict features STATISTICALFEATURES_NUM_FEATURES)⟩], hfd, hinv',
        ⟨by rw [hst]; exact hs, by rw [h4, hc, List.append_assoc], ?_, ?_, ?_, ?_⟩, hst,
        Or.inl ⟨rfl, by rw [hq']; simp⟩⟩
      · intro c hc'
        rcases List.mem_append.1 hc' with h | h
        · exact hg c h
        · rw [List.mem_singleton.1 h]
          exact ⟨hlenset, hgf, rfl⟩
      · rw [h3, hsc, toUInt32_add_toUInt32, totalSteps_append, add_assoc]
      · rw [h1, h2', hr]
        simp
        omega
      · rw [h2']; simp

/-- The loop of the Finish state returns once the queue is empty, which takes
at most one call more than the queue holds samples. -/
theorem finishLoop_sinceBegin (predict : List Int → Nat → Int) (s0 : stepcounter) :
    ∀ (fuel : Nat) (self : stepcounter) (calls : List countSteps_call), self.inv →
      sinceBegin predict s0 self calls → self.dataQueue.length < fuel →
      ∃ s calls', finishLoop predict fuel self = some s ∧ s.inv
        ∧ sinceBegin predict s0 s calls' ∧ s.state = self.state ∧ s.dataQueue = [] := by
  intro fuel
  induction fuel with
  | zero => intro self calls _ _ h; omega
  | succ fuel ih =>
    intro self calls hinv hR hfuel
    obtain ⟨status, s1, calls1, hfd, hinv1, hR1, hst1, hcase⟩ :=
      forwardData_sinceBegin predict s0 self calls hinv hR
    rcases hcase with ⟨h0, hlen⟩ | ⟨h0, hs, hq⟩
    · obtain ⟨s, calls', hfl, hinv', hR', hst', hq'⟩ := ih s1 calls1 hinv1 hR1 (by omega)
      refine ⟨s, calls', ?_, hinv', hR', by rw [hst', hst1], hq'⟩
      rw [finishLoop, hfd]
      simp [h0, hfl]
    · refine ⟨s1, calls1, ?_, hinv1, hR1, hst1, by rw [hs]; exact hq⟩
      rw [finishLoop, hfd]
      simp [h0]

/-- An iteration of `bufferPiping` that is not a Begin step keeps the data
invariant and the accounting. -/
theorem bufferPiping_sinceBegin (predict : List Int → Nat → Int) (s0 self : stepcounter)
    (calls : List countSteps_call) (hinv : self.inv) (hR : sinceBegin predict s0 self calls) :
    ∃ s calls', bufferPiping predict self = some s ∧ s.inv
      ∧ sinceBegin predict s0 s calls' := by
  cases hst : self.state with
  | STEPCOUNTER_STATE_BEGIN => exact absurd hst hR.1
  | STEPCOUNTER_STATE_IDLE =>
    refine ⟨self, calls, ?_, hinv, hR⟩
    unfold bufferPiping
    rw [hst]
    rfl
  | STEPCOUNTER_STATE_RUNNING =>
    obtain ⟨status, s1, calls1, hfd, hinv1, hR1, -, -⟩ :=
      forwardData_sinceBegin predict s0 self calls hinv hR
    refine ⟨s1, calls1, ?_, hinv1, hR1⟩
    unfold bufferPiping
    rw [hst]
    simp [hfd]
  | STEPCOUNTER_STATE_FINISH =>
    obtain ⟨s1, calls1, hfl, hinv1, hR1, -, -⟩ :=
      finishLoop_sinceBegin predict s0 (self.dataQueue.length + 1) self calls hinv hR
        (by omega)
    obtain ⟨hs, hc, hg, hsc, hr, hf⟩ := hR1
    refine ⟨{ s1 with state := stepcounter_state_t.STEPCOUNTER_STATE_IDLE }, calls1, ?_, hinv1,
      ⟨by simp, hc, hg, hsc, hr, hf⟩⟩
    unfold bufferPiping
    rw [hst]
    simp [hfl]

/-- A run without a call of `start`, and so without a Begin step, keeps the
data invariant and the accounting. -/
theorem runEvents_sinceBegin (predict : List Int → Nat → Int) (s0 : stepcounter) :
    ∀ (evs : List stepcounter_event) (self : stepcounter) (calls : List countSteps_call),
      (∀ e ∈ evs, e ≠ stepcounter_event.start) → self.inv →
      sinceBegin predict s0 self calls →
      ∃ s calls', runEvents predict evs self = some s ∧ s.inv
        ∧ sinceBegin predict s0 s calls' := by
  intro evs
  induction evs with
  | nil => intro self calls _ hinv hR; exact ⟨self, calls, rfl, hinv, hR⟩
  | cons e es ih =>
    intro self calls hev hinv hR
    have hes : ∀ e ∈ es, e ≠ stepcounter_event.start :=
      fun e he => hev e (List.mem_cons_of_mem _ he)
    have hstep : ∃ s1 calls1, runEvent predict e self = some s1 ∧ s1.inv
        ∧ sinceBegin predict s0 s1 calls1 := by
      cases e with
      | enqueue sample => exact ⟨_, calls, rfl, hinv, hR⟩
      | pipe => exact bufferPiping_sinceBegin predict s0 self calls hinv hR
      | start => exact absurd rfl (hev _ (List.mem_cons_self _ _))
      | stop =>
        obtain ⟨hs, hc, hg, hsc, hr, hf⟩ := hR
        exact ⟨_, calls, rfl, hinv, ⟨by simp [stepcounter.stop], hc, hg, hsc, hr, hf⟩⟩
    obtain ⟨s1, calls1, h1, hinv1, hR1⟩ := hstep
    obtain ⟨s, calls', h2, hinv', hR'⟩ := ih s1 calls1 hes hinv1 hR1
    refine ⟨s, calls', ?_, hinv', hR'⟩
    rw [runEvents, h1]
    exact h2

/-! ## Filling the buffer -/

theorem take_set_succ (x : acceleration_sample_t) :
    ∀ (b : List acceleration_sample_t) (i : Nat), i < b.length →
      (b.set i x).take (i + 1) = b.take i ++ [x] := by
  intro b
  induction b with
  | nil => intro i h; simp at h
  | cons a b ih =>
    intro i h
    cases i with
    | zero => simp
    | succ i =>
      have := ih i (by simpa using h)
      simp [List.set, this]

theorem forwardDataN_add (predict : List Int → Nat → Int) :
    ∀ (a b : Nat) (self : stepcounter),
      forwardDataN predict (a + b) self
        = (forwardDataN predict a self).bind (forwardDataN predict b) := by
  intro a
  induction a with
  | zero => intro b self; simp [forwardDataN]
  | succ a ih =>
    intro b self
    rw [show a + 1 + b = (a + b) + 1 by omega, forwardDataN, forwardDataN]
    cases h : self.forwardData predict with
    | none => rfl
    | some r =>
      obtain ⟨status, s⟩ := r
      simp only [Option.bind_eq_bind, Option.some_bind]
      split
      · exact ih b s
      · rfl

/-- Popping the samples `w` that fill the buffer from the write index to its
end writes them there in order and then hands the buffer over. -/
theorem forwardDataN_fill (predict : List Int → Nat → Int)
    (rest : List acceleration_sample_t) :
    ∀ (w : List acceleration_sample_t) (self : stepcounter), self.inv → w ≠ [] →
      self.bufferWriteIndex + w.length = 100 → self.dataQueue = w ++ rest →
      forwardDataN predict w.length self
        = predictSteps predict { self with
            dataQueue := rest
            buffer := self.buffer.take self.bufferWriteIndex ++ w
            bufferWriteIndex := 0
            bufferReadyGiven := self.bufferReadyGiven + 1 } := by
  intro w
  induction w with
  | nil => intro self _ h; exact absurd rfl h
  | cons x w ih =>
    intro self hinv _ hidx hq
    have hlen := hinv.2.1
    have hlen100 : self.buffer.length = 100 := by rw [hlen, DATA_BUFFER_SIZE_eq]
    have hfd := forwardData_cons predict self x (w ++ rest) (by rw [hq]; rfl) hlen hinv.2.2
    rw [List.length_cons, forwardDataN, hfd]
    cases w with
    | nil =>
      have h99 : self.bufferWriteIndex = 99 := by simpa using hidx
      have hset : self.buffer.set self.bufferWriteIndex x
          = self.buffer.take self.bufferWriteIndex ++ [x] := by
        rw [← take_set_succ x self.buffer self.bufferWriteIndex (by omega)]
        rw [List.take_of_length_le (by rw [List.length_set]; omega)]
      rw [if_pos (by rw [h99]), hset]
      simp only [List.nil_append, List.length_nil]
      cases predictSteps predict _ <;> simp [forwardDataN]
    | cons y w =>
      have hlt : self.bufferWriteIndex + 1 < 100 := by
        simp only [List.length_cons] at hidx; omega
      have hmod : (self.bufferWriteIndex + 1) % 100 = self.bufferWriteIndex + 1 := by omega
      rw [if_neg (by omega), hmod]
      simp only [Option.bind_eq_bind, Option.some_bind, if_true]
      have h := ih { self with
          dataQueue := y :: w ++ rest
          buffer := self.buffer.set self.bufferWriteIndex x
          bufferWriteIndex := self.bufferWriteIndex + 1 }
        ⟨hinv.1, by simp [hlen], by rw [DATA_BUFFER_SIZE_eq]; exact hlt⟩
        (by simp) (by simp only [List.length_cons] at hidx ⊢; omega) rfl
      rw [h]
      simp only [take_set_succ x self.buffer self.bufferWriteIndex (by omega),
        List.append_assoc, List.singleton_append]

/-- Popping a whole window `w` of 100 samples from write index 0 leaves the
buffer equal to `w`, hands it over once, and either discards it (first buffer
after a Begin) or counts it. -/
theorem forwardDataN_window (predict : List Int → Nat → Int) (self : stepcounter)
    (w rest : List acceleration_sample_t) (hinv : self.inv) (h0 : self.bufferWriteIndex = 0)
    (hw : w.length = 100) (hq : self.dataQueue = w ++ rest) :
    ∃ s, forwardDataN predict 100 self = some s ∧ s.inv ∧ s.bufferWriteIndex = 0
      ∧ s.dataQueue = rest ∧ s.buffer = w ∧ s.state = self.state
      ∧ s.bufferReadyGiven = self.bufferReadyGiven + 1 ∧ s.firstBufferFilled = true
      ∧ (self.firstBufferFilled = false →
          s.stepCount = self.stepCount ∧ s.countStepsCalls = self.countStepsCalls)
      ∧ (self.firstBufferFilled = true →
          ∃ features, statisticalfeatures_getFeatures w DATA_BUFFER_SIZE zeroFeatures
              = some (0, features)
            ∧ s.stepCount = toUInt32 ((self.stepCount : Int)
                + toInt32 (predict features STATISTICALFEATURES_NUM_FEATURES))
            ∧ s.countStepsCalls = self.countStepsCalls
                ++ [⟨w, features, toInt32 (predict features STATISTICALFEATURES_NUM_FEATURES)⟩]) := by
  have hne : w ≠ [] := by
    intro h; rw [h] at hw; simp at hw
  have hfill := forwardDataN_fill predict rest w self hinv hne (by rw [h0, hw]) hq
  rw [hw, h0, List.take_zero, List.nil_append] at hfill
  have hwlen : w.length = DATA_BUFFER_SIZE := by rw [hw, DATA_BUFFER_SIZE_eq]
  have h100 : 0 < DATA_BUFFER_SIZE := by rw [DATA_BUFFER_SIZE_eq]; omega
  cases hf : self.firstBufferFilled with
  | false =>
    rw [predictSteps_first predict _ (by simpa using hf)] at hfill
    exact ⟨_, hfill, ⟨hinv.1, hwlen, h100⟩, rfl, rfl, rfl, rfl, rfl, rfl,
      fun _ => ⟨rfl, rfl⟩, fun h => by simp at h⟩
  | true =>
    obtain ⟨features, hg, hp⟩ := predictSteps_counted predict
      { self with
          dataQueue := rest
          buffer := w
          bufferWriteIndex := 0
          bufferReadyGiven := self.bufferReadyGiven + 1 } (by simpa using hf) hwlen
    rw [hp] at hfill
    exact ⟨_, hfill, ⟨toUInt32_lt _, hwlen, h100⟩, rfl, rfl, rfl, rfl, rfl,
      by simpa using hf, fun h => by simp at h, fun _ => ⟨features, hg, rfl, rfl⟩⟩

theorem isZero_wf {s : acceleration_sample_t} (h : s.isZero) : s.wf := by
  obtain ⟨hx, hy, hz⟩ := h
  unfold acceleration_sample_t.wf isInt16
  rw [hx, hy, hz]
  decide

/-- The features of a full buffer of samples with acceleration `(0, 0, 0)`
are `[0, 0, 0, 0, 0, 0]`. -/
theorem getFeatures_zero_window (w : List acceleration_sample_t) (hw : w.length = 100)
    (hz : ∀ s ∈ w, s.isZero) :
    statisticalfeatures_getFeatures w DATA_BUFFER_SIZE zeroFeatures
      = some (0, [0, 0, 0, 0, 0, 0]) := by
  rw [DATA_BUFFER_SIZE_eq]
  have h8 : toUInt8 100 = 100 := rfl
  have htake : w.take 100 = w := List.take_of_length_le (by omega)
  have hwf : ∀ s ∈ w.take (toUInt8 100), s.wf := by
    rw [h8, htake]; exact fun s hs => isZero_wf (hz s hs)
  obtain ⟨f2, f3, f4, f5, h2, h3, h4, h5, h⟩ :=
    getFeatures_exact w 100 zeroFeatures (by rw [h8, hw]) (by rw [h8]; omega) hwf (by decide)
  rw [h8] at h2 h3 h4 h5 h
  have hc : ∀ axis, ∀ s ∈ w.take 100, s.acceleration axis = 0 := by
    intro axis s hs
    rw [htake] at hs
    obtain ⟨hx, hy, hzz⟩ := hz s hs
    cases axis
    · exact hx
    · exact hy
    · exact hzz
  rw [min_const w AXIS_T.AXIS_Y 100 0 (by omega) (by omega) (hc _)] at h2
  rw [max_min_diff_const w AXIS_T.AXIS_X 100 0 (by omega) (by omega) (hc _)] at h3
  rw [max_min_diff_const w AXIS_T.AXIS_Y 100 0 (by omega) (by omega) (hc _)] at h4
  rw [max_min_diff_const w AXIS_T.AXIS_Z 100 0 (by omega) (by omega) (hc _)] at h5
  have hax := axisValues_const (hc AXIS_T.AXIS_Z)
  rw [htake] at h hax
  rw [hax, hw, integerMean_replicate _ _ (by omega), sumSquaredDiff_replicate,
    sumAbsDiff_replicate, ← Option.some.inj h2, ← Option.some.inj h3, ← Option.some.inj h4,
    ← Option.some.inj h5] at h
  rw [h]
  rfl

/-- Claim C8 at 250 pops: the write index is 50 and the buffer was handed
over twice. -/
theorem C8_handoff_every_100_pops_witness :
    (exampleCounter.inv ∧ exampleCounter.bufferWriteIndex = 0
        ∧ 250 ≤ exampleCounter.dataQueue.length)
      ∧ ∃ s, forwardDataN (constantPredictor 1) 250 exampleCounter = some s
        ∧ s.bufferWriteIndex = 50 ∧ s.bufferReadyGiven = 2 := by
  have hq : 250 ≤ exampleCounter.dataQueue.length := by
    show 250 ≤ (zeroWindow 250).length
    rw [zeroWindow_length]
  have hinv : exampleCounter.inv := by decide
  obtain ⟨-, ⟨s, h, -, hi, -, hr⟩, -⟩ :=
    C8_handoff_every_100_pops (constantPredictor 1) exampleCounter 250 hinv rfl hq
  exact ⟨⟨hinv, rfl, hq⟩, s, h, hi, hr⟩

/-- Claim C7. Warm-up discard. Let `s0` be any object in the Begin state and
`predict` any predictor. The Begin step of `bufferPiping` clears
`firstBufferFilled`. An iteration of `predictSteps` that finds the flag clear
(the first buffer handed over after the Begin step) only sets the flag and
gives `bufferProcessedSemaphore`: `stepCount` is unchanged and `countSteps`
(feature extractor and predictor) is not called, whatever the buffer holds. An
iteration that finds the flag set calls `countSteps` on the current buffer and
adds the predictor's output for its features to `stepCount` (an addition in
`uint32_t`). Along every run after the Begin step in which no further Begin
step happens, `countSteps` has been called exactly once for each buffer
handed over except the first, and `stepCount` is its value at the Begin step
plus the outputs of these calls. -/
theorem C7_warm_up_discard (predict : List Int → Nat → Int) (s0 : stepcounter)
    (evs : List stepcounter_event) (hinv : s0.inv)
    (hst : s0.state = stepcounter_state_t.STEPCOUNTER_STATE_BEGIN)
    (hev : ∀ e ∈ evs, e ≠ stepcounter_event.start) :
    bufferPiping predict s0
        = some { s0 with
            firstBufferFilled := false
            state := stepcounter_state_t.STEPCOUNTER_STATE_RUNNING }
      ∧ (∀ self : stepcounter, self.firstBufferFilled = false →
          predictSteps predict self
            = some { self with
                firstBufferFilled := true
                bufferProcessedGiven := self.bufferProcessedGiven + 1 })
      ∧ (∀ self : stepcounter, self.firstBufferFilled = true →
          self.buffer.length = DATA_BUFFER_SIZE →
          ∃ features, statisticalfeatures_getFeatures self.buffer DATA_BUFFER_SIZE zeroFeatures
              = some (0, features)
            ∧ predictSteps predict self
              = some { self with
                  stepCount := toUInt32 ((self.stepCount : Int)
                    + toInt32 (predict features STATISTICALFEATURES_NUM_FEATURES))
                  countStepsCalls := self.countStepsCalls ++ [⟨self.buffer, features,
                    toInt32 (predict features STATISTICALFEATURES_NUM_FEATURES)⟩]
                  bufferProcessedGiven := self.bufferProcessedGiven + 1 })
      ∧ ∃ s calls,
          runEvents predict evs { s0 with
              firstBufferFilled := false
              state := stepcounter_state_t.STEPCOUNTER_STATE_RUNNING } = some s
            ∧ s.countStepsCalls = s0.countStepsCalls ++ calls
            ∧ calls.length = (s.bufferReadyGiven - s0.bufferReadyGiven) - 1
            ∧ (∀ c ∈ calls, c.genuine predict)
            ∧ s.stepCount = toUInt32 ((s0.stepCount : Int) + totalSteps calls)
            ∧ (s.bufferReadyGiven ≤ s0.bufferReadyGiven + 1 →
                s.stepCount = s0.stepCount ∧ s.countStepsCalls = s0.countStepsCalls) := by
  refine ⟨?_, predictSteps_first predict, predictSteps_counted predict, ?_⟩
  · unfold bufferPiping
    rw [hst]
    rfl
  · have hR : sinceBegin predict s0 { s0 with
        firstBufferFilled := false
        state := stepcounter_state_t.STEPCOUNTER_STATE_RUNNING } [] :=
      ⟨by simp, by simp, by simp, by simp [totalSteps, toUInt32_of_lt _ hinv.1], by simp,
        fun _ => rfl⟩
    obtain ⟨s, calls, hrun, -, -, hc, hg, hsc, hr, hf⟩ :=
      runEvents_sinceBegin predict s0 evs { s0 with
        firstBufferFilled := false
        state := stepcounter_state_t.STEPCOUNTER_STATE_RUNNING } [] hev hinv hR
    have hlen : calls.length = (s.bufferReadyGiven - s0.bufferReadyGiven) - 1 := by
      cases hfl : s.firstBufferFilled with
      | false =>
        rw [hfl] at hr
        rw [hf hfl, hr]
        simp
      | true =>
        rw [hfl] at hr
        rw [hr]
        simp
    refine ⟨s, calls, hrun, hc, hlen, hg, hsc, ?_⟩
    intro hle
    have h0 : calls = [] := List.eq_nil_of_length_eq_zero (by omega)
    subst h0
    refine ⟨?_, by rw [hc]; simp⟩
    rw [hsc]
    simp [totalSteps, toUInt32_of_lt _ hinv.1]

/-- Claim C7 at a run of four events after the Begin step. -/
theorem C7_warm_up_discard_witness :
    (startedCounter.inv
        ∧ startedCounter.state = stepcounter_state_t.STEPCOUNTER_STATE_BEGIN
        ∧ ∀ e ∈ [stepcounter_event.pipe, stepcounter_event.enqueue zeroSample,
            stepcounter_event.stop, stepcounter_event.pipe], e ≠ stepcounter_event.start)
      ∧ ∃ s calls,
          runEvents (constantPredictor 1)
            [stepcounter_event.pipe, stepcounter_event.enqueue zeroSample,
              stepcounter_event.stop, stepcounter_event.pipe]
            { startedCounter with
              firstBufferFilled := false
              state := stepcounter_state_t.STEPCOUNTER_STATE_RUNNING } = some s
            ∧ s.countStepsCalls = startedCounter.countStepsCalls ++ calls
            ∧ calls.length = (s.bufferReadyGiven - startedCounter.bufferReadyGiven) - 1 := by
  have h1 : startedCounter.inv := by decide
  have h3 : ∀ e ∈ [stepcounter_event.pipe, stepcounter_event.enqueue zeroSample,
      stepcounter_event.stop, stepcounter_event.pipe], e ≠ stepcounter_event.start := by
    decide
  obtain ⟨-, -, -, s, calls, hrun, hc, hlen, -⟩ :=
    C7_warm_up_discard (constantPredictor 1) startedCounter _ h1 rfl h3
  exact ⟨⟨h1, rfl, h3⟩, s, calls, hrun, hc, hlen⟩

/-- Claim C9. End-to-end scenario. From an object in the Begin state with write
index 0, the Begin step followed by 300 pops of samples with acceleration
`(0, 0, 0)` hands the buffer over exactly three times. After the first 100
pops (first buffer) `stepCount` is unchanged and `countSteps` has not been
called. The second and the third buffer each make one call of `countSteps`:
the feature extractor yields `[0, 0, 0, 0, 0, 0]` and the predictor is invoked
on it, so the predictor is invoked exactly twice, and `stepCount` has grown by
twice the predictor's output for that vector (in `uint32_t`; exactly so when
the output is non-negative and the sum fits 32 bits). What the first 100
samples hold does not matter, as their buffer is discarded. -/
theorem C9_three_zero_windows (predict : List Int → Nat → Int) (sb : stepcounter)
    (w1 w2 w3 rest : List acceleration_sample_t) (hinv : sb.inv)
    (hst : sb.state = stepcounter_state_t.STEPCOUNTER_STATE_BEGIN)
    (h0 : sb.bufferWriteIndex = 0) (hq : sb.dataQueue = w1 ++ (w2 ++ (w3 ++ rest)))
    (hl1 : w1.length = 100) (hl2 : w2.length = 100) (hl3 : w3.length = 100)
    (hz2 : ∀ s ∈ w2, s.isZero) (hz3 : ∀ s ∈ w3, s.isZero) :
    ∃ s0 s1 s, bufferPiping predict sb = some s0
      ∧ forwardDataN predict 100 s0 = some s1
      ∧ s1.bufferReadyGiven = sb.bufferReadyGiven + 1
      ∧ s1.stepCount = sb.stepCount ∧ s1.countStepsCalls = sb.countStepsCalls
      ∧ forwardDataN predict 300 s0 = some s
      ∧ s.dataQueue = rest
      ∧ s.bufferReadyGiven = sb.bufferReadyGiven + 3
      ∧ s.countStepsCalls = sb.countStepsCalls
          ++ [⟨w2, [0, 0, 0, 0, 0, 0],
                toInt32 (predict [0, 0, 0, 0, 0, 0] STATISTICALFEATURES_NUM_FEATURES)⟩,
              ⟨w3, [0, 0, 0, 0, 0, 0],
                toInt32 (predict [0, 0, 0, 0, 0, 0] STATISTICALFEATURES_NUM_FEATURES)⟩]
      ∧ s.stepCount = toUInt32 ((sb.stepCount : Int)
          + 2 * toInt32 (predict [0, 0, 0, 0, 0, 0] STATISTICALFEATURES_NUM_FEATURES))
      ∧ (0 ≤ predict [0, 0, 0, 0, 0, 0] STATISTICALFEATURES_NUM_FEATURES →
          (sb.stepCount : Int)
            + 2 * predict [0, 0, 0, 0, 0, 0] STATISTICALFEATURES_NUM_FEATURES < 4294967296 →
          (s.stepCount : Int) = (sb.stepCount : Int)
            + 2 * predict [0, 0, 0, 0, 0, 0] STATISTICALFEATURES_NUM_FEATURES) := by
  have hbegin : bufferPiping predict sb
      = some { sb with
          firstBufferFilled := false
          state := stepcounter_state_t.STEPCOUNTER_STATE_RUNNING } := by
    unfold bufferPiping
    rw [hst]
    rfl
  obtain ⟨s1, hr1, hinv1, hi1, hq1, -, -, hrd1, hf1, hd1, -⟩ :=
    forwardDataN_window predict { sb with
      firstBufferFilled := false
      state := stepcounter_state_t.STEPCOUNTER_STATE_RUNNING } w1 (w2 ++ (w3 ++ rest))
      hinv h0 hl1 hq
  obtain ⟨hsc1, hc1⟩ := hd1 rfl
  obtain ⟨s2, hr2, hinv2, hi2, hq2, -, -, hrd2, hf2, -, hd2⟩ :=
    forwardDataN_window predict s1 w2 (w3 ++ rest) hinv1 hi1 hl2 hq1
  obtain ⟨f2, hg2, hsc2, hc2⟩ := hd2 hf1
  obtain ⟨s3, hr3, hinv3, hi3, hq3, -, -, hrd3, hf3, -, hd3⟩ :=
    forwardDataN_window predict s2 w3 rest hinv2 hi2 hl3 hq2
  obtain ⟨f3, hg3, hsc3, hc3⟩ := hd3 hf2
  rw [getFeatures_zero_window w2 hl2 hz2] at hg2
  rw [getFeatures_zero_window w3 hl3 hz3] at hg3
  have e2 : f2 = [0, 0, 0, 0, 0, 0] := by
    have := Option.some.inj hg2
    exact (Prod.mk.inj this).2.symm
  have e3 : f3 = [0, 0, 0, 0, 0, 0] := by
    have := Option.some.inj hg3
    exact (Prod.mk.inj this).2.symm
  subst e2 e3
  have h300 : forwardDataN predict 300 { sb with
      firstBufferFilled := false
      state := stepcounter_state_t.STEPCOUNTER_STATE_RUNNING } = some s3 := by
    rw [show 300 = 100 + (100 + 100) by rfl, forwardDataN_add, hr1, Option.some_bind,
      forwardDataN_add, hr2, Option.some_bind, hr3]
  have hsc : s3.stepCount = toUInt32 ((sb.stepCount : Int)
      + 2 * toInt32 (predict [0, 0, 0, 0, 0, 0] STATISTICALFEATURES_NUM_FEATURES)) := by
    rw [hsc3, hsc2, hsc1, toUInt32_add_toUInt32]
    congr 1
    simp only []
    ring
  refine ⟨_, s1, s3, hbegin, hr1, by rw [hrd1], by rw [hsc1], by rw [hc1], h300, hq3,
    by rw [hrd3, hrd2, hrd1], by rw [hc3, hc2, hc1, List.append_assoc]; rfl, hsc, ?_⟩
  intro hp hlt
  rw [hsc]
  generalize predict [0, 0, 0, 0, 0, 0] STATISTICALFEATURES_NUM_FEATURES = p at hp hlt ⊢
  unfold toUInt32 toInt32
  omega

/-- Claim C9 at a queue of 300 samples `{ 0 }` and a predictor that always
returns 2. -/
theorem C9_three_zero_windows_witness :
    (startedZeroCounter.inv
        ∧ startedZeroCounter.state = stepcounter_state_t.STEPCOUNTER_STATE_BEGIN
        ∧ startedZeroCounter.bufferWriteIndex = 0
        ∧ startedZeroCounter.dataQueue
            = zeroWindow 100 ++ (zeroWindow 100 ++ (zeroWindow 100 ++ []))
        ∧ (zeroWindow 100).length = 100 ∧ ∀ s ∈ zeroWindow 100, s.isZero)
      ∧ ∃ s0 s, bufferPiping (constantPredictor 2) startedZeroCounter = some s0
        ∧ forwardDataN (constantPredictor 2) 300 s0 = some s
        ∧ s.bufferReadyGiven = 3 ∧ s.stepCount = 4
        ∧ s.countStepsCalls
            = [⟨zeroWindow 100, [0, 0, 0, 0, 0, 0], 2⟩, ⟨zeroWindow 100, [0, 0, 0, 0, 0, 0], 2⟩] := by
  have hinv : startedZeroCounter.inv := by decide
  have hl : (zeroWindow 100).length = 100 := zeroWindow_length 100
  have hz : ∀ s ∈ zeroWindow 100, s.isZero := by
    intro s hs
    rw [List.eq_of_mem_replicate hs]
    decide
  obtain ⟨s0, -, s, hb, -, -, -, -, h300, -, hr, hc, hsc, -⟩ :=
    C9_three_zero_windows (constantPredictor 2) startedZeroCounter (zeroWindow 100)
      (zeroWindow 100) (zeroWindow 100) [] hinv rfl rfl rfl hl hl hl hz hz
  exact ⟨⟨hinv, rfl, rfl, rfl, hl, hz⟩, s0, s, hb, h300, hr, hsc, hc⟩

/-! ## How `stepCount` changes -/

theorem totalSteps_append_list (a b : List countSteps_call) :
    totalSteps (a ++ b) = totalSteps a + totalSteps b := by
  unfold totalSteps
  simp

theorem countedSince_refl (predict : List Int → Nat → Int) (self : stepcounter)
    (hinv : self.inv) : countedSince predict self self [] :=
  ⟨by simp, by simp, by simp [totalSteps, toUInt32_of_lt _ hinv.1]⟩

theorem countedSince_trans (predict : List Int → Nat → Int) {s0 s1 s2 : stepcounter}
    {c1 c2 : List countSteps_call} (h1 : countedSince predict s0 s1 c1)
    (h2 : countedSince predict s1 s2 c2) : countedSince predict s0 s2 (c1 ++ c2) := by
  obtain ⟨ha, hb, hc⟩ := h1
  obtain ⟨ha', hb', hc'⟩ := h2
  refine ⟨by rw [ha', ha, List.append_assoc], ?_, ?_⟩
  · intro c hc
    rcases List.mem_append.1 hc with h | h
    · exact hb c h
    · exact hb' c h
  · rw [hc', hc, toUInt32_add_toUInt32, totalSteps_append_list, add_assoc]

/-- One call of `forwardData` changes `stepCount` only by the steps of the
call of `countSteps` it may cause. -/
theorem forwardData_counted (predict : List Int → Nat → Int) (self : stepcounter)
    (hinv : self.inv) :
    ∃ status s calls, self.forwardData predict = some (status, s) ∧ s.inv
      ∧ countedSince predict self s calls
      ∧ (status = 0 → s.dataQueue.length + 1 = self.dataQueue.length) := by
  cases hq : self.dataQueue with
  | nil =>
    exact ⟨1, self, [], forwardData_nil predict self hq, hinv,
      countedSince_refl predict self hinv, fun h => absurd h (by decide)⟩
  | cons x q =>
    obtain ⟨s, hfd, hinv', hq', -, -, -, hcase⟩ := forwardData_step predict self x q hq hinv
    have hlenset : (self.buffer.set self.bufferWriteIndex x).length = DATA_BUFFER_SIZE := by
      rw [List.length_set]; exact hinv.2.1
    have hl : s.dataQueue.length + 1 = (x :: q).length := by rw [hq']; simp
    rcases hcase with ⟨-, -, -, -, h3, h4⟩ | ⟨-, -, -, -, -, h3, h4⟩
        | ⟨-, -, -, -, -, features, hgf, h3, h4⟩
    · exact ⟨0, s, [], hfd, hinv', ⟨by rw [h4]; simp, by simp,
        by rw [h3]; simp [totalSteps, toUInt32_of_lt _ hinv.1]⟩, fun _ => hl⟩
    · exact ⟨0, s, [], hfd, hinv', ⟨by rw [h4]; simp, by simp,
        by rw [h3]; simp [totalSteps, toUInt32_of_lt _ hinv.1]⟩, fun _ => hl⟩
    · refine ⟨0, s, [⟨self.buffer.set self.bufferWriteIndex x, features,
        toInt32 (predict features STATISTICALFEATURES_NUM_FEATURES)⟩], hfd, hinv',
        ⟨h4, ?_, by rw [h3]; simp [totalSteps]⟩, fun _ => hl⟩
      intro c hc
      rw [List.mem_singleton.1 hc]
      exact ⟨hlenset, hgf, rfl⟩

theorem finishLoop_counted (predict : List Int → Nat → Int) :
    ∀ (fuel : Nat) (self : stepcounter), self.inv → self.dataQueue.length < fuel →
      ∃ s calls, finishLoop predict fuel self = some s ∧ s.inv
        ∧ countedSince predict self s calls := by
  intro fuel
  induction fuel with
  | zero => intro self _ h; omega
  | succ fuel ih =>
    intro self hinv hfuel
    obtain ⟨status, s1, calls1, hfd, hinv1, hR1, hlen⟩ := forwardData_counted predict self hinv
    by_cases h0 : status = 0
    · obtain ⟨s, calls', hfl, hinv', hR'⟩ := ih s1 hinv1 (by have := hlen h0; omega)
      refine ⟨s, calls1 ++ calls', ?_, hinv', countedSince_trans predict hR1 hR'⟩
      rw [finishLoop, hfd]
      simp [h0, hfl]
    · refine ⟨s1, calls1, ?_, hinv1, hR1⟩
      rw [finishLoop, hfd]
      simp [h0]

theorem bufferPiping_counted (predict : List Int → Nat → Int) (self : stepcounter)
    (hinv : self.inv) :
    ∃ s calls, bufferPiping predict self = some s ∧ s.inv
      ∧ countedSince predict self s calls := by
  obtain ⟨h1, h2, h3⟩ := countedSince_refl predict self hinv
  cases hst : self.state with
  | STEPCOUNTER_STATE_BEGIN =>
    refine ⟨{ self with
      firstBufferFilled := false
      state := stepcounter_state_t.STEPCOUNTER_STATE_RUNNING }, [], ?_, hinv, ⟨h1, h2, h3⟩⟩
    unfold bufferPiping
    rw [hst]
    rfl
  | STEPCOUNTER_STATE_IDLE =>
    refine ⟨self, [], ?_, hinv, ⟨h1, h2, h3⟩⟩
    unfold bufferPiping
    rw [hst]
    rfl
  | STEPCOUNTER_STATE_RUNNING =>
    obtain ⟨status, s1, calls1, hfd, hinv1, hR1, -⟩ := forwardData_counted predict self hinv
    refine ⟨s1, calls1, ?_, hinv1, hR1⟩
    unfold bufferPiping
    rw [hst]
    simp [hfd]
  | STEPCOUNTER_STATE_FINISH =>
    obtain ⟨s1, calls1, hfl, hinv1, ha, hb, hc⟩ :=
      finishLoop_counted predict (self.dataQueue.length + 1) self hinv (by omega)
    refine ⟨{ s1 with state := stepcounter_state_t.STEPCOUNTER_STATE_IDLE }, calls1, ?_, hinv1,
      ⟨ha, hb, hc⟩⟩
    unfold bufferPiping
    rw [hst]
    simp [hfl]

theorem runEvents_counted (predict : List Int → Nat → Int) :
    ∀ (evs : List stepcounter_event) (self : stepcounter), self.inv →
      ∃ s calls, runEvents predict evs self = some s ∧ s.inv
        ∧ countedSince predict self s calls := by
  intro evs
  induction evs with
  | nil => intro self hinv; exact ⟨self, [], rfl, hinv, countedSince_refl predict self hinv⟩
  | cons e es ih =>
    intro self hinv
    obtain ⟨h1, h2, h3⟩ := countedSince_refl predict self hinv
    have hstep : ∃ s1 calls1, runEvent predict e self = some s1 ∧ s1.inv
        ∧ countedSince predict self s1 calls1 := by
      cases e with
      | enqueue sample => exact ⟨_, [], rfl, hinv, ⟨h1, h2, h3⟩⟩
      | pipe => exact bufferPiping_counted predict self hinv
      | start => exact ⟨_, [], rfl, hinv, ⟨h1, h2, h3⟩⟩
      | stop => exact ⟨_, [], rfl, hinv, ⟨h1, h2, h3⟩⟩
    obtain ⟨s1, calls1, hr1, hinv1, hR1⟩ := hstep
    obtain ⟨s, calls', hr, hinv', hR'⟩ := ih s1 hinv1
    refine ⟨s, calls1 ++ calls', ?_, hinv', countedSince_trans predict hR1 hR'⟩
    rw [runEvents, hr1]
    exact hr

theorem totalSteps_nonneg (calls : List countSteps_call) (h : ∀ c ∈ calls, 0 ≤ c.steps) :
    0 ≤ totalSteps calls := by
  unfold totalSteps
  apply List.sum_nonneg
  intro v hv
  obtain ⟨c, hc, rfl⟩ := List.mem_map.1 hv
  exact h c hc

/-- Claim C10 as stated fails. An iteration of the predictor loop can lower
`stepCount`: with `stepCount = 5` and a predictor that returns -1 the count
becomes 4, and with `stepCount = 4294967295` and a predictor that returns 1 it
wraps to 0. -/
theorem C10_counterexample_stepCount_decreases :
    (countingCounter.inv ∧ countingCounter.stepCount = 5
        ∧ ∃ s, predictSteps (constantPredictor (-1)) countingCounter = some s
          ∧ s.stepCount = 4 ∧ s.stepCount < countingCounter.stepCount)
      ∧ (saturatedCounter.inv ∧ saturatedCounter.stepCount = 4294967295
        ∧ ∃ s, predictSteps (constantPredictor 1) saturatedCounter = some s
          ∧ s.stepCount = 0 ∧ s.stepCount < saturatedCounter.stepCount) := by
  constructor
  · obtain ⟨features, -, hp⟩ := predictSteps_counted (constantPredictor (-1)) countingCounter
      rfl (by decide)
    have h4 : toUInt32 (((5 : Nat) : Int) + toInt32 (-1)) = 4 := by decide
    have h5 : toUInt32 (((5 : Nat) : Int) + toInt32 (-1)) < 5 := by rw [h4]; decide
    exact ⟨by decide, rfl, _, hp, h4, h5⟩
  · obtain ⟨features, -, hp⟩ := predictSteps_counted (constantPredictor 1) saturatedCounter
      rfl (by decide)
    have h0 : toUInt32 (((4294967295 : Nat) : Int) + toInt32 1) = 0 := by decide
    have h1 : toUInt32 (((4294967295 : Nat) : Int) + toInt32 1) < 4294967295 := by
      rw [h0]; decide
    exact ⟨by decide, rfl, _, hp, h0, h1⟩

/-- Claim C10, amended. An iteration of the predictor loop leaves `stepCount`
unchanged on the first buffer after a Begin and otherwise sets it to
`(stepCount + p) mod 2^32`, where `p` is the predictor's output for the
features of the buffer, converted to `int`; when `p` is non-negative and
`stepCount + p` fits 32 bits this is `stepCount + p`, which is not below the
prior value. `start`, `stop`, the Begin step and the Idle step leave
`stepCount` unchanged, and along every run of the step counter `stepCount` is
its prior value plus the results of the calls of `countSteps` made in the run
(modulo `2^32`), so it is not below the prior value when these results are
non-negative and the sum fits 32 bits. -/
theorem C10_stepCount_changes (predict : List Int → Nat → Int) (self : stepcounter)
    (evs : List stepcounter_event) (hinv : self.inv) :
    (∃ s, predictSteps predict self = some s
        ∧ (self.firstBufferFilled = false → s.stepCount = self.stepCount)
        ∧ (self.firstBufferFilled = true →
            ∃ features,
              statisticalfeatures_getFeatures self.buffer DATA_BUFFER_SIZE zeroFeatures
                = some (0, features)
              ∧ s.stepCount = toUInt32 ((self.stepCount : Int)
                  + toInt32 (predict features STATISTICALFEATURES_NUM_FEATURES))
              ∧ (0 ≤ predict features STATISTICALFEATURES_NUM_FEATURES →
                  (self.stepCount : Int)
                    + predict features STATISTICALFEATURES_NUM_FEATURES < 4294967296 →
                  (s.stepCount : Int) = (self.stepCount : Int)
                      + predict features STATISTICALFEATURES_NUM_FEATURES
                    ∧ self.stepCount ≤ s.stepCount)))
      ∧ self.start.2.stepCount = self.stepCount
      ∧ self.stop.2.stepCount = self.stepCount
      ∧ (self.state = stepcounter_state_t.STEPCOUNTER_STATE_BEGIN
          ∨ self.state = stepcounter_state_t.STEPCOUNTER_STATE_IDLE →
          ∃ s, bufferPiping predict self = some s ∧ s.stepCount = self.stepCount)
      ∧ ∃ s calls, runEvents predict evs self = some s
          ∧ s.countStepsCalls = self.countStepsCalls ++ calls
          ∧ (∀ c ∈ calls, c.genuine predict)
          ∧ s.stepCount = toUInt32 ((self.stepCount : Int) + totalSteps calls)
          ∧ ((∀ c ∈ calls, 0 ≤ c.steps) →
              (self.stepCount : Int) + totalSteps calls < 4294967296 →
              self.stepCount ≤ s.stepCount) := by
  refine ⟨?_, rfl, rfl, ?_, ?_⟩
  · cases hf : self.firstBufferFilled with
    | false =>
      exact ⟨_, predictSteps_first predict self hf, fun _ => rfl, fun h => by simp at h⟩
    | true =>
      obtain ⟨features, hg, hp⟩ := predictSteps_counted predict self hf hinv.2.1
      refine ⟨_, hp, fun h => by simp at h, fun _ => ⟨features, hg, rfl, ?_⟩⟩
      intro h0 hlt
      have h1 := hinv.1
      simp only []
      generalize predict features STATISTICALFEATURES_NUM_FEATURES = p at h0 hlt ⊢
      unfold toUInt32 toInt32
      omega
  · intro hst
    rcases hst with hst | hst
    · refine ⟨{ self with
        firstBufferFilled := false
        state := stepcounter_state_t.STEPCOUNTER_STATE_RUNNING }, ?_, rfl⟩
      unfold bufferPiping
      rw [hst]
      rfl
    · refine ⟨self, ?_, rfl⟩
      unfold bufferPiping
      rw [hst]
      rfl
  · obtain ⟨s, calls, hrun, -, hc, hg, hsc⟩ := runEvents_counted predict evs self hinv
    refine ⟨s, calls, hrun, hc, hg, hsc, ?_⟩
    intro hnn hlt
    have h0 := totalSteps_nonneg calls hnn
    rw [hsc]
    generalize totalSteps calls = t at h0 hlt ⊢
    unfold toUInt32
    omega

/-- Claim C10, amended, at a run of six events. -/
theorem C10_stepCount_changes_witness :
    countingCounter.inv
      ∧ ∃ s calls, runEvents (constantPredictor 1)
            [stepcounter_event.start, stepcounter_event.pipe,
              stepcounter_event.enqueue zeroSample, stepcounter_event.pipe,
              stepcounter_event.stop, stepcounter_event.pipe] countingCounter = some s
          ∧ s.countStepsCalls = countingCounter.countStepsCalls ++ calls
          ∧ s.stepCount = toUInt32 ((countingCounter.stepCount : Int) + totalSteps calls) := by
  have hinv : countingCounter.inv := by decide
  obtain ⟨-, -, -, -, s, calls, hrun, hc, -, hsc, -⟩ :=
    C10_stepCount_changes (constantPredictor 1) countingCounter
      [stepcounter_event.start, stepcounter_event.pipe,
        stepcounter_event.enqueue zeroSample, stepcounter_event.pipe,
        stepcounter_event.stop, stepcounter_event.pipe] hinv
  exact ⟨hinv, s, calls, hrun, hc, hsc⟩

/-! ## The session controller -/

/-- Claim C11. `buttonHandler` maps `measuringState` Idle to Begin and Running
to Finish, giving `stateUpdateSemaphore` in both cases (its count goes up by
one while it is below its maximum) and changing nothing else; when the state
is Begin or Finish it changes nothing at all, the semaphore included. -/
theorem C11_buttonHandler_transitions (m : main_state) :
    (m.measuringState = MEASURING_STATE_T.MEASURING_STATE_IDLE →
        buttonHandler m = { m with
          measuringState := MEASURING_STATE_T.MEASURING_STATE_BEGIN
          stateUpdateSemaphore := (os_semaphore_give m.stateUpdateSemaphore).2 })
      ∧ (m.measuringState = MEASURING_STATE_T.MEASURING_STATE_RUNNING →
        buttonHandler m = { m with
          measuringState := MEASURING_STATE_T.MEASURING_STATE_FINISH
          stateUpdateSemaphore := (os_semaphore_give m.stateUpdateSemaphore).2 })
      ∧ (m.measuringState = MEASURING_STATE_T.MEASURING_STATE_BEGIN
          ∨ m.measuringState = MEASURING_STATE_T.MEASURING_STATE_FINISH →
        buttonHandler m = m)
      ∧ (m.stateUpdateSemaphore < SEMAPHORE_MAX_COUNT →
        os_semaphore_give m.stateUpdateSemaphore = (0, m.stateUpdateSemaphore + 1)) := by
  refine ⟨?_, ?_, ?_, ?_⟩
  · intro h
    unfold buttonHandler
    rw [h]
  · intro h
    unfold buttonHandler
    rw [h]
  · intro h
    unfold buttonHandler
    rcases h with h | h <;> rw [h]
  · intro h
    unfold os_semaphore_give
    rw [if_pos h]

theorem loop_measuringState (m : main_state) :
    (m.measuringState = MEASURING_STATE_T.MEASURING_STATE_BEGIN →
        (loop m).measuringState = MEASURING_STATE_T.MEASURING_STATE_RUNNING
          ∧ (loop m).ledPin = true)
      ∧ (m.measuringState = MEASURING_STATE_T.MEASURING_STATE_FINISH →
        (loop m).measuringState = MEASURING_STATE_T.MEASURING_STATE_IDLE
          ∧ (loop m).ledPin = false)
      ∧ (m.measuringState = MEASURING_STATE_T.MEASURING_STATE_IDLE
          ∨ m.measuringState = MEASURING_STATE_T.MEASURING_STATE_RUNNING →
        (loop m).measuringState = m.measuringState ∧ (loop m).ledPin = m.ledPin) := by
  refine ⟨?_, ?_, ?_⟩
  · intro h
    unfold loop
    rw [h]
    simp [accelerometer.start, stepcounter.start]
  · intro h
    unfold loop
    rw [h]
    simp [accelerometer.stop, stepcounter.stop]
  · intro h
    unfold loop
    rcases h with h | h <;> rw [h] <;> simp only [] <;>
      cases os_semaphore_take m.stateUpdateSemaphore <;> simp [h]

theorem buttonHandler_measuringState (m : main_state) :
    (m.measuringState = MEASURING_STATE_T.MEASURING_STATE_IDLE →
        (buttonHandler m).measuringState = MEASURING_STATE_T.MEASURING_STATE_BEGIN)
      ∧ (m.measuringState = MEASURING_STATE_T.MEASURING_STATE_RUNNING →
        (buttonHandler m).measuringState = MEASURING_STATE_T.MEASURING_STATE_FINISH)
      ∧ (m.measuringState = MEASURING_STATE_T.MEASURING_STATE_BEGIN
          ∨ m.measuringState = MEASURING_STATE_T.MEASURING_STATE_FINISH →
        (buttonHandler m).measuringState = m.measuringState)
      ∧ (buttonHandler m).ledPin = m.ledPin := by
  unfold buttonHandler
  cases h : m.measuringState <;> simp [h]

/-- Every step of the main program keeps the state or moves it to its
successor in the cycle. -/
theorem mainStep_cycle (e : main_event) (m : main_state) :
    (mainStep e m).measuringState = m.measuringState
      ∨ (mainStep e m).measuringState = m.measuringState.next := by
  have hl := loop_measuringState m
  have hb := buttonHandler_measuringState m
  cases e <;> cases h : m.measuringState <;>
    simp [mainStep, MEASURING_STATE_T.next, h] at hl hb ⊢ <;> simp [hl, hb]

/-- Claim C12. One call of `loop` maps Begin to Running and Finish to Idle and
leaves Idle and Running unchanged. Every step of the main program, a button
click or a call of `loop`, either leaves `measuringState` unchanged or moves
it to its successor in the cycle Idle, Begin, Running, Finish, Idle; this
holds in particular at every step of every sequence of steps that starts in
the state after `setup`, which is Idle. -/
theorem C12_session_cycle (m : main_state) :
    (m.measuringState = MEASURING_STATE_T.MEASURING_STATE_BEGIN →
        (loop m).measuringState = MEASURING_STATE_T.MEASURING_STATE_RUNNING)
      ∧ (m.measuringState = MEASURING_STATE_T.MEASURING_STATE_FINISH →
        (loop m).measuringState = MEASURING_STATE_T.MEASURING_STATE_IDLE)
      ∧ (m.measuringState = MEASURING_STATE_T.MEASURING_STATE_IDLE
          ∨ m.measuringState = MEASURING_STATE_T.MEASURING_STATE_RUNNING →
        (loop m).measuringState = m.measuringState)
      ∧ (∀ e : main_event,
          (mainStep e m).measuringState = m.measuringState
            ∨ (mainStep e m).measuringState = m.measuringState.next)
      ∧ (∀ (dataQueue : List acceleration_sample_t) (before : List main_event)
          (e : main_event),
          (main_state.afterSetup dataQueue).measuringState
              = MEASURING_STATE_T.MEASURING_STATE_IDLE
            ∧ ((mainStep e (mainRun before (main_state.afterSetup dataQueue))).measuringState
                = (mainRun before (main_state.afterSetup dataQueue)).measuringState
              ∨ (mainStep e (mainRun before (main_state.afterSetup dataQueue))).measuringState
                = (mainRun before (main_state.afterSetup dataQueue)).measuringState.next)) := by
  have hl := loop_measuringState m
  exact ⟨fun h => (hl.1 h).1, fun h => (hl.2.1 h).1, fun h => (hl.2.2 h).1,
    fun e => mainStep_cycle e m, fun q before e => ⟨rfl, mainStep_cycle e _⟩⟩

/-- Claim C13 as stated fails. After `setup` and one button click the state is
Begin and the LED is still off: `buttonHandler` does not touch the LED, which
is switched on by the next call of `loop`. -/
theorem C13_counterexample_begin_led_off :
    clickedOnce = mainRun [main_event.trigger] (main_state.afterSetup [])
      ∧ clickedOnce.measuringState = MEASURING_STATE_T.MEASURING_STATE_BEGIN
      ∧ clickedOnce.ledPin = false
      ∧ (loop clickedOnce).measuringState = MEASURING_STATE_T.MEASURING_STATE_RUNNING
      ∧ (loop clickedOnce).ledPin = true := by
  decide

theorem mainStep_led (e : main_event) (m : main_state)
    (h : m.ledPin = true ↔ (m.measuringState = MEASURING_STATE_T.MEASURING_STATE_RUNNING
      ∨ m.measuringState = MEASURING_STATE_T.MEASURING_STATE_FINISH)) :
    (mainStep e m).ledPin = true
      ↔ ((mainStep e m).measuringState = MEASURING_STATE_T.MEASURING_STATE_RUNNING
        ∨ (mainStep e m).measuringState = MEASURING_STATE_T.MEASURING_STATE_FINISH) := by
  have hl := loop_measuringState m
  have hb := buttonHandler_measuringState m
  cases e <;> cases hs : m.measuringState <;>
    simp [mainStep, hs] at hl hb h ⊢ <;> simp [hl, hb, h]

theorem mainRun_led : ∀ (evs : List main_event) (m : main_state),
    (m.ledPin = true ↔ (m.measuringState = MEASURING_STATE_T.MEASURING_STATE_RUNNING
      ∨ m.measuringState = MEASURING_STATE_T.MEASURING_STATE_FINISH)) →
    ((mainRun evs m).ledPin = true
      ↔ ((mainRun evs m).measuringState = MEASURING_STATE_T.MEASURING_STATE_RUNNING
        ∨ (mainRun evs m).measuringState = MEASURING_STATE_T.MEASURING_STATE_FINISH)) := by
  intro evs
  induction evs with
  | nil => intro m h; exact h
  | cons e es ih => intro m h; exact ih _ (mainStep_led e m h)

/-- Claim C13, amended. In every state reachable from the state after `setup`
(session Idle, LED off) by button clicks and calls of `loop`, the status LED
is on if and only if the session state is Running or Finish, and off if and
only if it is Idle or Begin. -/
theorem C13_led_invariant (dataQueue : List acceleration_sample_t) (evs : List main_event) :
    ((mainRun evs (main_state.afterSetup dataQueue)).ledPin = true
        ↔ ((mainRun evs (main_state.afterSetup dataQueue)).measuringState
              = MEASURING_STATE_T.MEASURING_STATE_RUNNING
            ∨ (mainRun evs (main_state.afterSetup dataQueue)).measuringState
              = MEASURING_STATE_T.MEASURING_STATE_FINISH))
      ∧ ((mainRun evs (main_state.afterSetup dataQueue)).ledPin = false
        ↔ ((mainRun evs (main_state.afterSetup dataQueue)).measuringState
              = MEASURING_STATE_T.MEASURING_STATE_IDLE
            ∨ (mainRun evs (main_state.afterSetup dataQueue)).measuringState
              = MEASURING_STATE_T.MEASURING_STATE_BEGIN)) := by
  have h := mainRun_led evs (main_state.afterSetup dataQueue) (by simp [main_state.afterSetup])
  refine ⟨h, ?_⟩
  cases hs : (mainRun evs (main_state.afterSetup dataQueue)).measuringState <;>
    cases hl : (mainRun evs (main_state.afterSetup dataQueue)).ledPin <;>
    simp [hs, hl] at h ⊢

/-! ## The Finish step of the drain loop -/

/-- The loop of the Finish state is as many pops as the queue holds
samples. -/
theorem finishLoop_eq_forwardDataN (predict : List Int → Nat → Int) :
    ∀ (n : Nat) (self : stepcounter), self.inv → self.dataQueue.length = n →
      finishLoop predict (n + 1) self = forwardDataN predict n self := by
  intro n
  induction n with
  | zero =>
    intro self _ hlen
    have hq : self.dataQueue = [] := List.eq_nil_of_length_eq_zero hlen
    rw [finishLoop, forwardData_nil predict self hq]
    simp [forwardDataN]
  | succ n ih =>
    intro self hinv hlen
    obtain ⟨x, q, hq⟩ : ∃ x q, self.dataQueue = x :: q := by
      cases hd : self.dataQueue with
      | nil => rw [hd] at hlen; simp at hlen
      | cons x q => exact ⟨x, q, rfl⟩
    obtain ⟨s1, h1, hinv1, hq1, -⟩ := forwardData_step predict self x q hq hinv
    have hlen1 : s1.dataQueue.length = n := by
      rw [hq1]; rw [hq] at hlen; simpa using hlen
    rw [finishLoop, forwardDataN, h1]
    simp only [Option.bind_eq_bind, Option.some_bind, if_true]
    exact ih s1 hinv1 hlen1

/-- The pop number `j + 1` of a sequence of pops takes the sample at place `j`
of the queue and writes it at the write index, which is `j` places after the
one the sequence started at, modulo 100. -/
theorem forwardDataN_succ_write (predict : List Int → Nat → Int) (self : stepcounter)
    (hinv : self.inv) (j : Nat) (hj : j < self.dataQueue.length) :
    ∃ a b x, forwardDataN predict j self = some a
      ∧ forwardDataN predict (j + 1) self = some b
      ∧ self.dataQueue[j]? = some x
      ∧ a.dataQueue = x :: b.dataQueue
      ∧ a.bufferWriteIndex = (self.bufferWriteIndex + j) % 100
      ∧ b.buffer = a.buffer.set ((self.bufferWriteIndex + j) % 100) x := by
  obtain ⟨a, ha, hinva, hqa, hia, -⟩ := forwardDataN_counts predict j self hinv (by omega)
  have hx : self.dataQueue[j]? = some (self.dataQueue[j]) := List.getElem?_eq_getElem hj
  have hqa' : a.dataQueue = self.dataQueue[j] :: self.dataQueue.drop (j + 1) := by
    rw [hqa]; exact List.drop_eq_getElem_cons hj
  obtain ⟨b, hb, -, hqb, hbuf, -⟩ := forwardData_step predict a _ _ hqa' hinva
  refine ⟨a, b, self.dataQueue[j], ha, ?_, hx, by rw [hqa', hqb], hia, by rw [hbuf, hia]⟩
  rw [forwardDataN_add, ha, Option.some_bind, forwardDataN, hb]
  simp [forwardDataN]

/-- The Finish step of the drain loop: as many pops as the queue holds
samples, then the state is set to Idle. -/
theorem bufferPiping_finish (predict : List Int → Nat → Int) (self : stepcounter)
    (hinv : self.inv) (hst : self.state = stepcounter_state_t.STEPCOUNTER_STATE_FINISH) :
    ∃ s, forwardDataN predict self.dataQueue.length self = some s
      ∧ bufferPiping predict self
        = some { s with state := stepcounter_state_t.STEPCOUNTER_STATE_IDLE }
      ∧ s.inv ∧ s.dataQueue = []
      ∧ s.bufferWriteIndex = (self.bufferWriteIndex + self.dataQueue.length) % 100 := by
  have hfl := finishLoop_eq_forwardDataN predict self.dataQueue.length self hinv rfl
  obtain ⟨s, hs, hinv', hq, hi, -⟩ :=
    forwardDataN_counts predict self.dataQueue.length self hinv (le_refl _)
  refine ⟨s, hs, ?_, hinv', by rw [hq]; simp, hi⟩
  unfold bufferPiping
  rw [hst]
  simp only [hfl, hs, Option.bind_eq_bind, Option.some_bind, Option.pure_def]

/-- Claim C15. For every queue content of `k` samples (with no producer
adding samples), one Finish step of the drain loop pops all `k` samples in
queue order, the pop number `j + 1` taking the sample at place `j` of the
queue and writing it at buffer position `(startIndex + j) mod 100`; it leaves
the queue empty and sets the state to Idle. With `k = 0` the step changes
nothing but the state: buffer, write index and `stepCount` are unchanged and
no buffer is handed over. -/
theorem C15_finish_drain (predict : List Int → Nat → Int) (self : stepcounter)
    (hinv : self.inv) (hst : self.state = stepcounter_state_t.STEPCOUNTER_STATE_FINISH) :
    (∃ s, forwardDataN predict self.dataQueue.length self = some s
        ∧ bufferPiping predict self
          = some { s with state := stepcounter_state_t.STEPCOUNTER_STATE_IDLE }
        ∧ s.dataQueue = []
        ∧ s.bufferWriteIndex = (self.bufferWriteIndex + self.dataQueue.length) % 100)
      ∧ (∀ j, j < self.dataQueue.length →
          ∃ a b x, forwardDataN predict j self = some a
            ∧ forwardDataN predict (j + 1) self = some b
            ∧ self.dataQueue[j]? = some x
            ∧ a.dataQueue = x :: b.dataQueue
            ∧ a.bufferWriteIndex = (self.bufferWriteIndex + j) % 100
            ∧ b.buffer = a.buffer.set ((self.bufferWriteIndex + j) % 100) x)
      ∧ (self.dataQueue = [] →
          bufferPiping predict self
            = some { self with state := stepcounter_state_t.STEPCOUNTER_STATE_IDLE }) := by
  have hfl := finishLoop_eq_forwardDataN predict self.dataQueue.length self hinv rfl
  refine ⟨?_, fun j hj => forwardDataN_succ_write predict self hinv j hj, ?_⟩
  · obtain ⟨s, hs, hb, -, hq, hi⟩ := bufferPiping_finish predict self hinv hst
    exact ⟨s, hs, hb, hq, hi⟩
  · intro hq
    have h1 : finishLoop predict (self.dataQueue.length + 1) self = some self := by
      rw [hfl, hq]; rfl
    unfold bufferPiping
    rw [hst]
    simp only [h1, Option.bind_eq_bind, Option.some_bind, Option.pure_def]

/-- Claim C15 at the object of a counter whose write index is 99 and whose
queue holds one sample, after a call of `stop`. -/
theorem C15_finish_drain_witness :
    (almostFullCounter.stop.2.inv
        ∧ almostFullCounter.stop.2.state = stepcounter_state_t.STEPCOUNTER_STATE_FINISH)
      ∧ ∃ s, bufferPiping (constantPredictor 1) almostFullCounter.stop.2 = some s
        ∧ s.state = stepcounter_state_t.STEPCOUNTER_STATE_IDLE ∧ s.dataQueue = []
        ∧ s.bufferWriteIndex = 0 := by
  have hinv : almostFullCounter.stop.2.inv := by decide
  obtain ⟨⟨s, -, hb, hq, hi⟩, -, -⟩ :=
    C15_finish_drain (constantPredictor 1) almostFullCounter.stop.2 hinv rfl
  exact ⟨⟨hinv, rfl⟩, _, hb, rfl, hq, hi⟩

/-! ## The report of the step count -/

/-- The Finish step of the drain loop ends in the Idle state with an empty
queue, and `stepCount` has grown by the results of the calls of `countSteps`
made while draining. -/
theorem bufferPiping_finish_counted (predict : List Int → Nat → Int) (self : stepcounter)
    (hinv : self.inv) (hst : self.state = stepcounter_state_t.STEPCOUNTER_STATE_FINISH) :
    ∃ s calls, bufferPiping predict self = some s
      ∧ s.state = stepcounter_state_t.STEPCOUNTER_STATE_IDLE ∧ s.dataQueue = []
      ∧ countedSince predict self s calls := by
  obtain ⟨s, calls, hb, -, hc⟩ := bufferPiping_counted predict self hinv
  obtain ⟨s', -, hb', -, hq, -⟩ := bufferPiping_finish predict self hinv hst
  rw [hb] at hb'
  have e := Option.some.inj hb'
  exact ⟨s, calls, hb, by rw [e], by rw [e]; exact hq, hc⟩

/-- Claim C14 as stated fails. The main program is in its Finish state; its
step counter is past its first buffer, has counted 0 steps, its write index is
99 and its queue holds one sample. `loop` calls `stop` and reports the step
count 0; the step counter is then in its Finish state, not Idle, and the
sample is still in the queue. The Finish step of the drain loop that follows
pops the sample, which completes a buffer, and the predictor's output 1 is
added: the count is 1 after the report said 0. -/
theorem C14_counterexample_report_before_drain :
    finishingMain.measuringState = MEASURING_STATE_T.MEASURING_STATE_FINISH
      ∧ (loop finishingMain).logged = [0]
      ∧ (loop finishingMain).published = [0]
      ∧ (loop finishingMain).stepCounter.state = stepcounter_state_t.STEPCOUNTER_STATE_FINISH
      ∧ (loop finishingMain).stepCounter.dataQueue = [zeroSample]
      ∧ (bufferPiping (constantPredictor 1) (loop finishingMain).stepCounter).map
          (fun s => (s.state, s.dataQueue, s.stepCount))
        = some (stepcounter_state_t.STEPCOUNTER_STATE_IDLE, [], 1) := by
  decide

/-- Claim C14, amended. The Finish handling of `loop` does not wait for the
step counter: `stepCounter.stop()` only sets the state of the drain state
machine to Finish, leaving queue, buffer, write index and `stepCount` as they
were, and `loop` logs and publishes the `stepCount` of that moment. The drain
happens in the Finish step of `bufferPiping` that follows: after it the drain
state machine is Idle, the queue is empty and every buffer completed while
draining has been counted, so that `stepCount` is the reported value plus the
results of these calls of `countSteps`. -/
theorem C14_report_then_drain (predict : List Int → Nat → Int) (m : main_state)
    (hst : m.measuringState = MEASURING_STATE_T.MEASURING_STATE_FINISH)
    (hinv : m.stepCounter.inv) :
    (loop m).stepCounter
        = { m.stepCounter with state := stepcounter_state_t.STEPCOUNTER_STATE_FINISH }
      ∧ (loop m).logged = m.logged ++ [m.stepCounter.stepCount]
      ∧ (loop m).published = m.published ++ [m.stepCounter.stepCount]
      ∧ (loop m).measuringState = MEASURING_STATE_T.MEASURING_STATE_IDLE
      ∧ ∃ s calls, bufferPiping predict (loop m).stepCounter = some s
          ∧ s.state = stepcounter_state_t.STEPCOUNTER_STATE_IDLE ∧ s.dataQueue = []
          ∧ s.countStepsCalls = m.stepCounter.countStepsCalls ++ calls
          ∧ (∀ c ∈ calls, c.genuine predict)
          ∧ s.stepCount = toUInt32 ((m.stepCounter.stepCount : Int) + totalSteps calls) := by
  have hsc : (loop m).stepCounter
      = { m.stepCounter with state := stepcounter_state_t.STEPCOUNTER_STATE_FINISH } := by
    unfold loop
    rw [hst]
    simp [accelerometer.stop, stepcounter.stop]
  refine ⟨hsc, ?_, ?_, ?_, ?_⟩
  · unfold loop
    rw [hst]
    simp [accelerometer.stop, stepcounter.stop]
  · unfold loop
    rw [hst]
    simp [accelerometer.stop, stepcounter.stop]
  · unfold loop
    rw [hst]
  · rw [hsc]
    obtain ⟨s, calls, hb, hs, hq, hc, hg, hcount⟩ :=
      bufferPiping_finish_counted predict
        { m.stepCounter with state := stepcounter_state_t.STEPCOUNTER_STATE_FINISH } hinv rfl
    exact ⟨s, calls, hb, hs, hq, hc, hg, hcount⟩

/-- Claim C14, amended, at the main program whose step counter is one sample
short of a full buffer. -/
theorem C14_report_then_drain_witness :
    (finishingMain.measuringState = MEASURING_STATE_T.MEASURING_STATE_FINISH
        ∧ finishingMain.stepCounter.inv)
      ∧ (loop finishingMain).logged = finishingMain.logged ++ [finishingMain.stepCounter.stepCount]
      ∧ (loop finishingMain).stepCounter
        = { finishingMain.stepCounter with
            state := stepcounter_state_t.STEPCOUNTER_STATE_FINISH } := by
  have hinv : finishingMain.stepCounter.inv := by decide
  have h := C14_report_then_drain (constantPredictor 1) finishingMain rfl hinv
  exact ⟨⟨rfl, hinv⟩, h.2.1, h.1⟩

/-! ## The raw forwarder -/

theorem formatSample_length_pos (sample : acceleration_sample_t) :
    0 < (formatSample sample).length := by
  unfold formatSample
  rw [String.length_append]
  have : ("\n" : String).length = 1 := rfl
  omega

/-- A call of `forwardData` of the data router on a queue that holds a sample
writes its record and returns what `client.write` returned. -/
theorem datarouter_forwardData_cons (write : String → Int) (self : datarouter)
    (x : acceleration_sample_t) (q : List acceleration_sample_t)
    (hq : self.dataQueue = x :: q) :
    self.forwardData write
      = (write (formatSample x), { self with
          dataQueue := q
          writeCalls := self.writeCalls ++ [formatSample x] }) := by
  unfold datarouter.forwardData
  rw [hq]
  simp [os_queue_take]

/-- When `client.write` returns a non-zero value for the record of the oldest
queued sample, the Finish step of the data router forwards that sample only:
the rest of the queue stays where it is. -/
theorem dataRouterFunc_finish_one (connect : Bool) (write : String → Int) (self : datarouter)
    (x : acceleration_sample_t) (q : List acceleration_sample_t)
    (hst : self.state = datarouter_state_t.DATAROUTER_STATE_FINISH)
    (hq : self.dataQueue = x :: q) (hw : write (formatSample x) ≠ 0) :
    dataRouterFunc connect write self
      = some { self with
          dataQueue := q
          writeCalls := self.writeCalls ++ [formatSample x]
          connected := false
          state := datarouter_state_t.DATAROUTER_STATE_IDLE } := by
  unfold dataRouterFunc
  rw [hst]
  simp only [hq, List.length_cons, datarouter.finishLoop]
  rw [datarouter_forwardData_cons write self x q hq]
  simp [hw]

/-- Claim C16 fails on the code for a queue of more than one sample. The data
router is connected and in its Finish state, its queue holds three samples,
and the sink's write succeeds and returns the number of bytes written, which
is not zero. `forwardData` returns that number, so the loop
`while ( self->forwardData() == 0 )` ends after the first sample: one record
is written, two samples stay in the queue, the connection is stopped and the
state is Idle. -/
theorem C16_finish_forwards_one_sample :
    finishingRouter.state = datarouter_state_t.DATAROUTER_STATE_FINISH
      ∧ finishingRouter.dataQueue.length = 3
      ∧ (∀ data, writeAll data = (data.length : Int))
      ∧ dataRouterFunc true writeAll finishingRouter
        = some { finishingRouter with
            dataQueue := finishingRouter.dataQueue.drop 1
            writeCalls := (finishingRouter.dataQueue.take 1).map formatSample
            connected := false
            state := datarouter_state_t.DATAROUTER_STATE_IDLE }
      ∧ (finishingRouter.dataQueue.drop 1).length = 2 := by
  refine ⟨rfl, rfl, fun _ => rfl, ?_, rfl⟩
  have hw : writeAll (formatSample ⟨0, 1, 2, 3, false⟩) ≠ 0 := by
    have := formatSample_length_pos ⟨0, 1, 2, 3, false⟩
    unfold writeAll
    omega
  exact dataRouterFunc_finish_one true writeAll finishingRouter _ _ rfl rfl hw

/-- Claim C17. A Begin step of `dataRouterFunc` in which the sink's connect
returns false sets the state to Idle and changes nothing else: nothing is
popped from the queue and nothing is written to the sink. When connect
returns true the state becomes Running and the client is connected, likewise
without popping or writing. -/
theorem C17_connect_failure (write : String → Int) (self : datarouter)
    (hst : self.state = datarouter_state_t.DATAROUTER_STATE_BEGIN) :
    dataRouterFunc false write self
        = some { self with state := datarouter_state_t.DATAROUTER_STATE_IDLE }
      ∧ dataRouterFunc true write self
        = some { self with
            connected := true
            state := datarouter_state_t.DATAROUTER_STATE_RUNNING }
      ∧ (∀ (connect : Bool) (s : datarouter), dataRouterFunc connect write self = some s →
          s.dataQueue = self.dataQueue ∧ s.writeCalls = self.writeCalls
            ∧ (s.state = datarouter_state_t.DATAROUTER_STATE_IDLE ↔ connect = false)
            ∧ (s.state = datarouter_state_t.DATAROUTER_STATE_RUNNING ↔ connect = true)) := by
  refine ⟨?_, ?_, ?_⟩
  · unfold dataRouterFunc
    rw [hst]
    rfl
  · unfold dataRouterFunc
    rw [hst]
    rfl
  · intro connect s hs
    unfold dataRouterFunc at hs
    rw [hst] at hs
    cases connect <;> simp at hs <;> subst hs <;> simp

/-- Claim C17 at a data router after `start`, over a queue of three
samples. -/
theorem C17_connect_failure_witness :
    startedRouter.state = datarouter_state_t.DATAROUTER_STATE_BEGIN
      ∧ dataRouterFunc false writeAll startedRouter
        = some { startedRouter with state := datarouter_state_t.DATAROUTER_STATE_IDLE } :=
  ⟨rfl, (C17_connect_failure writeAll startedRouter rfl).1⟩

/-! ## The sample source -/

/-- Claim C18. In one Running step of `getMeasurement`, `System.reset()` is
called if and only if `os_queue_put` fails, which is when the queue is full
past the timeout. When the push succeeds, exactly one sample, carrying the
current time and the sensor's x, y, z reading, is appended at the tail of the
queue and the earlier entries are unchanged. When it fails the queue is
unchanged: the push is not retried and no queued sample is overwritten. -/
theorem C18_push_or_reset (millis : Nat) (x y z : Int) (t : measurement_thread)
    (hst : t.self.state = accelerometer_state_t.ACCELEROMETER_STATE_RUNNING)
    (hr : t.resetCalled = false) :
    ((getMeasurement millis x y z t).resetCalled = true
        ↔ (os_queue_put t.dataQueue (getMeasurement millis x y z t).sample).1 ≠ 0)
      ∧ ((os_queue_put t.dataQueue (getMeasurement millis x y z t).sample).1 ≠ 0
        ↔ DATA_BUFFER_SIZE ≤ t.dataQueue.length)
      ∧ (getMeasurement millis x y z t).sample
        = ⟨millis, x, y, z, if t.self.detectStep then t.stepDetected else t.sample.step⟩
      ∧ (t.dataQueue.length < DATA_BUFFER_SIZE →
          (getMeasurement millis x y z t).dataQueue
              = t.dataQueue ++ [(getMeasurement millis x y z t).sample]
            ∧ (getMeasurement millis x y z t).resetCalled = false)
      ∧ (DATA_BUFFER_SIZE ≤ t.dataQueue.length →
          (getMeasurement millis x y z t).dataQueue = t.dataQueue
            ∧ (getMeasurement millis x y z t).resetCalled = true) := by
  have hs : (getMeasurement millis x y z t).sample
      = ⟨millis, x, y, z, if t.self.detectStep then t.stepDetected else t.sample.step⟩ := by
    unfold getMeasurement
    rw [hst]
    unfold os_queue_put
    cases hd : t.self.detectStep <;> cases hsd : t.stepDetected <;> simp <;> split <;> simp
  by_cases hfull : t.dataQueue.length < DATA_BUFFER_SIZE
  · have hput : ∀ item, os_queue_put t.dataQueue item = (0, t.dataQueue ++ [item]) := by
      intro item; unfold os_queue_put; rw [if_pos hfull]
    have hq : (getMeasurement millis x y z t).dataQueue
          = t.dataQueue ++ [(getMeasurement millis x y z t).sample]
        ∧ (getMeasurement millis x y z t).resetCalled = false := by
      rw [hs]
      unfold getMeasurement
      rw [hst]
      cases hd : t.self.detectStep <;> cases hsd : t.stepDetected <;> simp [hput, hr]
    refine ⟨?_, ?_, hs, fun _ => hq, fun h => absurd hfull (by omega)⟩
    · rw [hput, hq.2]; simp
    · rw [hput]; simp; omega
  · have hput : ∀ item, os_queue_put t.dataQueue item = (1, t.dataQueue) := by
      intro item; unfold os_queue_put; rw [if_neg hfull]
    have hq : (getMeasurement millis x y z t).dataQueue = t.dataQueue
        ∧ (getMeasurement millis x y z t).resetCalled = true := by
      unfold getMeasurement
      rw [hst]
      cases hd : t.self.detectStep <;> cases hsd : t.stepDetected <;> simp [hput]
    refine ⟨?_, ?_, hs, fun h => absurd h hfull, fun _ => hq⟩
    · rw [hput, hq.2]; simp
    · rw [hput]; simp; omega

/-- Claim C18 at a sample source with an empty queue. -/
theorem C18_push_or_reset_witness :
    (runningSource.self.state = accelerometer_state_t.ACCELEROMETER_STATE_RUNNING
        ∧ runningSource.resetCalled = false)
      ∧ (getMeasurement 7 1 2 3 runningSource).dataQueue = [⟨7, 1, 2, 3, false⟩]
      ∧ (getMeasurement 7 1 2 3 runningSource).resetCalled = false := by
  have h := (C18_push_or_reset 7 1 2 3 runningSource rfl rfl).2.2.2.1 (by decide)
  refine ⟨⟨rfl, rfl⟩, ?_, h.2⟩
  rw [h.1, (C18_push_or_reset 7 1 2 3 runningSource rfl rfl).2.2.1]
  rfl


/-! ## Only full, fresh windows reach the extractor -/

/-- Writing the next popped sample at the write index keeps each of the last
100 popped samples at its buffer position. -/
theorem buffer_positions_step (buffer popped : List acceleration_sample_t)
    (x : acceleration_sample_t) (hlen : buffer.length = 100)
    (h : ∀ i, i < popped.length → popped.length ≤ i + 100 → buffer[i % 100]? = popped[i]?) :
    ∀ i, i < (popped ++ [x]).length → (popped ++ [x]).length ≤ i + 100 →
      (buffer.set (popped.length % 100) x)[i % 100]? = (popped ++ [x])[i]? := by
  intro i hi hle
  rw [List.length_append, List.length_singleton] at hi hle
  rw [List.getElem?_set]
  by_cases hip : i = popped.length
  · subst hip
    rw [if_pos rfl, if_pos (by omega)]
    simp
  · have hlt : i < popped.length := by omega
    rw [if_neg (by omega), List.getElem?_append_left hlt]
    exact h i hlt (by omega)

/-- When the number of popped samples is a positive multiple of 100, the
buffer is the last 100 popped samples in pop order. -/
theorem buffer_eq_lastSamples (buffer popped : List acceleration_sample_t)
    (hlen : buffer.length = 100) (hmod : popped.length % 100 = 0) (hpos : 100 ≤ popped.length)
    (h : ∀ i, i < popped.length → popped.length ≤ i + 100 → buffer[i % 100]? = popped[i]?) :
    buffer = lastSamples DATA_BUFFER_SIZE popped := by
  rw [DATA_BUFFER_SIZE_eq]
  unfold lastSamples
  apply List.ext_getElem?
  intro j
  rw [List.getElem?_drop]
  by_cases hj : j < 100
  · have := h (popped.length - 100 + j) (by omega) (by omega)
    rw [← this]
    congr 1
    omega
  · rw [List.getElem?_eq_none (by omega), List.getElem?_eq_none (by omega)]

/-- One call of `forwardData` under observation keeps the invariant of the
observed run. -/
theorem observedForwardData_inv (predict : List Int → Nat → Int) (o : observed_stepcounter)
    (hinv : o.inv) :
    ∃ status o', observedForwardData predict o = some (status, o') ∧ o'.inv
      ∧ o.self.forwardData predict = some (status, o'.self)
      ∧ o'.self.state = o.self.state := by
  obtain ⟨hsinv, hidx, hbuf, hB, hflag, hmap, hobs⟩ := hinv
  have hlen100 : o.self.buffer.length = 100 := by rw [hsinv.2.1, DATA_BUFFER_SIZE_eq]
  cases hq : o.self.dataQueue with
  | nil =>
    have hfd := forwardData_nil predict o.self hq
    refine ⟨1, o, ?_, ⟨hsinv, hidx, hbuf, hB, hflag, hmap, hobs⟩, hfd, rfl⟩
    unfold observedForwardData
    rw [hfd]
    have h10 : ¬ ((1 : Int) = 0) := by decide
    simp only [h10, if_false, lt_irrefl]
    split <;> rfl
  | cons x q =>
    obtain ⟨s, hfd, hinv', -, hsbuf, hsidx, hst, hcase⟩ :=
      forwardData_step predict o.self x q hq hsinv
    have hbuf' := buffer_positions_step o.self.buffer o.popped x hlen100 hbuf
    rw [← hidx, ← hsbuf] at hbuf'
    have hidx' : s.bufferWriteIndex = (o.popped ++ [x]).length % 100 := by
      rw [hsidx, hidx, List.length_append, List.length_singleton]; omega
    have hB' : o.sinceBegin + 1 ≤ (o.popped ++ [x]).length := by
      rw [List.length_append, List.length_singleton]; omega
    have hunf : observedForwardData predict o
        = some (0, ⟨s, o.popped ++ [x], o.sinceBegin + 1,
            match s.countStepsCalls.getLast? with
            | some call =>
              if o.self.countStepsCalls.length < s.countStepsCalls.length then
                o.observations ++ [⟨s.bufferWriteIndex, call.window, o.popped ++ [x],
                  o.sinceBegin + 1⟩]
              else o.observations
            | none => o.observations⟩) := by
      unfold observedForwardData
      rw [hfd, hq]
      simp
    rcases hcase with ⟨hw, -, -, hf, -, hc⟩ | ⟨hw, -, -, -, hf, -, hc⟩
        | ⟨hw, -, -, hf0, hf, features, -, -, hc⟩
    · have hsame : (match s.countStepsCalls.getLast? with
          | some call =>
            if o.self.countStepsCalls.length < s.countStepsCalls.length then
              o.observations ++ [⟨s.bufferWriteIndex, call.window, o.popped ++ [x],
                o.sinceBegin + 1⟩]
            else o.observations
          | none => o.observations) = o.observations := by
        rw [hc]; cases o.self.countStepsCalls.getLast? <;> simp
      rw [hsame] at hunf
      refine ⟨0, _, hunf, ⟨hinv', hidx', hbuf', hB', ?_, by simp only [hc]; exact hmap, hobs⟩,
        hfd, hst⟩
      intro hft
      have := hflag (by rw [← hf]; exact hft)
      simp only [List.length_append, List.length_singleton]
      rw [hidx] at hw
      omega
    · have hsame : (match s.countStepsCalls.getLast? with
          | some call =>
            if o.self.countStepsCalls.length < s.countStepsCalls.length then
              o.observations ++ [⟨s.bufferWriteIndex, call.window, o.popped ++ [x],
                o.sinceBegin + 1⟩]
            else o.observations
          | none => o.observations) = o.observations := by
        rw [hc]; cases o.self.countStepsCalls.getLast? <;> simp
      rw [hsame] at hunf
      refine ⟨0, _, hunf, ⟨hinv', hidx', hbuf', hB', ?_, by simp only [hc]; exact hmap, hobs⟩,
        hfd, hst⟩
      intro _
      simp only [List.length_append, List.length_singleton]
      rw [hidx] at hw
      omega
    · have hgrow : (match s.countStepsCalls.getLast? with
          | some call =>
            if o.self.countStepsCalls.length < s.countStepsCalls.length then
              o.observations ++ [⟨s.bufferWriteIndex, call.window, o.popped ++ [x],
                o.sinceBegin + 1⟩]
            else o.observations
          | none => o.observations)
          = o.observations ++ [⟨s.bufferWriteIndex, s.buffer, o.popped ++ [x],
              o.sinceBegin + 1⟩] := by
        rw [hc, hsbuf]; simp
      rw [hgrow] at hunf
      have h99 := hflag hf0
      rw [hidx] at hw
      have hmod : (o.popped ++ [x]).length % 100 = 0 := by
        rw [List.length_append, List.length_singleton]; omega
      have hpos : 100 ≤ (o.popped ++ [x]).length := by
        rw [List.length_append, List.length_singleton]; omega
      have hslen : s.buffer.length = 100 := by rw [hinv'.2.1, DATA_BUFFER_SIZE_eq]
      have hwin := buffer_eq_lastSamples s.buffer (o.popped ++ [x]) hslen hmod hpos hbuf'
      refine ⟨0, _, hunf, ⟨hinv', hidx', hbuf', hB', ?_, ?_, ?_⟩, hfd, hst⟩
      · intro _
        rw [hmod]; omega
      · simp only [hc, List.map_append, List.map_cons, List.map_nil, hmap, hsbuf]
      · intro obs hmem
        rcases List.mem_append.1 hmem with h | h
        · exact hobs obs h
        · rw [List.mem_singleton.1 h]
          refine ⟨by simp only [hidx', hmod], hinv'.2.1, hwin, ?_, hB'⟩
          show DATA_BUFFER_SIZE ≤ o.sinceBegin + 1
          rw [DATA_BUFFER_SIZE_eq]; omega

/-- The Finish step on an empty queue only sets the state to Idle. -/
theorem bufferPiping_finish_empty (predict : List Int → Nat → Int) (self : stepcounter)
    (hinv : self.inv) (hst : self.state = stepcounter_state_t.STEPCOUNTER_STATE_FINISH)
    (hq : self.dataQueue = []) :
    bufferPiping predict self
      = some { self with state := stepcounter_state_t.STEPCOUNTER_STATE_IDLE } := by
  have hfl := finishLoop_eq_forwardDataN predict self.dataQueue.length self hinv rfl
  have h1 : finishLoop predict (self.dataQueue.length + 1) self = some self := by
    rw [hfl, hq]; rfl
  unfold bufferPiping
  rw [hst]
  simp only [h1, Option.bind_eq_bind, Option.some_bind, Option.pure_def]

theorem bufferPiping_begin (predict : List Int → Nat → Int) (self : stepcounter)
    (hst : self.state = stepcounter_state_t.STEPCOUNTER_STATE_BEGIN) :
    bufferPiping predict self
      = some { self with
          firstBufferFilled := false
          state := stepcounter_state_t.STEPCOUNTER_STATE_RUNNING } := by
  unfold bufferPiping
  rw [hst]
  rfl

/-- Every step under observation keeps the invariant of the observed run. -/
theorem observedAction_inv (predict : List Int → Nat → Int) (a : stepcounter_action)
    (o : observed_stepcounter) (hinv : o.inv) :
    ∃ o', observedAction predict a o = some o' ∧ o'.inv := by
  obtain ⟨hsinv, hidx, hbuf, hB, hflag, hmap, hobs⟩ := hinv
  cases a with
  | start => exact ⟨_, rfl, ⟨hsinv, hidx, hbuf, hB, hflag, hmap, hobs⟩⟩
  | stop => exact ⟨_, rfl, ⟨hsinv, hidx, hbuf, hB, hflag, hmap, hobs⟩⟩
  | enqueue sample => exact ⟨_, rfl, ⟨hsinv, hidx, hbuf, hB, hflag, hmap, hobs⟩⟩
  | beginStep =>
    unfold observedAction
    by_cases hst : o.self.state = stepcounter_state_t.STEPCOUNTER_STATE_BEGIN
    · simp only [hst, if_true, bufferPiping_begin predict o.self hst]
      exact ⟨_, rfl, ⟨hsinv, hidx, hbuf, Nat.zero_le _, fun h => by simp at h, hmap, hobs⟩⟩
    · simp only [hst, if_false]
      exact ⟨o, rfl, ⟨hsinv, hidx, hbuf, hB, hflag, hmap, hobs⟩⟩
  | pop =>
    unfold observedAction
    by_cases hst : o.self.state = stepcounter_state_t.STEPCOUNTER_STATE_RUNNING
        ∨ o.self.state = stepcounter_state_t.STEPCOUNTER_STATE_FINISH
    · obtain ⟨status, o', h, hinv', -, -⟩ :=
        observedForwardData_inv predict o ⟨hsinv, hidx, hbuf, hB, hflag, hmap, hobs⟩
      simp only [hst, if_true, h]
      exact ⟨o', rfl, hinv'⟩
    · simp only [hst, if_false]
      exact ⟨o, rfl, ⟨hsinv, hidx, hbuf, hB, hflag, hmap, hobs⟩⟩
  | finishExit =>
    unfold observedAction
    by_cases hst : o.self.state = stepcounter_state_t.STEPCOUNTER_STATE_FINISH
        ∧ o.self.dataQueue = []
    · simp only [hst, and_self, if_true]
      rw [bufferPiping_finish_empty predict o.self hsinv hst.1 hst.2]
      exact ⟨_, rfl, ⟨hsinv, hidx, hbuf, hB, hflag, hmap, hobs⟩⟩
    · simp only [hst, if_false]
      exact ⟨o, rfl, ⟨hsinv, hidx, hbuf, hB, hflag, hmap, hobs⟩⟩

theorem observedRun_inv (predict : List Int → Nat → Int) :
    ∀ (acts : List stepcounter_action) (o : observed_stepcounter), o.inv →
      ∃ o', observedRun predict acts o = some o' ∧ o'.inv := by
  intro acts
  induction acts with
  | nil => intro o hinv; exact ⟨o, rfl, hinv⟩
  | cons a as ih =>
    intro o hinv
    obtain ⟨o1, h1, hinv1⟩ := observedAction_inv predict a o hinv
    obtain ⟨o', h', hinv'⟩ := ih o1 hinv1
    refine ⟨o', ?_, hinv'⟩
    rw [observedRun, h1]
    exact h'

theorem stepcounter_new_inv (dataQueue : List acceleration_sample_t) :
    (stepcounter.new dataQueue).inv :=
  ⟨by show 0 < 4294967296; decide, List.length_replicate _ _, by show 0 < DATA_BUFFER_SIZE; decide⟩

theorem observed_initial_inv (dataQueue : List acceleration_sample_t) :
    (observed_stepcounter.initial dataQueue).inv := by
  refine ⟨stepcounter_new_inv dataQueue, rfl, ?_, Nat.le_refl _,
    fun h => by simp [observed_stepcounter.initial, stepcounter.new] at h, rfl,
    fun obs h => by simp [observed_stepcounter.initial] at h⟩
  intro i hi
  simp [observed_stepcounter.initial] at hi

theorem observedRun_append (predict : List Int → Nat → Int) :
    ∀ (a b : List stepcounter_action) (o : observed_stepcounter),
      observedRun predict (a ++ b) o = (observedRun predict a o).bind (observedRun predict b) := by
  intro a
  induction a with
  | nil => intro b o; rfl
  | cons x a ih =>
    intro b o
    rw [List.cons_append, observedRun, observedRun]
    cases observedAction predict x o with
    | none => rfl
    | some o1 => exact ih b o1

/-- In the Finish state, one pop more than the queue holds samples is the
loop of the Finish state. -/
theorem observed_pops_finish (predict : List Int → Nat → Int) :
    ∀ (n : Nat) (o : observed_stepcounter), o.inv →
      o.self.state = stepcounter_state_t.STEPCOUNTER_STATE_FINISH →
      o.self.dataQueue.length = n →
      ∃ o', observedRun predict (List.replicate (n + 1) stepcounter_action.pop) o = some o'
        ∧ o'.inv ∧ finishLoop predict (n + 1) o.self = some o'.self
        ∧ o'.self.state = stepcounter_state_t.STEPCOUNTER_STATE_FINISH
        ∧ o'.self.dataQueue = [] := by
  intro n
  induction n with
  | zero =>
    intro o hinv hst hlen
    have hq : o.self.dataQueue = [] := List.eq_nil_of_length_eq_zero hlen
    obtain ⟨status, o1, h, hinv1, hfd, hst1⟩ := observedForwardData_inv predict o hinv
    have hnil := forwardData_nil predict o.self hq
    rw [hnil] at hfd
    have e := Prod.mk.inj (Option.some.inj hfd)
    refine ⟨o1, ?_, hinv1, ?_, by rw [hst1, hst], by rw [← e.2]; exact hq⟩
    · simp [observedRun, observedAction, hst, h]
    · rw [finishLoop, hnil, ← e.2]
      simp
  | succ n ih =>
    intro o hinv hst hlen
    obtain ⟨x, q, hq⟩ : ∃ x q, o.self.dataQueue = x :: q := by
      cases hd : o.self.dataQueue with
      | nil => rw [hd] at hlen; simp at hlen
      | cons x q => exact ⟨x, q, rfl⟩
    obtain ⟨status, o1, h, hinv1, hfd, hst1⟩ := observedForwardData_inv predict o hinv
    obtain ⟨s, hs, -, hsq, -⟩ := forwardData_step predict o.self x q hq hinv.1
    rw [hs] at hfd
    have e := Prod.mk.inj (Option.some.inj hfd)
    have hlen1 : o1.self.dataQueue.length = n := by
      rw [← e.2, hsq]; rw [hq] at hlen; simpa using hlen
    obtain ⟨o', hrun, hinv', hfl, hst', hq'⟩ := ih o1 hinv1 (by rw [hst1, hst]) hlen1
    refine ⟨o', ?_, hinv', ?_, hst', hq'⟩
    · rw [List.replicate_succ, observedRun]
      simp only [observedAction, hst, or_true, if_true, h, Option.some_bind]
      exact hrun
    · rw [finishLoop, hs]
      simp only [Option.bind_eq_bind, Option.some_bind, if_true]
      rw [e.2]
      exact hfl

/-- One iteration of the loop of `bufferPiping` is the sequence of its steps
under observation. -/
theorem observed_pipe (predict : List Int → Nat → Int) (o : observed_stepcounter)
    (hinv : o.inv) :
    ∃ o', observedRun predict (actionsOfPipe o.self) o = some o' ∧ o'.inv
      ∧ bufferPiping predict o.self = some o'.self := by
  cases hst : o.self.state with
  | STEPCOUNTER_STATE_BEGIN =>
    obtain ⟨o', h, hinv'⟩ := observedAction_inv predict stepcounter_action.beginStep o hinv
    refine ⟨o', by simp [actionsOfPipe, hst, observedRun, h], hinv', ?_⟩
    simp only [observedAction, hst, if_true, bufferPiping_begin predict o.self hst] at h
    rw [bufferPiping_begin predict o.self hst, ← Option.some.inj h]
  | STEPCOUNTER_STATE_RUNNING =>
    obtain ⟨status, o1, h, hinv1, hfd, -⟩ := observedForwardData_inv predict o hinv
    refine ⟨o1, by simp [actionsOfPipe, hst, observedRun, observedAction, h], hinv1, ?_⟩
    unfold bufferPiping
    rw [hst]
    simp [hfd]
  | STEPCOUNTER_STATE_FINISH =>
    obtain ⟨o1, hrun, hinv1, hfl, hst1, hq1⟩ :=
      observed_pops_finish predict o.self.dataQueue.length o hinv hst rfl
    refine ⟨{ o1 with self := { o1.self with
      state := stepcounter_state_t.STEPCOUNTER_STATE_IDLE } }, ?_, hinv1, ?_⟩
    · simp only [actionsOfPipe, hst]
      rw [observedRun_append, hrun, Option.some_bind, observedRun, observedAction]
      simp only [hst1, hq1, and_self, if_true]
      rw [bufferPiping_finish_empty predict o1.self hinv1.1 hst1 hq1]
      simp [observedRun, hq1]
    · unfold bufferPiping
      rw [hst]
      simp only [hfl, Option.bind_eq_bind, Option.some_bind, Option.pure_def]
  | STEPCOUNTER_STATE_IDLE =>
    refine ⟨o, by simp [actionsOfPipe, hst, observedRun], hinv, ?_⟩
    unfold bufferPiping
    rw [hst]
    rfl

/-- A sequence of events of the step counter is the sequence of its steps
under observation. -/
theorem observed_events (predict : List Int → Nat → Int) :
    ∀ (evs : List stepcounter_event) (o : observed_stepcounter), o.inv →
      ∃ o', observedRun predict (actionsOfEvents predict evs o.self) o = some o' ∧ o'.inv
        ∧ runEvents predict evs o.self = some o'.self := by
  intro evs
  induction evs with
  | nil => intro o hinv; exact ⟨o, rfl, hinv, rfl⟩
  | cons e es ih =>
    intro o hinv
    have hstep : ∃ o1, observedRun predict (actionsOfEvent e o.self) o = some o1 ∧ o1.inv
        ∧ runEvent predict e o.self = some o1.self := by
      obtain ⟨hsinv, hidx, hbuf, hB, hflag, hmap, hobs⟩ := hinv
      cases e with
      | enqueue sample =>
        exact ⟨{ o with self := o.self.enqueue sample }, rfl,
          ⟨hsinv, hidx, hbuf, hB, hflag, hmap, hobs⟩, rfl⟩
      | pipe => exact observed_pipe predict o ⟨hsinv, hidx, hbuf, hB, hflag, hmap, hobs⟩
      | start =>
        exact ⟨{ o with self := o.self.start.2 }, rfl,
          ⟨hsinv, hidx, hbuf, hB, hflag, hmap, hobs⟩, rfl⟩
      | stop =>
        exact ⟨{ o with self := o.self.stop.2 }, rfl,
          ⟨hsinv, hidx, hbuf, hB, hflag, hmap, hobs⟩, rfl⟩
    obtain ⟨o1, h1, hinv1, hr1⟩ := hstep
    obtain ⟨o', h', hinv', hr'⟩ := ih o1 hinv1
    refine ⟨o', ?_, hinv', ?_⟩
    · rw [actionsOfEvents, hr1, observedRun_append, h1, Option.some_bind]
      exact h'
    · rw [runEvents, hr1, Option.some_bind]
      exact hr'

set_option maxRecDepth 100000 in
/-- A run that reaches the extractor: after `start`, the Begin step and 200
pops, the first window was ignored and `countSteps` was invoked once, on the
second window. -/
theorem observedRun_two_windows :
    (observedRun (constantPredictor 1)
        ([stepcounter_action.start, stepcounter_action.beginStep]
          ++ List.replicate 200 stepcounter_action.pop)
        (observed_stepcounter.initial (List.replicate 200 zeroSample))).map
      (fun o => (o.observations.length, o.self.stepCount, o.sinceBegin, o.popped.length))
      = some (1, 1, 200, 200) := by
  decide

/-- Claim C20. Only full, fresh windows reach the extractor. In every
sequential run of the step counter from its initial state (zeroed buffer,
write index 0), made of calls of `start` and `stop`, samples put into the
queue, Begin steps, pops and exits of the Finish loop, every invocation of
`countSteps` is observed with the write index at 0 and with a buffer that
holds, in pop order at positions 0 to 99, exactly the 100 most recently popped
samples, all of which were popped after the most recent Begin step (after
construction, in a run that has had no Begin step). Every
sequence of events of the step counter (iterations of `bufferPiping` with the
buffers handed over on the spot) is such a run. -/
theorem C20_only_full_fresh_windows (predict : List Int → Nat → Int)
    (dataQueue : List acceleration_sample_t) (acts : List stepcounter_action)
    (evs : List stepcounter_event) :
    (∃ o, observedRun predict acts (observed_stepcounter.initial dataQueue) = some o
        ∧ o.observations.map (fun obs => obs.window)
          = o.self.countStepsCalls.map (fun c => c.window)
        ∧ ∀ obs ∈ o.observations,
            obs.writeIndex = 0 ∧ obs.window.length = 100
              ∧ obs.window = lastSamples 100 obs.popped
              ∧ 100 ≤ obs.sinceBegin ∧ obs.sinceBegin ≤ obs.popped.length)
      ∧ (∃ o, observedRun predict (actionsOfEvents predict evs (stepcounter.new dataQueue))
            (observed_stepcounter.initial dataQueue) = some o
          ∧ runEvents predict evs (stepcounter.new dataQueue) = some o.self) := by
  constructor
  · obtain ⟨o, hrun, -, -, -, -, -, hmap, hobs⟩ :=
      observedRun_inv predict acts _ (observed_initial_inv dataQueue)
    refine ⟨o, hrun, hmap, ?_⟩
    intro obs hmem
    have h := hobs obs hmem
    unfold countSteps_observation.fullFresh at h
    rw [DATA_BUFFER_SIZE_eq] at h
    exact h
  · obtain ⟨o, hrun, -, hev⟩ :=
      observed_events predict evs _ (observed_initial_inv dataQueue)
    exact ⟨o, hrun, hev⟩

/-! ## The handshake of the two threads -/

theorem drain_waiting_le (d : drain_pc) : d.waiting ≤ 1 := by
  cases d <;> simp [drain_pc.waiting]

theorem drain_waiting_one (d : drain_pc) (h : d.waiting = 1) :
    ∃ inFinish, d = drain_pc.processedTake inFinish := by
  cases d <;> simp [drain_pc.waiting] at h ⊢

theorem predictor_working_zero (p : predictor_pc) (h : p.working = 0) :
    p = predictor_pc.readyTake := by
  cases p <;> simp [predictor_pc.working] at h ⊢

/-- A step of the thread `bufferPiping` is defined and keeps the invariant of
the handshake. -/
theorem bufferPipingStep_inv (t : stepcounter_threads) (hinv : t.inv) :
    ∃ t', bufferPipingStep t = some t' ∧ t'.inv := by
  obtain ⟨⟨hcount, hlen, hidx⟩, htok, hgiven⟩ := hinv
  unfold bufferPipingStep
  cases hd : t.drain with
  | atSwitch =>
    rw [hd] at htok
    cases hs : t.self.state <;>
      exact ⟨_, rfl, ⟨hcount, hlen, hidx⟩, htok, hgiven⟩
  | beginFlag =>
    rw [hd] at htok
    exact ⟨_, rfl, ⟨hcount, hlen, hidx⟩, htok, hgiven⟩
  | beginState =>
    rw [hd] at htok
    exact ⟨_, rfl, ⟨hcount, hlen, hidx⟩, htok, hgiven⟩
  | queueTake inFinish =>
    rw [hd] at htok
    cases hq : t.self.dataQueue with
    | nil => exact ⟨_, rfl, ⟨hcount, hlen, hidx⟩, htok, hgiven⟩
    | cons x q => exact ⟨_, rfl, ⟨hcount, hlen, hidx⟩, htok, hgiven⟩
  | bufferStore inFinish sample =>
    rw [hd] at htok
    have hst : storeSample t.self.buffer t.self.bufferWriteIndex sample
        = some (t.self.buffer.set t.self.bufferWriteIndex sample) := by
      unfold storeSample
      rw [if_pos (by rw [hlen]; exact hidx)]
    simp only [hst]
    exact ⟨_, rfl, ⟨hcount, by simp [hlen], hidx⟩, htok, hgiven⟩
  | indexAdvance inFinish =>
    rw [hd] at htok
    have hlt : toUInt16 ((t.self.bufferWriteIndex + 1) % DATA_BUFFER_SIZE) < DATA_BUFFER_SIZE := by
      rw [DATA_BUFFER_SIZE_eq]; unfold toUInt16; omega
    by_cases h0 : toUInt16 ((t.self.bufferWriteIndex + 1) % DATA_BUFFER_SIZE) = 0
    · simp only [h0, if_true]
      exact ⟨_, rfl, ⟨hcount, hlen, by show 0 < DATA_BUFFER_SIZE; decide⟩, htok, hgiven⟩
    · simp only [h0, if_false]
      exact ⟨_, rfl, ⟨hcount, hlen, hlt⟩, htok, hgiven⟩
  | readyGive inFinish =>
    rw [hd] at htok
    simp only [drain_pc.waiting] at htok
    have hr : t.bufferReadySemaphore = 0 := by omega
    have hg : os_semaphore_give t.bufferReadySemaphore = (0, 1) := by
      rw [hr]; rfl
    simp only [hg, if_true]
    refine ⟨_, rfl, ⟨hcount, hlen, hidx⟩, ?_, ?_⟩
    · simp only [drain_pc.waiting]; omega
    · simp only []; omega
  | processedTake inFinish =>
    rw [hd] at htok
    cases hp : os_semaphore_take t.bufferProcessedSemaphore with
    | none => exact ⟨t, rfl, ⟨hcount, hlen, hidx⟩, by rw [hd]; exact htok, hgiven⟩
    | some count =>
      unfold os_semaphore_take at hp
      split at hp
      · have hc := Option.some.inj hp
        simp only [drain_pc.waiting] at htok
        refine ⟨_, rfl, ⟨hcount, hlen, hidx⟩, ?_, ?_⟩
        · simp only [drain_pc.waiting]; omega
        · simp only []; omega
      · exact absurd hp (by simp)
  | returned inFinish status =>
    rw [hd] at htok
    cases inFinish with
    | false => exact ⟨_, rfl, ⟨hcount, hlen, hidx⟩, htok, hgiven⟩
    | true =>
      by_cases h0 : status = 0
      · simp only [h0, if_true]
        exact ⟨_, rfl, ⟨hcount, hlen, hidx⟩, htok, hgiven⟩
      · simp only [h0, if_false, if_true]
        exact ⟨_, rfl, ⟨hcount, hlen, hidx⟩, htok, hgiven⟩
  | finishState =>
    rw [hd] at htok
    exact ⟨_, rfl, ⟨hcount, hlen, hidx⟩, htok, hgiven⟩
  | idleTake =>
    rw [hd] at htok
    cases hp : os_semaphore_take t.stateUpdateSemaphore with
    | none => exact ⟨t, rfl, ⟨hcount, hlen, hidx⟩, by rw [hd]; exact htok, hgiven⟩
    | some count => exact ⟨_, rfl, ⟨hcount, hlen, hidx⟩, htok, hgiven⟩

/-- A step of the thread `predictSteps` is defined and keeps the invariant of
the handshake. -/
theorem predictStepsStep_inv (predict : List Int → Nat → Int) (t : stepcounter_threads)
    (hinv : t.inv) : ∃ t', predictStepsStep predict t = some t' ∧ t'.inv := by
  obtain ⟨⟨hcount, hlen, hidx⟩, htok, hgiven⟩ := hinv
  have hw := drain_waiting_le t.drain
  unfold predictStepsStep
  cases hp : t.predictor with
  | readyTake =>
    rw [hp] at htok hgiven
    simp only [predictor_pc.working] at htok hgiven
    cases hs : os_semaphore_take t.bufferReadySemaphore with
    | none =>
      refine ⟨t, rfl, ⟨hcount, hlen, hidx⟩, ?_, ?_⟩
      · rw [hp]; exact htok
      · rw [hp]; exact hgiven
    | some count =>
      unfold os_semaphore_take at hs
      split at hs
      · have hc := Option.some.inj hs
        refine ⟨_, rfl, ⟨hcount, hlen, hidx⟩, ?_, ?_⟩
        · simp only [predictor_pc.working]; omega
        · simp only [predictor_pc.working]; omega
      · exact absurd hs (by simp)
  | flagRead =>
    rw [hp] at htok hgiven
    cases hf : t.self.firstBufferFilled <;>
      exact ⟨_, rfl, ⟨hcount, hlen, hidx⟩, htok, hgiven⟩
  | counting =>
    rw [hp] at htok hgiven
    obtain ⟨features, -, hc⟩ := countSteps_some predict t.self.buffer hlen
    simp only [hc]
    exact ⟨_, rfl, ⟨toUInt32_lt _, hlen, hidx⟩, htok, hgiven⟩
  | flagSet =>
    rw [hp] at htok hgiven
    exact ⟨_, rfl, ⟨hcount, hlen, hidx⟩, htok, hgiven⟩
  | processedGive =>
    rw [hp] at htok hgiven
    simp only [predictor_pc.working] at htok hgiven
    have hr : t.bufferProcessedSemaphore = 0 := by omega
    have hg : os_semaphore_give t.bufferProcessedSemaphore = (0, 1) := by
      rw [hr]; rfl
    simp only [hg, if_true]
    refine ⟨_, rfl, ⟨hcount, hlen, hidx⟩, ?_, ?_⟩
    · simp only [predictor_pc.working]; omega
    · simp only [predictor_pc.working]; omega

/-- Every step of the interleaving is defined and keeps the invariant of the
handshake. -/
theorem threadsStep_inv (predict : List Int → Nat → Int) (a : thread_action)
    (t : stepcounter_threads) (hinv : t.inv) :
    ∃ t', threadsStep predict a t = some t' ∧ t'.inv := by
  cases a with
  | drain => exact bufferPipingStep_inv t hinv
  | predictor => exact predictStepsStep_inv predict t hinv
  | startState => exact ⟨_, rfl, hinv⟩
  | startGive => exact ⟨_, rfl, hinv⟩
  | stop => exact ⟨_, rfl, hinv⟩
  | put sample => exact ⟨_, rfl, hinv⟩

/-- Every interleaving is defined and keeps the invariant of the
handshake. -/
theorem threadsRun_inv (predict : List Int → Nat → Int) :
    ∀ (sched : List thread_action) (t : stepcounter_threads), t.inv →
      ∃ t', threadsRun predict sched t = some t' ∧ t'.inv := by
  intro sched
  induction sched with
  | nil => intro t hinv; exact ⟨t, rfl, hinv⟩
  | cons a sched ih =>
    intro t hinv
    obtain ⟨t1, h1, hinv1⟩ := threadsStep_inv predict a t hinv
    obtain ⟨t', h', hinv'⟩ := ih t1 hinv1
    refine ⟨t', ?_, hinv'⟩
    rw [threadsRun, h1]
    exact h'

theorem threads_initial_inv (dataQueue : List acceleration_sample_t) :
    (stepcounter_threads.initial dataQueue).inv :=
  ⟨stepcounter_new_inv dataQueue, rfl, rfl⟩

/-- While a window is handed over, no step of any thread changes `buffer` or
`bufferWriteIndex`. -/
theorem threadsStep_buffer (predict : List Int → Nat → Int) (a : thread_action)
    (t : stepcounter_threads) (hinv : t.inv)
    (hw : ∃ inFinish, t.drain = drain_pc.processedTake inFinish) :
    ∃ t', threadsStep predict a t = some t' ∧ t'.self.buffer = t.self.buffer
      ∧ t'.self.bufferWriteIndex = t.self.bufferWriteIndex := by
  obtain ⟨inFinish, hd⟩ := hw
  cases a with
  | drain =>
    show ∃ t', bufferPipingStep t = some t' ∧ _
    unfold bufferPipingStep
    rw [hd]
    cases hp : os_semaphore_take t.bufferProcessedSemaphore with
    | none => exact ⟨t, rfl, rfl, rfl⟩
    | some count => exact ⟨_, rfl, rfl, rfl⟩
  | predictor =>
    show ∃ t', predictStepsStep predict t = some t' ∧ _
    unfold predictStepsStep
    cases hp : t.predictor with
    | readyTake =>
      cases hs : os_semaphore_take t.bufferReadySemaphore with
      | none => exact ⟨t, rfl, rfl, rfl⟩
      | some count => exact ⟨_, rfl, rfl, rfl⟩
    | flagRead =>
      cases hf : t.self.firstBufferFilled <;> exact ⟨_, rfl, rfl, rfl⟩
    | counting =>
      obtain ⟨features, -, hc⟩ := countSteps_some predict t.self.buffer hinv.1.2.1
      simp only [hc]
      exact ⟨_, rfl, rfl, rfl⟩
    | flagSet => exact ⟨_, rfl, rfl, rfl⟩
    | processedGive => exact ⟨_, rfl, rfl, rfl⟩
  | startState => exact ⟨_, rfl, rfl, rfl⟩
  | startGive => exact ⟨_, rfl, rfl, rfl⟩
  | stop => exact ⟨_, rfl, rfl, rfl⟩
  | put sample => exact ⟨_, rfl, rfl, rfl⟩

set_option maxRecDepth 100000 in
/-- An interleaving that hands a window over: after `start`, the Begin case
and 100 samples forwarded, the thread `bufferPiping` waits in
`os_semaphore_take( bufferProcessedSemaphore )` while the thread
`predictSteps` has taken `bufferReadySemaphore`. -/
theorem threadsRun_window_handed_over :
    (threadsRun (constantPredictor 1)
        ([thread_action.startState] ++ List.replicate 503 thread_action.drain
          ++ [thread_action.predictor])
        (stepcounter_threads.initial (List.replicate 100 zeroSample))).map
      (fun t => (t.drain, t.predictor, t.self.bufferReadyGiven, t.self.bufferProcessedGiven,
        t.self.bufferWriteIndex))
      = some (drain_pc.processedTake false, predictor_pc.flagRead, 1, 0, 0) := by
  decide

/-- Claim C19. At most one window in flight. In every interleaving of the
thread `bufferPiping` (with `forwardData`), the thread `predictSteps`, the
callers of `start` and `stop` and the sample source, from the state after
`init`: every step is defined; `bufferReadySemaphore` has been given as often
as `bufferProcessedSemaphore` or once more; while it has been given once more
(a window is handed over and the thread `predictSteps` has not yet signalled
that it is done with it) the thread `bufferPiping` stands in its
`os_semaphore_take( bufferProcessedSemaphore )`, that semaphore is at zero, and
no step of any thread changes `buffer` or `bufferWriteIndex`; the thread
`predictSteps` is past its `os_semaphore_take( bufferReadySemaphore )`, in
particular inside `countSteps`, only while a window is handed over; and
whenever the thread `bufferPiping` is about to store into `buffer`, no window
is handed over and the thread `predictSteps` waits for the next one. -/
theorem C19_one_window_in_flight (predict : List Int → Nat → Int)
    (dataQueue : List acceleration_sample_t) (sched : List thread_action) :
    ∃ t, threadsRun predict sched (stepcounter_threads.initial dataQueue) = some t
      ∧ t.self.bufferProcessedGiven ≤ t.self.bufferReadyGiven
      ∧ t.self.bufferReadyGiven ≤ t.self.bufferProcessedGiven + 1
      ∧ (t.self.bufferReadyGiven ≠ t.self.bufferProcessedGiven →
          (∃ inFinish, t.drain = drain_pc.processedTake inFinish)
            ∧ t.bufferProcessedSemaphore = 0
            ∧ ∀ a, ∃ t', threadsStep predict a t = some t'
                ∧ t'.self.buffer = t.self.buffer
                ∧ t'.self.bufferWriteIndex = t.self.bufferWriteIndex)
      ∧ (t.predictor ≠ predictor_pc.readyTake →
          t.self.bufferReadyGiven = t.self.bufferProcessedGiven + 1)
      ∧ (∀ inFinish sample, t.drain = drain_pc.bufferStore inFinish sample →
          t.self.bufferReadyGiven = t.self.bufferProcessedGiven
            ∧ t.predictor = predictor_pc.readyTake) := by
  obtain ⟨t, hrun, hinv⟩ := threadsRun_inv predict sched _ (threads_initial_inv dataQueue)
  obtain ⟨hself, htok, hgiven⟩ := hinv
  have hw := drain_waiting_le t.drain
  refine ⟨t, hrun, by omega, by omega, ?_, ?_, ?_⟩
  · intro hne
    have h1 : t.drain.waiting = 1 := by omega
    have hwait := drain_waiting_one t.drain h1
    exact ⟨hwait, by omega, fun a => threadsStep_buffer predict a t ⟨hself, htok, hgiven⟩ hwait⟩
  · intro hp
    have h1 : t.predictor.working = 1 := by
      cases hpp : t.predictor with
      | readyTake => exact absurd hpp hp
      | _ => rfl
    omega
  · intro inFinish sample hd
    rw [hd] at htok
    simp only [drain_pc.waiting] at htok
    exact ⟨by omega, predictor_working_zero t.predictor (by omega)⟩

/-- The call of `forwardData` of the sequential model is an interleaving of
the two threads: the thread `bufferPiping` runs from `os_queue_take` to the
`return` of `forwardData`, and when it hands a window over, the thread
`predictSteps` runs one iteration of its loop in between. -/
theorem threadsRun_forwardData (predict : List Int → Nat → Int) (t : stepcounter_threads)
    (hinv : t.inv) (inFinish : Bool) (hd : t.drain = drain_pc.queueTake inFinish)
    (hp : t.predictor = predictor_pc.readyTake) :
    ∃ sched status self, t.self.forwardData predict = some (status, self)
      ∧ threadsRun predict sched t = some
          { self := self
            stateUpdateSemaphore := t.stateUpdateSemaphore
            bufferReadySemaphore := 0
            bufferProcessedSemaphore := 0
            drain := drain_pc.returned inFinish status
            predictor := predictor_pc.readyTake } := by
  obtain ⟨self, sus, rs, ps, d, p⟩ := t
  obtain ⟨⟨hcount, hlen, hidx⟩, htok, hgiven⟩ := hinv
  simp only at hd hp hcount hlen hidx htok hgiven
  subst hd hp
  simp only [drain_pc.waiting, predictor_pc.working] at htok
  have hrs : rs = 0 := by omega
  have hps : ps = 0 := by omega
  subst hrs hps
  cases hq : self.dataQueue with
  | nil =>
    refine ⟨[thread_action.drain], 1, self, forwardData_nil predict self hq, ?_⟩
    simp only [threadsRun, threadsStep, bufferPipingStep, hq, os_queue_take]
    simp [← hq]
  | cons x q =>
    have hst : storeSample self.buffer self.bufferWriteIndex x
        = some (self.buffer.set self.bufferWriteIndex x) := by
      unfold storeSample
      rw [if_pos (by rw [hlen]; exact hidx)]
    by_cases h0 : toUInt16 ((self.bufferWriteIndex + 1) % DATA_BUFFER_SIZE) = 0
    · cases hf : self.firstBufferFilled with
      | false =>
        refine ⟨[thread_action.drain, thread_action.drain, thread_action.drain,
          thread_action.drain, thread_action.predictor, thread_action.predictor,
          thread_action.predictor, thread_action.predictor, thread_action.drain], 0,
          { self with
            dataQueue := q
            buffer := self.buffer.set self.bufferWriteIndex x
            bufferWriteIndex := 0
            firstBufferFilled := true
            bufferReadyGiven := self.bufferReadyGiven + 1
            bufferProcessedGiven := self.bufferProcessedGiven + 1 }, ?_, ?_⟩
        · simp [stepcounter.forwardData, hq, os_queue_take, hst, h0, predictSteps, hf]
        · simp [threadsRun, threadsStep, bufferPipingStep, predictStepsStep, hq, os_queue_take,
            hst, h0, hf, os_semaphore_give, os_semaphore_take, SEMAPHORE_MAX_COUNT]
      | true =>
        obtain ⟨features, -, hc⟩ :=
          countSteps_some predict (self.buffer.set self.bufferWriteIndex x) (by simp [hlen])
        refine ⟨[thread_action.drain, thread_action.drain, thread_action.drain,
          thread_action.drain, thread_action.predictor, thread_action.predictor,
          thread_action.predictor, thread_action.predictor, thread_action.drain], 0,
          { self with
            dataQueue := q
            buffer := self.buffer.set self.bufferWriteIndex x
            bufferWriteIndex := 0
            stepCount := toUInt32 ((self.stepCount : Int)
              + toInt32 (predict features STATISTICALFEATURES_NUM_FEATURES))
            countStepsCalls := self.countStepsCalls
              ++ [⟨self.buffer.set self.bufferWriteIndex x, features,
                toInt32 (predict features STATISTICALFEATURES_NUM_FEATURES)⟩]
            bufferReadyGiven := self.bufferReadyGiven + 1
            bufferProcessedGiven := self.bufferProcessedGiven + 1 }, ?_, ?_⟩
        · simp [stepcounter.forwardData, hq, os_queue_take, hst, h0, predictSteps, hf, hc]
        · simp [threadsRun, threadsStep, bufferPipingStep, predictStepsStep, hq, os_queue_take,
            hst, h0, hf, hc, os_semaphore_give, os_semaphore_take, SEMAPHORE_MAX_COUNT]
    · refine ⟨[thread_action.drain, thread_action.drain, thread_action.drain], 0,
        { self with
          dataQueue := q
          buffer := self.buffer.set self.bufferWriteIndex x
          bufferWriteIndex := toUInt16 ((self.bufferWriteIndex + 1) % DATA_BUFFER_SIZE) },
        ?_, ?_⟩
      · simp [stepcounter.forwardData, hq, os_queue_take, hst, h0]
      · simp [threadsRun, threadsStep, bufferPipingStep, hq, os_queue_take, hst, h0]

/-! ## The accumulators of the statistics helpers never wrap -/

/-- The helpers are their loops followed by the division. -/
theorem helpers_eq_sum (samples : List acceleration_sample_t) (size : Nat) (axis : AXIS_T)
    (mean : Int) :
    statisticalfeatures_mean samples size axis
        = (statisticalfeatures_mean_sum samples size axis).bind
            (fun sum => if size = 0 then none else some (toInt16 (Int.tdiv sum size)))
      ∧ statisticalfeatures_std samples size axis mean
        = (statisticalfeatures_std_sum samples size axis mean).bind
            (fun sum => if (size : Int) - 1 = 0 then none
              else some (toInt16 (toInt64 (Int.tdiv sum ((size : Int) - 1)))))
      ∧ statisticalfeatures_mean_abs_diff samples size axis mean
        = (statisticalfeatures_mean_abs_diff_sum samples size axis mean).bind
            (fun sum => if size = 0 then none else some (toInt16 (Int.tdiv sum size))) :=
  ⟨rfl, rfl, rfl⟩

/-- Truncating division of a sum of `n` values of `[a, b]` by `n` stays in
`[a, b]`. -/
theorem tdiv_between {S n a b : Int} (hn : 0 < n) (h1 : a * n ≤ S) (h2 : S ≤ b * n) :
    a ≤ Int.tdiv S n ∧ Int.tdiv S n ≤ b := by
  rcases le_or_lt 0 S with hS | hS
  · rw [Int.tdiv_eq_ediv hS (le_of_lt hn)]
    constructor
    · exact (Int.le_ediv_iff_mul_le hn).2 h1
    · have : S / n < b + 1 := (Int.ediv_lt_iff_lt_mul hn).2 (by nlinarith)
      omega
  · have e : Int.tdiv S n = -((-S) / n) := by
      have := Int.neg_tdiv (-S) n
      rw [neg_neg] at this
      rw [this, Int.tdiv_eq_ediv (by omega) (le_of_lt hn)]
    rw [e]
    have h3 : (-S) / n < -a + 1 := (Int.ediv_lt_iff_lt_mul hn).2 (by nlinarith)
    have h4 : -b ≤ (-S) / n := (Int.le_ediv_iff_mul_le hn).2 (by nlinarith)
    constructor <;> omega

/-- The accumulator of `statisticalfeatures_mean` is the exact sum after every
iteration. -/
theorem mean_sum_exact (samples : List acceleration_sample_t) (axis : AXIS_T) (k : Nat)
    (hk : k ≤ samples.length) (h255 : samples.length ≤ 255) (hwf : ∀ s ∈ samples, s.wf) :
    statisticalfeatures_mean_sum samples k axis
      = some (axisValues (samples.take k) axis).sum := by
  have hlen : (samples.take k).length = k := by simp [hk]
  have hb : ∀ s ∈ samples.take k,
      (-32768 : Int) ≤ s.acceleration axis ∧ s.acceleration axis ≤ 32767 :=
    fun s hs => wf_axis (hwf s (List.mem_of_mem_take hs)) axis
  have hfold := foldl_conv_exact toInt32 (-2147483648) 2147483647
    (fun v h1 h2 => toInt32_eq_self h1 h2) (fun s => s.acceleration axis) (-32768) 32767
    (by norm_num) (by norm_num) (samples.take k) 0 hb
    (by rw [hlen]; omega) (by rw [hlen]; omega)
  have h := forLoop_samples samples (fun (sum : Int) s => toInt32 (sum + s.acceleration axis))
    k 0 0 (by omega)
  simp only [List.drop_zero] at h
  unfold statisticalfeatures_mean_sum
  simp only [Option.bind_eq_bind, Option.pure_def]
  rw [h, hfold, zero_add]
  rfl

/-- The accumulator of `statisticalfeatures_std` is the exact sum of the
squared differences after every iteration. -/
theorem std_sum_exact (samples : List acceleration_sample_t) (axis : AXIS_T) (mean : Int)
    (k : Nat) (hk : k ≤ samples.length) (h255 : samples.length ≤ 255)
    (hwf : ∀ s ∈ samples, s.wf) (hm : isInt16 mean) :
    statisticalfeatures_std_sum samples k axis mean
      = some (sumSquaredDiff (axisValues (samples.take k) axis) mean) := by
  have hlen : (samples.take k).length = k := by simp [hk]
  have hwfk : ∀ s ∈ samples.take k, s.wf := fun s hs => hwf s (List.mem_of_mem_take hs)
  have hterm : ∀ s ∈ samples.take k, ∀ a : Int,
      toInt64 (a + toInt64 (toInt64 (toInt32 (s.acceleration axis - mean))
        * toInt32 (s.acceleration axis - mean)))
      = toInt64 (a + (s.acceleration axis - mean) ^ 2) := by
    intro s hs a
    rw [(sq_term_exact (wf_axis (hwfk s hs) axis) hm).1]
  have hb : ∀ s ∈ samples.take k,
      (0 : Int) ≤ (s.acceleration axis - mean) ^ 2
        ∧ (s.acceleration axis - mean) ^ 2 ≤ 4294836225 :=
    fun s hs => (sq_term_exact (wf_axis (hwfk s hs) axis) hm).2
  have hfold := foldl_conv_exact toInt64 (-9223372036854775808) 9223372036854775807
    (fun v h1 h2 => toInt64_eq_self h1 h2) (fun s => (s.acceleration axis - mean) ^ 2)
    0 4294836225 (by norm_num) (by norm_num) (samples.take k) 0 hb
    (by rw [hlen]; omega) (by rw [hlen]; omega)
  have hS : sumSquaredDiff (axisValues (samples.take k) axis) mean
      = ((samples.take k).map (fun s => (s.acceleration axis - mean) ^ 2)).sum := by
    simp [sumSquaredDiff, axisValues, List.map_map, Function.comp_def]
  have h := forLoop_samples samples (fun (sum : Int) s => toInt64 (sum + toInt64
    (toInt64 (toInt32 (s.acceleration axis - mean)) * toInt32 (s.acceleration axis - mean))))
    k 0 0 (by omega)
  simp only [List.drop_zero] at h
  unfold statisticalfeatures_std_sum
  simp only [Option.bind_eq_bind, Option.pure_def]
  rw [h, hS, foldl_congr_mem _ _ _ _ hterm, hfold, zero_add]

/-- The accumulator of `statisticalfeatures_mean_abs_diff` is the exact sum of
the absolute differences after every iteration. -/
theorem mean_abs_diff_sum_exact (samples : List acceleration_sample_t) (axis : AXIS_T)
    (mean : Int) (k : Nat) (hk : k ≤ samples.length) (h255 : samples.length ≤ 255)
    (hwf : ∀ s ∈ samples, s.wf) (hm : isInt16 mean) :
    statisticalfeatures_mean_abs_diff_sum samples k axis mean
      = some (sumAbsDiff (axisValues (samples.take k) axis) mean) := by
  have hlen : (samples.take k).length = k := by simp [hk]
  have hwfk : ∀ s ∈ samples.take k, s.wf := fun s hs => hwf s (List.mem_of_mem_take hs)
  have hterm : ∀ s ∈ samples.take k, ∀ a : Int,
      toInt32 (a + toInt32 (if s.acceleration axis > mean
        then toInt32 (s.acceleration axis - mean) else toInt32 (mean - s.acceleration axis)))
      = toInt32 (a + |s.acceleration axis - mean|) := by
    intro s hs a
    rw [(abs_term_exact (wf_axis (hwfk s hs) axis) hm).1]
  have hb : ∀ s ∈ samples.take k,
      (0 : Int) ≤ |s.acceleration axis - mean| ∧ |s.acceleration axis - mean| ≤ 65535 :=
    fun s hs => (abs_term_exact (wf_axis (hwfk s hs) axis) hm).2
  have hfold := foldl_conv_exact toInt32 (-2147483648) 2147483647
    (fun v h1 h2 => toInt32_eq_self h1 h2) (fun s => |s.acceleration axis - mean|)
    0 65535 (by norm_num) (by norm_num) (samples.take k) 0 hb
    (by rw [hlen]; omega) (by rw [hlen]; omega)
  have hS : sumAbsDiff (axisValues (samples.take k) axis) mean
      = ((samples.take k).map (fun s => |s.acceleration axis - mean|)).sum := by
    simp [sumAbsDiff, axisValues, List.map_map, Function.comp_def]
  have h := forLoop_samples samples (fun (sum : Int) s => toInt32 (sum + toInt32
    (if s.acceleration axis > mean then toInt32 (s.acceleration axis - mean)
      else toInt32 (mean - s.acceleration axis)))) k 0 0 (by omega)
  simp only [List.drop_zero] at h
  unfold statisticalfeatures_mean_abs_diff_sum
  simp only [Option.bind_eq_bind, Option.pure_def]
  rw [h, hS, foldl_congr_mem _ _ _ _ hterm, hfold, zero_add]

/-- The integer mean of a window lies between every lower and every upper
bound of its values. -/
theorem integerMean_between (samples : List acceleration_sample_t) (axis : AXIS_T)
    (h0 : 0 < samples.length) (lo hi : Int)
    (hlo : ∀ v ∈ axisValues samples axis, lo ≤ v)
    (hhi : ∀ v ∈ axisValues samples axis, v ≤ hi) :
    lo ≤ integerMean (axisValues samples axis)
      ∧ integerMean (axisValues samples axis) ≤ hi := by
  have hb : ∀ s ∈ samples, lo ≤ s.acceleration axis ∧ s.acceleration axis ≤ hi := by
    intro s hs
    have hv : s.acceleration axis ∈ axisValues samples axis :=
      List.mem_map.2 ⟨s, hs, rfl⟩
    exact ⟨hlo _ hv, hhi _ hv⟩
  have hsum := sum_bounds (fun s => s.acceleration axis) lo hi samples hb
  have hlen : (axisValues samples axis).length = samples.length := by simp [axisValues]
  unfold integerMean
  rw [hlen]
  exact tdiv_between (by omega) hsum.1 hsum.2

/-- Claim C21. No intermediate overflow. For every window of `N` signed 16-bit
samples with `1 ≤ N ≤ 255` and every axis, with `m` the integer mean of the
axis: after every iteration the 32-bit accumulator of
`statisticalfeatures_mean` is the exact sum of the values read so far; the mean
helper returns `m`, which the cast to 16 bits leaves unchanged and which lies
between the least and the greatest value of the window; called with `m`, the
64-bit accumulator of `statisticalfeatures_std` is after every iteration the
exact sum of the squared differences and the 32-bit accumulator of
`statisticalfeatures_mean_abs_diff` the exact sum of the absolute differences;
and every difference `v - m`, `m - v` and every squared difference is computed
exactly. Each helper is its loop followed by its division. -/
theorem C21_no_intermediate_overflow (samples : List acceleration_sample_t) (axis : AXIS_T)
    (hN1 : 1 ≤ samples.length) (hN255 : samples.length ≤ 255) (hwf : ∀ s ∈ samples, s.wf) :
    (∀ k, k ≤ samples.length →
        statisticalfeatures_mean_sum samples k axis
          = some (axisValues (samples.take k) axis).sum)
      ∧ statisticalfeatures_mean samples samples.length axis
          = some (integerMean (axisValues samples axis))
      ∧ toInt16 (Int.tdiv (axisValues samples axis).sum samples.length)
          = integerMean (axisValues samples axis)
      ∧ (∀ lo hi, isMinOf lo (axisValues samples axis) → isMaxOf hi (axisValues samples axis) →
          lo ≤ integerMean (axisValues samples axis)
            ∧ integerMean (axisValues samples axis) ≤ hi)
      ∧ (∀ k, k ≤ samples.length →
          statisticalfeatures_std_sum samples k axis (integerMean (axisValues samples axis))
            = some (sumSquaredDiff (axisValues (samples.take k) axis)
                (integerMean (axisValues samples axis))))
      ∧ (∀ k, k ≤ samples.length →
          statisticalfeatures_mean_abs_diff_sum samples k axis
              (integerMean (axisValues samples axis))
            = some (sumAbsDiff (axisValues (samples.take k) axis)
                (integerMean (axisValues samples axis))))
      ∧ (∀ v ∈ axisValues samples axis,
          toInt32 (v - integerMean (axisValues samples axis))
              = v - integerMean (axisValues samples axis)
            ∧ toInt32 (integerMean (axisValues samples axis) - v)
              = integerMean (axisValues samples axis) - v
            ∧ toInt64 (toInt64 (toInt32 (v - integerMean (axisValues samples axis)))
                * toInt32 (v - integerMean (axisValues samples axis)))
              = (v - integerMean (axisValues samples axis)) ^ 2)
      ∧ statisticalfeatures_mean samples samples.length axis
          = (statisticalfeatures_mean_sum samples samples.length axis).bind
              (fun sum => if samples.length = 0 then none
                else some (toInt16 (Int.tdiv sum samples.length)))
      ∧ (∀ mean, statisticalfeatures_std samples samples.length axis mean
          = (statisticalfeatures_std_sum samples samples.length axis mean).bind
              (fun sum => if (samples.length : Int) - 1 = 0 then none
                else some (toInt16 (toInt64 (Int.tdiv sum ((samples.length : Int) - 1))))))
      ∧ (∀ mean, statisticalfeatures_mean_abs_diff samples samples.length axis mean
          = (statisticalfeatures_mean_abs_diff_sum samples samples.length axis mean).bind
              (fun sum => if samples.length = 0 then none
                else some (toInt16 (Int.tdiv sum samples.length)))) := by
  have hmean := mean_exact samples axis samples.length le_rfl (by omega) hN255
    (by rw [List.take_length]; exact hwf)
  rw [List.take_length] at hmean
  have hm := hmean.2
  have hlen : (axisValues samples axis).length = samples.length := by simp [axisValues]
  refine ⟨fun k hk => mean_sum_exact samples axis k hk hN255 hwf, hmean.1, ?_, ?_,
    fun k hk => std_sum_exact samples axis _ k hk hN255 hwf hm,
    fun k hk => mean_abs_diff_sum_exact samples axis _ k hk hN255 hwf hm, ?_,
    (helpers_eq_sum samples samples.length axis 0).1,
    fun mean => (helpers_eq_sum samples samples.length axis mean).2.1,
    fun mean => (helpers_eq_sum samples samples.length axis mean).2.2⟩
  · have e : integerMean (axisValues samples axis)
        = Int.tdiv (axisValues samples axis).sum samples.length := by
      unfold integerMean; rw [hlen]
    rw [← e]
    exact toInt16_eq_self hm
  · intro lo hi hlo hhi
    exact integerMean_between samples axis (by omega) lo hi hlo.2 hhi.2
  · intro v hv
    have hv16 := mem_axisValues_isInt16 hwf hv
    unfold isInt16 at hv16 hm
    exact ⟨toInt32_eq_self (by omega) (by omega), toInt32_eq_self (by omega) (by omega),
      (sq_term_exact hv16 hm).1⟩

/-- Claim C21 at the window of the two extreme 16-bit values. -/
theorem C21_no_intermediate_overflow_witness :
    (1 ≤ extremeWindow.length ∧ extremeWindow.length ≤ 255 ∧ (∀ s ∈ extremeWindow, s.wf))
      ∧ statisticalfeatures_mean_sum extremeWindow 2 AXIS_T.AXIS_Z = some (-1)
      ∧ statisticalfeatures_std_sum extremeWindow 2 AXIS_T.AXIS_Z 0 = some 2147418113
      ∧ statisticalfeatures_mean_abs_diff_sum extremeWindow 2 AXIS_T.AXIS_Z 0 = some 65535
      ∧ integerMean (axisValues extremeWindow AXIS_T.AXIS_Z) = 0
      ∧ (∀ k, k ≤ extremeWindow.length →
          statisticalfeatures_std_sum extremeWindow k AXIS_T.AXIS_Z
              (integerMean (axisValues extremeWindow AXIS_T.AXIS_Z))
            = some (sumSquaredDiff (axisValues (extremeWindow.take k) AXIS_T.AXIS_Z)
                (integerMean (axisValues extremeWindow AXIS_T.AXIS_Z)))) :=
  ⟨by decide, by decide, by decide, by decide, by decide,
    (C21_no_intermediate_overflow extremeWindow AXIS_T.AXIS_Z (by decide) (by decide)
      (by decide)).2.2.2.2.1⟩

theorem sumSquaredDiff_nonneg (vs : List Int) (m : Int) : 0 ≤ sumSquaredDiff vs m := by
  unfold sumSquaredDiff
  apply List.sum_nonneg
  intro x hx
  obtain ⟨v, -, rfl⟩ := List.mem_map.1 hx
  positivity

/-- Claim C22 fails on the code. For every window of `N` 16-bit samples with
`2 ≤ N ≤ 255` whose sample variance `V` around the axis mean `m` fits 16 bits,
`statisticalfeatures_std` returns `V` itself, not its square root: the result
is the integer square root of `V` only when `V` is 0 or 1. -/
theorem C22_std_returns_variance (samples : List acceleration_sample_t) (axis : AXIS_T)
    (hN2 : 2 ≤ samples.length) (hN255 : samples.length ≤ 255) (hwf : ∀ s ∈ samples, s.wf)
    (hV : sampleVariance (axisValues samples axis) (integerMean (axisValues samples axis))
      ≤ 32767) :
    statisticalfeatures_std samples samples.length axis (integerMean (axisValues samples axis))
        = some (sampleVariance (axisValues samples axis)
            (integerMean (axisValues samples axis)))
      ∧ (isIntegerSqrt
            (sampleVariance (axisValues samples axis) (integerMean (axisValues samples axis)))
            (sampleVariance (axisValues samples axis) (integerMean (axisValues samples axis)))
          ↔ sampleVariance (axisValues samples axis) (integerMean (axisValues samples axis))
            ≤ 1) := by
  have hmean := mean_exact samples axis samples.length le_rfl (by omega) hN255
    (by rw [List.take_length]; exact hwf)
  rw [List.take_length] at hmean
  have hstd := std_exact samples axis _ samples.length le_rfl hN2 hN255
    (by rw [List.take_length]; exact hwf) hmean.2
  rw [List.take_length] at hstd
  have hlen : (axisValues samples axis).length = samples.length := by simp [axisValues]
  have hVe : sampleVariance (axisValues samples axis) (integerMean (axisValues samples axis))
      = sumSquaredDiff (axisValues samples axis) (integerMean (axisValues samples axis))
        / ((samples.length : Int) - 1) := by
    unfold sampleVariance; rw [hlen]
  have hV0 : 0 ≤ sampleVariance (axisValues samples axis)
      (integerMean (axisValues samples axis)) := by
    rw [hVe]
    exact Int.ediv_nonneg (sumSquaredDiff_nonneg _ _) (by omega)
  generalize sampleVariance (axisValues samples axis) (integerMean (axisValues samples axis))
    = V at hV hVe hV0
  constructor
  · rw [hstd, ← hVe, toInt16_eq_self ⟨by omega, hV⟩]
  · unfold isIntegerSqrt
    constructor
    · rintro ⟨-, h, -⟩
      nlinarith
    · intro h1
      have : V = 0 ∨ V = 1 := by omega
      rcases this with h | h <;> subst h <;> decide

/-- Claim C22 at a window of three samples with z = 3, 6, 10: the mean is 6,
the sample variance is 25 / 2 = 12, its integer square root is 3, and
`statisticalfeatures_std` returns 12. -/
theorem C22_std_returns_variance_witness :
    (2 ≤ exampleWindow.length ∧ exampleWindow.length ≤ 255 ∧ (∀ s ∈ exampleWindow, s.wf)
        ∧ integerMean (axisValues exampleWindow AXIS_T.AXIS_Z) = 6
        ∧ sampleVariance (axisValues exampleWindow AXIS_T.AXIS_Z) 6 = 12)
      ∧ isIntegerSqrt 3 12 ∧ ¬ isIntegerSqrt 12 12
      ∧ statisticalfeatures_std exampleWindow 3 AXIS_T.AXIS_Z 6 = some 12
      ∧ statisticalfeatures_std exampleWindow exampleWindow.length AXIS_T.AXIS_Z
          (integerMean (axisValues exampleWindow AXIS_T.AXIS_Z))
        = some (sampleVariance (axisValues exampleWindow AXIS_T.AXIS_Z)
            (integerMean (axisValues exampleWindow AXIS_T.AXIS_Z))) :=
  ⟨by decide, by decide, by decide, by decide,
    (C22_std_returns_variance exampleWindow AXIS_T.AXIS_Z (by decide) (by decide) (by decide)
      (by decide)).1⟩

/-! ## The window size as an 8-bit value -/

/-- Two loops whose bodies agree on the counter values they visit agree. -/
theorem forLoop_congr {σ : Type} (f g : Nat → σ → Option σ) :
    ∀ (n i : Nat) (s : σ), (∀ j, i ≤ j → j < i + n → ∀ a, f j a = g j a) →
      forLoop f n i s = forLoop g n i s := by
  intro n
  induction n with
  | zero => intro i s _; rfl
  | succ n ih =>
    intro i s h
    rw [forLoop, forLoop, h i le_rfl (by omega)]
    cases g i s with
    | none => rfl
    | some s1 =>
      exact ih (i + 1) s1 (fun j h1 h2 a => h j (by omega) (by omega) a)

/-- A loop that reads `samples[i]` for `i` below `n` only reads the first `n`
samples. -/
theorem forLoop_take {σ : Type} (samples : List acceleration_sample_t) (n : Nat)
    (F : Option acceleration_sample_t → Nat → σ → Option σ) (k i : Nat) (s : σ)
    (h : i + k ≤ n) :
    forLoop (fun i s => F samples[i]? i s) k i s
      = forLoop (fun i s => F (samples.take n)[i]? i s) k i s :=
  forLoop_congr _ _ k i s (fun j _ hj a => by
    show F samples[j]? j a = F (samples.take n)[j]? j a
    rw [List.getElem?_take_of_lt (by omega)])

theorem mean_take (samples : List acceleration_sample_t) (n : Nat) (axis : AXIS_T) :
    statisticalfeatures_mean samples n axis
      = statisticalfeatures_mean (samples.take n) n axis := by
  have h := forLoop_take samples n (fun o _ (sum : Int) => do
    let s ← o
    pure (toInt32 (sum + s.acceleration axis))) (n - 0) 0 0 (by omega)
  unfold statisticalfeatures_mean
  exact congrArg (fun o => Option.bind o _) h

theorem std_take (samples : List acceleration_sample_t) (n : Nat) (axis : AXIS_T)
    (mean : Int) :
    statisticalfeatures_std samples n axis mean
      = statisticalfeatures_std (samples.take n) n axis mean := by
  have h := forLoop_take samples n (fun o _ (sum : Int) => do
    let s ← o
    pure (toInt64 (sum + toInt64 (toInt64 (toInt32 (s.acceleration axis - mean))
      * toInt32 (s.acceleration axis - mean))))) (n - 0) 0 0 (by omega)
  unfold statisticalfeatures_std
  exact congrArg (fun o => Option.bind o _) h

theorem mean_abs_diff_take (samples : List acceleration_sample_t) (n : Nat) (axis : AXIS_T)
    (mean : Int) :
    statisticalfeatures_mean_abs_diff samples n axis mean
      = statisticalfeatures_mean_abs_diff (samples.take n) n axis mean := by
  have h := forLoop_take samples n (fun o _ (sum : Int) => do
    let s ← o
    let diff := toInt32 (if s.acceleration axis > mean
      then toInt32 (s.acceleration axis - mean)
      else toInt32 (mean - s.acceleration axis))
    pure (toInt32 (sum + diff))) (n - 0) 0 0 (by omega)
  unfold statisticalfeatures_mean_abs_diff
  exact congrArg (fun o => Option.bind o _) h

theorem max_take (samples : List acceleration_sample_t) (n : Nat) (axis : AXIS_T)
    (h1 : 1 ≤ n) :
    statisticalfeatures_max samples n axis
      = statisticalfeatures_max (samples.take n) n axis := by
  unfold statisticalfeatures_max
  rw [List.getElem?_take_of_lt (show 0 < n by omega)]
  cases samples[0]? with
  | none => rfl
  | some first =>
    exact forLoop_take samples n (fun o _ (maxVal : Int) => do
      let s ← o
      pure (if s.acceleration axis > maxVal then s.acceleration axis else maxVal))
      (n - 1) 1 (first.acceleration axis) (by omega)

theorem min_take (samples : List acceleration_sample_t) (n : Nat) (axis : AXIS_T)
    (h1 : 1 ≤ n) :
    statisticalfeatures_min samples n axis
      = statisticalfeatures_min (samples.take n) n axis := by
  unfold statisticalfeatures_min
  rw [List.getElem?_take_of_lt (show 0 < n by omega)]
  cases samples[0]? with
  | none => rfl
  | some first =>
    exact forLoop_take samples n (fun o _ (minVal : Int) => do
      let s ← o
      pure (if s.acceleration axis < minVal then s.acceleration axis else minVal))
      (n - 1) 1 (first.acceleration axis) (by omega)

theorem max_min_diff_take (samples : List acceleration_sample_t) (n : Nat) (axis : AXIS_T)
    (h1 : 1 ≤ n) :
    statisticalfeatures_max_min_diff samples n axis
      = statisticalfeatures_max_min_diff (samples.take n) n axis := by
  unfold statisticalfeatures_max_min_diff
  rw [max_take samples n axis h1, min_take samples n axis h1]

theorem toUInt8_toUInt8 (n : Nat) : toUInt8 (toUInt8 n) = toUInt8 n := by
  unfold toUInt8; omega

/-- The features are those of the first `size mod 256` samples. -/
theorem getFeatures_take (samples : List acceleration_sample_t) (size : Nat)
    (features : List Int) (h1 : 1 ≤ toUInt8 size) :
    statisticalfeatures_getFeatures samples size features
      = statisticalfeatures_getFeatures (samples.take (toUInt8 size)) (toUInt8 size)
          features := by
  unfold statisticalfeatures_getFeatures
  rw [toUInt8_toUInt8, ← mean_take, ← min_take _ _ _ h1, ← max_min_diff_take _ _ _ h1,
    ← max_min_diff_take _ _ _ h1, ← max_min_diff_take _ _ _ h1]
  cases statisticalfeatures_mean samples (toUInt8 size) AXIS_T.AXIS_Z with
  | none => rfl
  | some mean_z_val =>
    simp only []
    rw [← std_take, ← mean_abs_diff_take]

/-- With size 1 the standard deviation helper divides by `size - 1 = 0`. -/
theorem std_size_one (samples : List acceleration_sample_t) (axis : AXIS_T) (mean : Int) :
    statisticalfeatures_std samples 1 axis mean = none := by
  unfold statisticalfeatures_std
  cases h : forLoop (fun i (sum : Int) => do
    let s ← samples[i]?
    pure (toInt64 (sum + toInt64 (toInt64 (toInt32 (s.acceleration axis - mean))
      * toInt32 (s.acceleration axis - mean))))) (1 - 0) 0 0 with
  | none => rfl
  | some sum => simp

/-- With size 0 the mean helper divides by zero. -/
theorem mean_size_zero (samples : List acceleration_sample_t) (axis : AXIS_T) :
    statisticalfeatures_mean samples 0 axis = none := by
  have h := mean_loop samples axis 0 (by omega)
  rw [if_pos rfl] at h
  exact h

theorem getFeatures_size_one_any (samples : List acceleration_sample_t) (size : Nat)
    (features : List Int) (h1 : toUInt8 size = 1) :
    statisticalfeatures_getFeatures samples size features = none := by
  unfold statisticalfeatures_getFeatures
  rw [h1]
  cases statisticalfeatures_mean samples 1 AXIS_T.AXIS_Z with
  | none => rfl
  | some mean_z_val =>
    simp only [std_size_one]

/-- A call with size 258 on a window of three samples: the helpers get the
size 2 and the features are those of the first two samples. -/
theorem getFeatures_size_258 :
    statisticalfeatures_getFeatures exampleWindow 258 zeroFeatures
        = statisticalfeatures_getFeatures (exampleWindow.take 2) 2 zeroFeatures
      ∧ statisticalfeatures_getFeatures exampleWindow 258 zeroFeatures
        = some (0, [5, 1, -5, 3, 7, 3])
      ∧ statisticalfeatures_getFeatures exampleWindow 3 zeroFeatures
        = some (0, [12, 2, -5, 6, 13, 7]) := by
  decide

/-- Claim C23. The helpers receive the window size as an 8-bit value, so
`statisticalfeatures_getFeatures` depends on its size argument only through
`size mod 256`: two sizes with the same remainder give the same outcome; for a
remainder of at least 2 the outcome is that of the first `size mod 256` samples
with that size, whatever the array holds after them, and features are returned
when the array holds that many samples; for remainder 0 the mean helper
divides by zero and for remainder 1 the standard deviation helper does, and no
features are produced. The configured window length 100 is handed to the
helpers as 100. -/
theorem C23_size_mod_256 (samples : List acceleration_sample_t) (features : List Int)
    (s s' : Nat) :
    (∀ n axis mean,
        statisticalfeatures_getFeatures samples n features
            = statisticalfeatures_getFeatures samples (toUInt8 n) features
          ∧ toUInt8 n = n % 256
          ∧ statisticalfeatures_mean samples (toUInt8 n) axis
            = statisticalfeatures_mean (samples.take (n % 256)) (n % 256) axis
          ∧ statisticalfeatures_std samples (toUInt8 n) axis mean
            = statisticalfeatures_std (samples.take (n % 256)) (n % 256) axis mean)
      ∧ (s % 256 = s' % 256 →
          statisticalfeatures_getFeatures samples s features
            = statisticalfeatures_getFeatures samples s' features)
      ∧ (2 ≤ s % 256 →
          statisticalfeatures_getFeatures samples s features
              = statisticalfeatures_getFeatures (samples.take (s % 256)) (s % 256) features
            ∧ ∀ samples' : List acceleration_sample_t,
                samples'.take (s % 256) = samples.take (s % 256) →
                statisticalfeatures_getFeatures samples' s features
                  = statisticalfeatures_getFeatures samples s features)
      ∧ (2 ≤ s % 256 → s % 256 ≤ samples.length → 6 ≤ features.length →
          ∃ feats, statisticalfeatures_getFeatures samples s features = some (0, feats))
      ∧ (s % 256 = 0 →
          statisticalfeatures_mean samples (toUInt8 s) AXIS_T.AXIS_Z = none
            ∧ statisticalfeatures_getFeatures samples s features = none)
      ∧ (s % 256 = 1 →
          (∀ mean, statisticalfeatures_std samples (toUInt8 s) AXIS_T.AXIS_Z mean = none)
            ∧ statisticalfeatures_getFeatures samples s features = none)
      ∧ toUInt8 (toUInt16 DATA_BUFFER_SIZE) = DATA_BUFFER_SIZE
      ∧ DATA_BUFFER_SIZE = 100 := by
  have hu : ∀ n, toUInt8 n = n % 256 := fun _ => rfl
  have hsame : ∀ a b : Nat, a % 256 = b % 256 →
      statisticalfeatures_getFeatures samples a features
        = statisticalfeatures_getFeatures samples b features := by
    intro a b h
    unfold statisticalfeatures_getFeatures
    rw [hu a, hu b, h]
  refine ⟨?_, hsame s s', ?_, ?_, ?_, ?_, rfl, DATA_BUFFER_SIZE_eq⟩
  · intro n axis mean
    refine ⟨hsame _ _ ?_, rfl, ?_, ?_⟩
    · rw [hu]; omega
    · rw [hu]; exact mean_take samples _ axis
    · rw [hu]; exact std_take samples _ axis mean
  · intro h2
    have h1 : ∀ l : List acceleration_sample_t,
        statisticalfeatures_getFeatures l s features
          = statisticalfeatures_getFeatures (l.take (s % 256)) (s % 256) features := by
      intro l
      have := getFeatures_take l s features (by rw [hu]; omega)
      rw [hu] at this
      exact this
    refine ⟨h1 samples, ?_⟩
    intro samples' h
    rw [h1 samples', h1 samples, h]
  · intro h2 hlen h6
    obtain ⟨mean_z, f0, f1, f2, f3, f4, f5, -, -, -, -, -, -, -, h⟩ :=
      getFeatures_some samples s features (by rw [hu]; exact hlen) (by rw [hu]; exact h2) h6
    exact ⟨_, h⟩
  · intro h0
    rw [hu, h0]
    exact ⟨mean_size_zero samples _, getFeatures_size_zero samples s features (by rw [hu, h0])⟩
  · intro h1
    rw [hu, h1]
    exact ⟨fun mean => std_size_one samples _ mean,
      getFeatures_size_one_any samples s features (by rw [hu, h1])⟩

set_option maxRecDepth 100000 in
/-- The window of z values alternating between 0 and 1000: the mean is 500,
the sum of the squared differences is 25000000, its quotient by 99 is 252525,
and `features[0]` is -9619. -/
theorem alternatingWindow_features :
    alternatingWindow.length = 100
      ∧ (∀ s ∈ alternatingWindow, s.wf ∧ 0 ≤ s.z ∧ s.z ≤ 1000)
      ∧ integerMean (axisValues alternatingWindow AXIS_T.AXIS_Z) = 500
      ∧ sumSquaredDiff (axisValues alternatingWindow AXIS_T.AXIS_Z) 500 = 25000000
      ∧ sampleVariance (axisValues alternatingWindow AXIS_T.AXIS_Z) 500 = 252525
      ∧ toInt16 252525 = -9619
      ∧ statisticalfeatures_getFeatures alternatingWindow 100 zeroFeatures
        = some (0, [-9619, 500, 0, 0, 0, 1000]) := by
  decide

/-- Claim C24. The 16-bit truncation can corrupt the z standard deviation
feature for small-amplitude data. On the window of 100 samples whose z values
alternate between 0 and 1000 (all in `[0, 1000]`) the mean is 500, the exact
quotient is `25000000 / 99 = 252525` and `features[0]` is -9619. For every
window of `N` 16-bit samples with `2 ≤ N ≤ 255`, `features[0]` equals the exact
quotient `sum((z - mean)^2) / (N - 1)` if and only if that quotient is at most
32767. -/
theorem C24_truncation_corrupts_std (samples : List acceleration_sample_t)
    (features : List Int) (hN2 : 2 ≤ samples.length) (hN255 : samples.length ≤ 255)
    (hwf : ∀ s ∈ samples, s.wf) (h6 : 6 ≤ features.length) :
    (alternatingWindow.length = 100
        ∧ (∀ s ∈ alternatingWindow, s.wf ∧ 0 ≤ s.z ∧ s.z ≤ 1000)
        ∧ integerMean (axisValues alternatingWindow AXIS_T.AXIS_Z) = 500
        ∧ sampleVariance (axisValues alternatingWindow AXIS_T.AXIS_Z) 500 = 252525
        ∧ ∃ feats, statisticalfeatures_getFeatures alternatingWindow 100 zeroFeatures
            = some (0, feats)
          ∧ feats[0]? = some (-9619)
          ∧ feats[0]? ≠ some (sampleVariance (axisValues alternatingWindow AXIS_T.AXIS_Z) 500))
      ∧ ∃ feats, statisticalfeatures_getFeatures samples samples.length features
          = some (0, feats)
        ∧ (feats[0]? = some (sampleVariance (axisValues samples AXIS_T.AXIS_Z)
              (integerMean (axisValues samples AXIS_T.AXIS_Z)))
            ↔ sampleVariance (axisValues samples AXIS_T.AXIS_Z)
              (integerMean (axisValues samples AXIS_T.AXIS_Z)) ≤ 32767) := by
  constructor
  · obtain ⟨h1, h2, h3, -, h5, -, h7⟩ := alternatingWindow_features
    refine ⟨h1, h2, h3, h5, _, h7, rfl, ?_⟩
    rw [h5]
    decide
  · obtain ⟨f2, f3, f4, f5, -, -, -, -, h⟩ := getFeatures_window samples features hN2 hN255 hwf h6
    have hlen : (axisValues samples AXIS_T.AXIS_Z).length = samples.length := by
      simp [axisValues]
    have hVe : sampleVariance (axisValues samples AXIS_T.AXIS_Z)
        (integerMean (axisValues samples AXIS_T.AXIS_Z))
        = sumSquaredDiff (axisValues samples AXIS_T.AXIS_Z)
            (integerMean (axisValues samples AXIS_T.AXIS_Z)) / ((samples.length : Int) - 1) := by
      unfold sampleVariance; rw [hlen]
    have hV0 : 0 ≤ sampleVariance (axisValues samples AXIS_T.AXIS_Z)
        (integerMean (axisValues samples AXIS_T.AXIS_Z)) := by
      rw [hVe]
      exact Int.ediv_nonneg (sumSquaredDiff_nonneg _ _) (by omega)
    refine ⟨_, h, ?_⟩
    rw [← hVe]
    generalize sampleVariance (axisValues samples AXIS_T.AXIS_Z)
      (integerMean (axisValues samples AXIS_T.AXIS_Z)) = V at hV0
    simp only [List.getElem?_cons_zero, Option.some.injEq]
    unfold toInt16
    omega

/-- Claim C24 at a window of three samples, where the quotient 12 fits 16
bits. -/
theorem C24_truncation_corrupts_std_witness :
    (2 ≤ exampleWindow.length ∧ exampleWindow.length ≤ 255 ∧ (∀ s ∈ exampleWindow, s.wf)
        ∧ 6 ≤ zeroFeatures.length)
      ∧ sampleVariance (axisValues exampleWindow AXIS_T.AXIS_Z)
          (integerMean (axisValues exampleWindow AXIS_T.AXIS_Z)) = 12
      ∧ ∃ feats, statisticalfeatures_getFeatures exampleWindow exampleWindow.length zeroFeatures
          = some (0, feats)
        ∧ (feats[0]? = some (sampleVariance (axisValues exampleWindow AXIS_T.AXIS_Z)
              (integerMean (axisValues exampleWindow AXIS_T.AXIS_Z)))
            ↔ sampleVariance (axisValues exampleWindow AXIS_T.AXIS_Z)
              (integerMean (axisValues exampleWindow AXIS_T.AXIS_Z)) ≤ 32767) :=
  ⟨by decide, by decide,
    (C24_truncation_corrupts_std exampleWindow zeroFeatures (by decide) (by decide) (by decide)
      (by decide)).2⟩

/-! ## What the Begin step leaves as it is -/

set_option maxRecDepth 100000 in
/-- Two sessions, with a predictor that reports one step for every window. The
first session drains 237 samples: it discards its first window, counts the
second and leaves the write index at 37. The second session completes its
first window after 63 pops and discards it, counts the window of the next 100
samples, and ends with a step count of 2, the total of both sessions. -/
theorem two_sessions_cumulative :
    (runEvents (constantPredictor 1) firstSession (stepcounter.new (zeroWindow 237))).map
        (fun s => (s.bufferWriteIndex, s.stepCount, s.bufferReadyGiven, s.state))
        = some (37, 1, 2, stepcounter_state_t.STEPCOUNTER_STATE_IDLE)
      ∧ (runEvents (constantPredictor 1) (firstSession ++ secondSession)
          (stepcounter.new (zeroWindow 237))).map
        (fun s => (s.bufferWriteIndex, s.stepCount, s.bufferReadyGiven, s.state))
        = some (0, 2, 4, stepcounter_state_t.STEPCOUNTER_STATE_IDLE) := by
  decide

/-- Claim C25. Begin does not reset the window. `start` changes only the state
(to Begin) and `stop` changes only the state (to Finish); in the interleaved
model the second action of `start` changes only the count of
`stateUpdateSemaphore`. The Begin step of `bufferPiping` changes only
`firstBufferFilled` (to false) and the state (to Running). None of them changes
`bufferWriteIndex`, `buffer` or `stepCount`. Hence a session that starts with
the write index at `i > 0` hands over its first window after `100 - i` pops
and no earlier; that window holds the first `i` buffer entries as the previous
session left them and is discarded (`stepCount` is unchanged and `countSteps`
is not called). In every run from the constructed object `stepCount` is the
sum, modulo `2^32`, of the results of all calls of `countSteps` since
construction, and this is the value that `loop` logs and publishes in its
Finish handling. -/
theorem C25_begin_keeps_window (predict : List Int → Nat → Int) (self : stepcounter)
    (w rest dataQueue : List acceleration_sample_t) (evs : List stepcounter_event)
    (hinv : self.inv) (hst : self.state = stepcounter_state_t.STEPCOUNTER_STATE_BEGIN)
    (hi : 0 < self.bufferWriteIndex) (hw : self.bufferWriteIndex + w.length = 100)
    (hq : self.dataQueue = w ++ rest) :
    (∀ s : stepcounter,
        s.start = (0, { s with state := stepcounter_state_t.STEPCOUNTER_STATE_BEGIN })
          ∧ s.stop = (0, { s with state := stepcounter_state_t.STEPCOUNTER_STATE_FINISH }))
      ∧ (∀ t : stepcounter_threads,
          threadsStep predict thread_action.startState t
              = some { t with
                  self := { t.self with state := stepcounter_state_t.STEPCOUNTER_STATE_BEGIN } }
            ∧ threadsStep predict thread_action.startGive t
              = some { t with
                  stateUpdateSemaphore := (os_semaphore_give t.stateUpdateSemaphore).2 }
            ∧ threadsStep predict thread_action.stop t
              = some { t with
                  self := { t.self with
                    state := stepcounter_state_t.STEPCOUNTER_STATE_FINISH } })
      ∧ bufferPiping predict self
          = some { self with
              firstBufferFilled := false
              state := stepcounter_state_t.STEPCOUNTER_STATE_RUNNING }
      ∧ w.length = 100 - self.bufferWriteIndex ∧ w.length < 100
      ∧ (∃ s, forwardDataN predict w.length { self with
              firstBufferFilled := false
              state := stepcounter_state_t.STEPCOUNTER_STATE_RUNNING } = some s
          ∧ s.bufferReadyGiven = self.bufferReadyGiven + 1
          ∧ s.bufferProcessedGiven = self.bufferProcessedGiven + 1
          ∧ s.buffer = self.buffer.take self.bufferWriteIndex ++ w
          ∧ s.bufferWriteIndex = 0 ∧ s.dataQueue = rest
          ∧ s.firstBufferFilled = true
          ∧ s.stepCount = self.stepCount ∧ s.countStepsCalls = self.countStepsCalls)
      ∧ (∀ j, j < w.length →
          ∃ a, forwardDataN predict j { self with
                firstBufferFilled := false
                state := stepcounter_state_t.STEPCOUNTER_STATE_RUNNING } = some a
            ∧ a.bufferReadyGiven = self.bufferReadyGiven
            ∧ a.bufferWriteIndex = self.bufferWriteIndex + j)
      ∧ (∃ s, runEvents predict evs (stepcounter.new dataQueue) = some s
          ∧ (∀ c ∈ s.countStepsCalls, c.genuine predict)
          ∧ s.stepCount = toUInt32 (totalSteps s.countStepsCalls))
      ∧ (∀ m : main_state, m.measuringState = MEASURING_STATE_T.MEASURING_STATE_FINISH →
          (loop m).logged = m.logged ++ [m.stepCounter.stepCount]
            ∧ (loop m).published = m.published ++ [m.stepCounter.stepCount]) := by
  have hidx : self.bufferWriteIndex < 100 := by
    have := hinv.2.2
    rw [DATA_BUFFER_SIZE_eq] at this
    exact this
  have hwne : w ≠ [] := by
    intro h
    rw [h] at hw
    simp at hw
    omega
  have hinv1 : ({ self with
      firstBufferFilled := false
      state := stepcounter_state_t.STEPCOUNTER_STATE_RUNNING } : stepcounter).inv := hinv
  refine ⟨fun s => ⟨rfl, rfl⟩, fun t => ⟨rfl, rfl, rfl⟩, bufferPiping_begin predict self hst,
    by omega, by omega, ?_, ?_, ?_, ?_⟩
  · have hfill := forwardDataN_fill predict rest w _ hinv1 hwne hw hq
    rw [predictSteps_first predict _ rfl] at hfill
    exact ⟨_, hfill, rfl, rfl, rfl, rfl, rfl, rfl, rfl, rfl⟩
  · intro j hj
    obtain ⟨a, ha, -, -, hai, har⟩ := forwardDataN_counts predict j _ hinv1
      (by show j ≤ self.dataQueue.length; rw [hq, List.length_append]; omega)
    refine ⟨a, ha, ?_, ?_⟩
    · rw [har]
      show self.bufferReadyGiven + (self.bufferWriteIndex + j) / 100 = self.bufferReadyGiven
      rw [Nat.div_eq_of_lt (by omega)]
      rfl
    · rw [hai]
      show (self.bufferWriteIndex + j) % 100 = self.bufferWriteIndex + j
      exact Nat.mod_eq_of_lt (by omega)
  · obtain ⟨s, calls, hs, -, hc, hg, hcount⟩ :=
      runEvents_counted predict evs _ (stepcounter_new_inv dataQueue)
    have hc2 : s.countStepsCalls = calls := by
      rw [hc]; rfl
    refine ⟨s, hs, by rw [hc2]; exact hg, ?_⟩
    rw [hc2, hcount]
    show toUInt32 (((0 : Nat) : Int) + totalSteps calls) = toUInt32 (totalSteps calls)
    simp
  · intro m hm
    constructor
    · unfold loop
      rw [hm]
      simp [accelerometer.stop, stepcounter.stop]
    · unfold loop
      rw [hm]
      simp [accelerometer.stop, stepcounter.stop]

/-- Claim C25 at an object that a previous session left with the write index
at 37 and a step count of 1: the first window of the new session is handed
over after 63 pops and discarded. -/
theorem C25_begin_keeps_window_witness :
    (secondSessionCounter.inv
        ∧ secondSessionCounter.state = stepcounter_state_t.STEPCOUNTER_STATE_BEGIN
        ∧ 0 < secondSessionCounter.bufferWriteIndex
        ∧ secondSessionCounter.bufferWriteIndex + (zeroWindow 63).length = 100
        ∧ secondSessionCounter.dataQueue = zeroWindow 63 ++ zeroWindow 5)
      ∧ ∃ s, forwardDataN (constantPredictor 1) (zeroWindow 63).length
            { secondSessionCounter with
              firstBufferFilled := false
              state := stepcounter_state_t.STEPCOUNTER_STATE_RUNNING } = some s
          ∧ s.bufferReadyGiven = secondSessionCounter.bufferReadyGiven + 1
          ∧ s.bufferProcessedGiven = secondSessionCounter.bufferProcessedGiven + 1
          ∧ s.buffer = secondSessionCounter.buffer.take secondSessionCounter.bufferWriteIndex
              ++ zeroWindow 63
          ∧ s.bufferWriteIndex = 0 ∧ s.dataQueue = zeroWindow 5
          ∧ s.firstBufferFilled = true
          ∧ s.stepCount = secondSessionCounter.stepCount
          ∧ s.countStepsCalls = secondSessionCounter.countStepsCalls :=
  ⟨by decide,
    (C25_begin_keeps_window (constantPredictor 1) secondSessionCounter (zeroWindow 63)
      (zeroWindow 5) [] [] (by decide) (by decide) (by decide) (by decide)
      (by decide)).2.2.2.2.2.1⟩

/-! ## The mean absolute difference fits 16 bits -/

/-- The remainder of the truncating division by a positive number is smaller
than the divisor in absolute value. -/
theorem tdiv_rem_bounds {S n : Int} (hn : 0 < n) :
    -n < S - n * Int.tdiv S n ∧ S - n * Int.tdiv S n < n := by
  rcases le_or_lt 0 S with hS | hS
  · rw [Int.tdiv_eq_ediv hS (le_of_lt hn)]
    have h1 := Int.emod_nonneg S (ne_of_gt hn)
    have h2 := Int.emod_lt_of_pos S hn
    have h3 := Int.emod_add_ediv S n
    constructor <;> omega
  · have e : Int.tdiv S n = -((-S) / n) := by
      have := Int.neg_tdiv (-S) n
      rw [neg_neg] at this
      rw [this, Int.tdiv_eq_ediv (by omega) (le_of_lt hn)]
    rw [e]
    have h1 := Int.emod_nonneg (-S) (ne_of_gt hn)
    have h2 := Int.emod_lt_of_pos (-S) hn
    have h3 := Int.emod_add_ediv (-S) n
    have h4 : n * -(-S / n) = -(n * (-S / n)) := by ring
    rw [h4]
    constructor <;> omega

/-- The sum of the absolute differences to `m`, split into the part of the
values above `m` and the part of the values not above `m`. -/
theorem sumAbsDiff_split (m lo hi : Int) :
    ∀ vs : List Int, (∀ v ∈ vs, lo ≤ v ∧ v ≤ hi) →
      ∃ a b P Q : Int, 0 ≤ a ∧ 0 ≤ b ∧ a + b = vs.length
        ∧ P ≤ a * (hi - m) ∧ Q ≤ b * (m - lo)
        ∧ sumAbsDiff vs m = P + Q ∧ vs.sum - vs.length * m = P - Q := by
  intro vs
  induction vs with
  | nil => intro _; exact ⟨0, 0, 0, 0, by simp [sumAbsDiff]⟩
  | cons v vs ih =>
    intro h
    obtain ⟨a, b, P, Q, ha, hb, hab, hP, hQ, hD, hS⟩ :=
      ih (fun x hx => h x (List.mem_cons_of_mem _ hx))
    have hv := h v (List.mem_cons_self _ _)
    have hD1 : sumAbsDiff (v :: vs) m = |v - m| + sumAbsDiff vs m := by
      simp [sumAbsDiff]
    have hS1 : (v :: vs).sum - ((v :: vs).length : Int) * m
        = (v - m) + (vs.sum - (vs.length : Int) * m) := by
      simp only [List.sum_cons, List.length_cons, Nat.cast_add, Nat.cast_one]
      ring
    rw [hD1, hS1, hD, hS]
    have hlen : (((v :: vs).length : Nat) : Int) = (vs.length : Int) + 1 := by simp
    rw [hlen]
    rcases le_or_lt v m with hvm | hvm
    · have e : |v - m| = m - v := by
        rw [abs_sub_comm]; exact abs_of_nonneg (by omega)
      rw [e]
      refine ⟨a, b + 1, P, Q + (m - v), ha, by omega, by omega, hP, ?_, by ring, by ring⟩
      linarith [hv.1]
    · have e : |v - m| = v - m := abs_of_nonneg (by omega)
      rw [e]
      refine ⟨a + 1, b, P + (v - m), Q, by omega, hb, by omega, ?_, hQ, by ring, by ring⟩
      linarith [hv.2]

/-- The sum of the absolute differences of `n` 16-bit values to their integer
mean is below `32768 * n`. -/
theorem sumAbsDiff_lt (vs : List Int) (h0 : 0 < vs.length)
    (h16 : ∀ v ∈ vs, isInt16 v) :
    0 ≤ sumAbsDiff vs (integerMean vs)
      ∧ sumAbsDiff vs (integerMean vs) < 32768 * (vs.length : Int) := by
  have hn : (0 : Int) < (vs.length : Int) := by omega
  obtain ⟨a, b, P, Q, ha, hb, hab, hP, hQ, hD, hS⟩ :=
    sumAbsDiff_split (integerMean vs) (-32768) 32767 vs h16
  have hr := tdiv_rem_bounds (S := vs.sum) hn
  have hm : integerMean vs = Int.tdiv vs.sum vs.length := rfl
  rw [← hm] at hr
  have hnn : 0 ≤ sumAbsDiff vs (integerMean vs) := by
    unfold sumAbsDiff
    apply List.sum_nonneg
    intro x hx
    obtain ⟨v, -, rfl⟩ := List.mem_map.1 hx
    exact abs_nonneg _
  refine ⟨hnn, ?_⟩
  generalize sumAbsDiff vs (integerMean vs) = D at hD hnn ⊢
  generalize integerMean vs = m at hP hQ hS hr
  generalize (vs.length : Int) = n at hn hab hS hr
  generalize vs.sum = S at hS hr
  have hrr : S - n * m = P - Q := hS
  set r := S - n * m with hrdef
  have hP2 : 2 * P = D + r := by rw [hD, hrr]; ring
  have hQ2 : 2 * Q = D - r := by rw [hD, hrr]; ring
  have h1 : b * (D + r) ≤ 2 * (a * b) * (32767 - m) := by
    have := mul_le_mul_of_nonneg_left hP hb
    rw [← hP2]
    linarith
  have h2 : a * (D - r) ≤ 2 * (a * b) * (m - -32768) := by
    have := mul_le_mul_of_nonneg_left hQ ha
    rw [← hQ2]
    linarith
  have h3 : n * D ≤ 2 * (a * b) * 65535 + (a - b) * r := by
    rw [← hab]
    linarith
  have h4 : r * r < n * n := by
    have := mul_pos (show 0 < n - r by linarith [hr.2]) (show 0 < n + r by linarith [hr.1])
    linarith
  have h5 : 2 * (2 * (a * b) * 65535 + (a - b) * r) < 65536 * (n * n) := by
    have h6 : n * n = (a - b) * (a - b) + 4 * (a * b) := by rw [← hab]; ring
    have s1 := mul_self_nonneg (a - b - r)
    have s2 := mul_self_nonneg (a - b)
    linarith
  by_contra hcon
  have h7 : 32768 * n ≤ D := by omega
  have h8 := mul_le_mul_of_nonneg_left h7 (le_of_lt hn)
  linarith

/-- The quotient of the mean absolute difference lies in `[0, 32767]`. -/
theorem meanAbsDiff_quotient_range (vs : List Int) (h0 : 0 < vs.length)
    (h16 : ∀ v ∈ vs, isInt16 v) :
    0 ≤ sumAbsDiff vs (integerMean vs) / (vs.length : Int)
      ∧ sumAbsDiff vs (integerMean vs) / (vs.length : Int) ≤ 32767 := by
  obtain ⟨h1, h2⟩ := sumAbsDiff_lt vs h0 h16
  have hn : (0 : Int) < (vs.length : Int) := by omega
  constructor
  · exact Int.ediv_nonneg h1 (le_of_lt hn)
  · have : sumAbsDiff vs (integerMean vs) / (vs.length : Int) < 32768 :=
      (Int.ediv_lt_iff_lt_mul hn).2 h2
    omega

/-- Claim C26 as stated fails at `N = 1`. On a window of one sample the
quotient of the mean absolute difference is 0, which fits 16 bits, but
`statisticalfeatures_getFeatures` divides by `N - 1 = 0` in the standard
deviation helper before `features[1]` is stored: there is no `features[1]`
that equals the quotient. -/
theorem C26_counterexample_single_sample :
    (1 ≤ singleSampleWindow.length ∧ singleSampleWindow.length ≤ 255
        ∧ (∀ s ∈ singleSampleWindow, s.wf) ∧ 6 ≤ zeroFeatures.length)
      ∧ statisticalfeatures_mean singleSampleWindow singleSampleWindow.length AXIS_T.AXIS_Z
          = some 5
      ∧ sumAbsDiff (axisValues singleSampleWindow AXIS_T.AXIS_Z) 5
          / (singleSampleWindow.length : Int) = 0
      ∧ statisticalfeatures_std singleSampleWindow singleSampleWindow.length AXIS_T.AXIS_Z 5
          = none
      ∧ statisticalfeatures_getFeatures singleSampleWindow singleSampleWindow.length zeroFeatures
          = none
      ∧ ¬ ∃ feats, statisticalfeatures_getFeatures singleSampleWindow
            singleSampleWindow.length zeroFeatures = some (0, feats)
          ∧ feats[1]? = some (sumAbsDiff (axisValues singleSampleWindow AXIS_T.AXIS_Z) 5
              / (singleSampleWindow.length : Int)) := by
  have h : statisticalfeatures_getFeatures singleSampleWindow singleSampleWindow.length
      zeroFeatures = none := by decide
  refine ⟨by decide, by decide, by decide, by decide, h, ?_⟩
  rintro ⟨feats, hf, -⟩
  rw [h] at hf
  exact Option.noConfusion hf

/-- Claim C26, amended. The mean absolute difference never wraps. For every
window of `N` signed 16-bit samples with `1 ≤ N ≤ 255`, with `m` the integer
mean of z that `statisticalfeatures_mean` returns (truncated toward zero), the
quotient `(sum of |z_i - m|) / N` lies in `[0, 32767]` and
`statisticalfeatures_mean_abs_diff` returns it exactly; for `2 ≤ N ≤ 255`
`statisticalfeatures_getFeatures` returns and `features[1]` is that quotient,
which is not negative, and for `N = 1` it produces no features. -/
theorem C26_mean_abs_diff_never_wraps (samples : List acceleration_sample_t)
    (features : List Int) (hN1 : 1 ≤ samples.length) (hN255 : samples.length ≤ 255)
    (hwf : ∀ s ∈ samples, s.wf) (h6 : 6 ≤ features.length) :
    statisticalfeatures_mean samples samples.length AXIS_T.AXIS_Z
        = some (integerMean (axisValues samples AXIS_T.AXIS_Z))
      ∧ 0 ≤ sumAbsDiff (axisValues samples AXIS_T.AXIS_Z)
          (integerMean (axisValues samples AXIS_T.AXIS_Z)) / (samples.length : Int)
      ∧ sumAbsDiff (axisValues samples AXIS_T.AXIS_Z)
          (integerMean (axisValues samples AXIS_T.AXIS_Z)) / (samples.length : Int) ≤ 32767
      ∧ statisticalfeatures_mean_abs_diff samples samples.length AXIS_T.AXIS_Z
          (integerMean (axisValues samples AXIS_T.AXIS_Z))
        = some (sumAbsDiff (axisValues samples AXIS_T.AXIS_Z)
            (integerMean (axisValues samples AXIS_T.AXIS_Z)) / (samples.length : Int))
      ∧ (2 ≤ samples.length →
          ∃ feats f1, statisticalfeatures_getFeatures samples samples.length features
              = some (0, feats)
            ∧ feats[1]? = some f1 ∧ 0 ≤ f1
            ∧ f1 = sumAbsDiff (axisValues samples AXIS_T.AXIS_Z)
                (integerMean (axisValues samples AXIS_T.AXIS_Z)) / (samples.length : Int))
      ∧ (samples.length = 1 →
          statisticalfeatures_getFeatures samples samples.length features = none) := by
  have hwf2 : ∀ s ∈ samples.take samples.length, s.wf := by
    rw [List.take_length]; exact hwf
  have hm := mean_exact samples AXIS_T.AXIS_Z samples.length (le_refl _) (by omega) hN255 hwf2
  have hmad := mean_abs_diff_exact samples AXIS_T.AXIS_Z
    (integerMean (axisValues samples AXIS_T.AXIS_Z)) samples.length (le_refl _) hN1 hN255 hwf2
  rw [List.take_length] at hm hmad
  have hlen : (axisValues samples AXIS_T.AXIS_Z).length = samples.length := by
    simp [axisValues]
  have hrange := meanAbsDiff_quotient_range (axisValues samples AXIS_T.AXIS_Z)
    (by rw [hlen]; omega) (fun v hv => mem_axisValues_isInt16 hwf hv)
  rw [hlen] at hrange
  have h16 : toInt16 (sumAbsDiff (axisValues samples AXIS_T.AXIS_Z)
      (integerMean (axisValues samples AXIS_T.AXIS_Z)) / (samples.length : Int))
      = sumAbsDiff (axisValues samples AXIS_T.AXIS_Z)
        (integerMean (axisValues samples AXIS_T.AXIS_Z)) / (samples.length : Int) :=
    toInt16_eq_self ⟨by omega, hrange.2⟩
  refine ⟨hm.1, hrange.1, hrange.2, ?_, ?_, ?_⟩
  · rw [hmad hm.2, h16]
  · intro hN2
    obtain ⟨f2, f3, f4, f5, -, -, -, -, h⟩ :=
      getFeatures_window samples features hN2 hN255 hwf h6
    rw [h16] at h
    exact ⟨_, _, h, rfl, hrange.1, rfl⟩
  · intro h1
    exact getFeatures_size_one samples samples.length features (by rw [h1]; rfl) hN1

/-- Claim C26, amended, at the window of the two extreme 16-bit values, where
the quotient is `65535 / 2 = 32767`. -/
theorem C26_mean_abs_diff_never_wraps_witness :
    (1 ≤ extremeWindow.length ∧ extremeWindow.length ≤ 255 ∧ (∀ s ∈ extremeWindow, s.wf)
        ∧ 6 ≤ zeroFeatures.length)
      ∧ integerMean (axisValues extremeWindow AXIS_T.AXIS_Z) = 0
      ∧ sumAbsDiff (axisValues extremeWindow AXIS_T.AXIS_Z) 0 = 65535
      ∧ statisticalfeatures_getFeatures extremeWindow 2 zeroFeatures
          = some (0, [1, 32767, 0, 0, 0, -1])
      ∧ statisticalfeatures_mean_abs_diff extremeWindow extremeWindow.length AXIS_T.AXIS_Z
          (integerMean (axisValues extremeWindow AXIS_T.AXIS_Z))
        = some (sumAbsDiff (axisValues extremeWindow AXIS_T.AXIS_Z)
            (integerMean (axisValues extremeWindow AXIS_T.AXIS_Z))
              / (extremeWindow.length : Int)) :=
  ⟨by decide, by decide, by decide, by decide,
    (C26_mean_abs_diff_never_wraps extremeWindow zeroFeatures (by decide) (by decide)
      (by decide) (by decide)).2.2.2.1⟩
